import Mathlib

/-!
# Auropay Node SDK: request builders and payload assembly

A shallow embedding of the validation and request-assembly layer of the SDK
(`lib/utils/validation-functions.js`, `lib/Requests/*.js`, `auropay.js`).

* JavaScript primitive values are the type `JsVal`; plain objects with primitive
  fields are association lists (`Obj`).
* A thrown value is an `Err`: either an entry of the error catalog, named by its
  code, or the `TypeError` the engine raises for a method call on a value that
  has no such method.
* The services of the JavaScript engine that the SDK calls (string to number
  conversion, number to string conversion, the clock, `Date` parsing) are the
  fields of `Runtime`.
* A setter is a function from the container before the call to a `Result`: the
  container after the call together with the thrown error, if any.
-/

namespace AuropaySDK

/-! ## Values -/

/-- A JavaScript number: `NaN`, the two infinities, or a finite value. -/
inductive JsNum where
  | nan
  | posInf
  | negInf
  | fin (q : ℚ)
  deriving DecidableEq

/-- A JavaScript primitive value. -/
inductive JsVal where
  | undefined
  | null
  | bool (b : Bool)
  | num (n : JsNum)
  | str (s : String)
  deriving DecidableEq

/-- A thrown value: `ErrorCodeMapper.getMessage(code)`, identified by its code (the
message table itself is not needed), or an engine `TypeError`. -/
inductive Err where
  | catalog (code : String)
  | typeError
  deriving DecidableEq

/-- A plain object whose properties hold primitive values, in insertion order. -/
abbrev Obj := List (String × JsVal)

/-- Property read `o.k` on a plain object: `undefined` when the property is absent. -/
def Obj.get (o : Obj) (k : String) : JsVal :=
  match o with
  | [] => JsVal.undefined
  | (k', v) :: rest => if k' = k then v else Obj.get rest k

/-- A value held by a request container. -/
inductive Value where
  | prim (v : JsVal)
  | obj (o : Obj)
  | arr (os : List Obj)
  deriving DecidableEq

/-- The `container` object of a request builder: keys in insertion order. -/
abbrev Container := List (String × Value)

/-- Property read `container[k]`; `none` stands for an absent key. -/
def Container.get (c : Container) (k : String) : Option Value :=
  match c with
  | [] => none
  | (k', v) :: rest => if k' = k then some v else Container.get rest k

/-- Property write `container[k] = v`: an existing key keeps its position. -/
def Container.set (c : Container) (k : String) (v : Value) : Container :=
  match c with
  | [] => [(k, v)]
  | (k', v') :: rest => if k' = k then (k, v) :: rest else (k', v') :: Container.set rest k v

/-- The keys of a container, in order. -/
def Container.keys (c : Container) : List String := c.map Prod.fst

/-- The state after a setter call and the value it threw, if it threw. -/
structure Result where
  container : Container
  thrown : Option Err
  deriving DecidableEq

/-- The services of the JavaScript engine used by the SDK. `toNumber` is the
conversion of a string to a number, `numberToString` the conversion of a number to a
string, `now` the time value of `new Date()` in milliseconds, and `dateParse` the time
value of `new Date(s)` for a string `s`, `none` standing for an invalid date. -/
structure Runtime where
  toNumber : String → JsNum
  numberToString : JsNum → String
  now : Int
  dateParse : String → Option Int

/-! ## Strings -/

/-- The code points that `String.prototype.trim` removes and that `\s` matches:
white space and line terminators. -/
def isJsWhitespace (c : Char) : Bool :=
  let n := c.toNat
  n = 9 || n = 10 || n = 11 || n = 12 || n = 13 || n = 32 || n = 160 || n = 5760
    || (8192 ≤ n && n ≤ 8202) || n = 8232 || n = 8233 || n = 8239 || n = 8287
    || n = 12288 || n = 65279

/-- The characters of `s.trim()`. -/
def trimChars (cs : List Char) : List Char :=
  ((cs.dropWhile isJsWhitespace).reverse.dropWhile isJsWhitespace).reverse

/-- The string `s.trim()`. -/
def jsTrim (s : String) : String := String.mk (trimChars s.data)

/-- The number of UTF-16 code units of a character. -/
def utf16Units (c : Char) : Nat := if c.toNat < 65536 then 1 else 2

/-- The value of `s.length`: the number of UTF-16 code units. -/
def jsLength (s : String) : Nat := (s.data.map utf16Units).sum

/-! ## Conversions -/

/-- The conversion `ToBoolean`, as applied by `!value` and `value && ...`. -/
def truthy : JsVal → Bool
  | JsVal.undefined => false
  | JsVal.null => false
  | JsVal.bool b => b
  | JsVal.num JsNum.nan => false
  | JsVal.num (JsNum.fin q) => decide (q ≠ 0)
  | JsVal.num _ => true
  | JsVal.str s => decide (s.data ≠ [])

/-- The conversion `ToNumber` on primitives. -/
def ToNumber (rt : Runtime) : JsVal → JsNum
  | JsVal.undefined => JsNum.nan
  | JsVal.null => JsNum.fin 0
  | JsVal.bool b => JsNum.fin (if b then 1 else 0)
  | JsVal.num n => n
  | JsVal.str s => rt.toNumber s

/-- The conversion `ToString` on primitives. -/
def ToString (rt : Runtime) : JsVal → String
  | JsVal.undefined => "undefined"
  | JsVal.null => "null"
  | JsVal.bool b => if b then "true" else "false"
  | JsVal.num n => rt.numberToString n
  | JsVal.str s => s

/-- The global `isNaN(v)`. -/
def isNaN (rt : Runtime) (v : JsVal) : Bool :=
  match ToNumber rt v with
  | JsNum.nan => true
  | _ => false

/-- The comparison `v <= 0`: both sides are converted to numbers, and a `NaN` makes it false. -/
def leZero (rt : Runtime) (v : JsVal) : Bool :=
  match ToNumber rt v with
  | JsNum.nan => false
  | JsNum.posInf => false
  | JsNum.negInf => true
  | JsNum.fin q => decide (q ≤ 0)

/-- The method call `value.trim()`: a string is trimmed, `undefined` and `null` have no
properties and the other primitives have no `trim` method. -/
def callTrim : JsVal → Except Err String
  | JsVal.str s => Except.ok (jsTrim s)
  | _ => Except.error Err.typeError

/-- The property read `value.length` of a truthy primitive followed by `> maxLength`:
only a string has a length, and `undefined > maxLength` is false. -/
def lengthExceeds (v : JsVal) (maxLength : Nat) : Bool :=
  match v with
  | JsVal.str s => decide (maxLength < jsLength s)
  | _ => false

/-! ## Regular expressions -/

/-- The regular expressions needed for the patterns of the SDK. A character class is a
predicate on characters. -/
inductive Re where
  | none
  | eps
  | cls (p : Char → Bool)
  | seq (a b : Re)
  | alt (a b : Re)
  | star (a : Re)

namespace Re

/-- The words matched by a regular expression. -/
def Lang : Re → List Char → Prop
  | none, _ => False
  | eps, w => w = []
  | cls p, w => ∃ c, w = [c] ∧ p c = true
  | seq a b, w => ∃ u v, w = u ++ v ∧ Lang a u ∧ Lang b v
  | alt a b, w => Lang a w ∨ Lang b w
  | star a, w => ∃ parts : List (List Char), w = parts.flatten ∧ ∀ u ∈ parts, u ≠ [] ∧ Lang a u

/-- Whether the empty word is matched. -/
def nullable : Re → Bool
  | none => false
  | eps => true
  | cls _ => false
  | seq a b => nullable a && nullable b
  | alt a b => nullable a || nullable b
  | star _ => true

/-- The derivative of a regular expression by a character. -/
def deriv : Re → Char → Re
  | none, _ => none
  | eps, _ => none
  | cls p, c => if p c then eps else none
  | seq a b, c =>
    if nullable a then alt (seq (deriv a c) b) (deriv b c) else seq (deriv a c) b
  | alt a b, c => alt (deriv a c) (deriv b c)
  | star a, c => seq (deriv a c) (star a)

/-- The matcher: does the whole word match? -/
def rmatch : Re → List Char → Bool
  | r, [] => nullable r
  | r, c :: w => rmatch (deriv r c) w

/-- The pattern `a{m,n}`. -/
def range (a : Re) : Nat → Nat → Re
  | 0, 0 => eps
  | 0, n + 1 => alt eps (seq a (range a 0 n))
  | _ + 1, 0 => none
  | m + 1, n + 1 => seq a (range a m n)

/-- The pattern `a{m,}`. -/
def atLeast (a : Re) : Nat → Re
  | 0 => star a
  | m + 1 => seq a (atLeast a m)

/-- The pattern `a?`. -/
def opt (a : Re) : Re := alt eps a

/-- The class matching every character. -/
def any : Re := cls (fun _ => true)

/-- The pattern matching exactly the characters of a literal. -/
def lit : List Char → Re
  | [] => eps
  | c :: w => seq (cls (fun x => x == c)) (lit w)

end Re

/-- A JavaScript regular expression without flags: a body with optional `^` and `$`. -/
structure RegExp where
  anchoredStart : Bool
  body : Re
  anchoredEnd : Bool

/-- The pattern that must match the whole string for `test` to succeed. -/
def RegExp.whole (re : RegExp) : Re :=
  Re.seq (if re.anchoredStart then Re.eps else Re.star Re.any)
    (Re.seq re.body (if re.anchoredEnd then Re.eps else Re.star Re.any))

/-- The call `regex.test(s)` on a string: is there a match anywhere in `s`? The patterns
of the SDK use ASCII classes and their complements only, so matching character by
character agrees with matching UTF-16 code unit by code unit. -/
def RegExp.test (re : RegExp) (s : String) : Bool := Re.rmatch re.whole s.data

/-! ## `lib/utils/validation-functions.js` -/

namespace ValidationFunctions

/-- The function `emptyCheck(value, errorMessage)`: throws when `!value`, and otherwise when
`value.trim().length === 0`; the call `value.trim()` itself throws on a non-string. -/
def emptyCheck (value : JsVal) (errorMessage : Err) : Except Err Unit :=
  if !truthy value then Except.error errorMessage
  else
    match callTrim value with
    | Except.error e => Except.error e
    | Except.ok t => if jsLength t = 0 then Except.error errorMessage else Except.ok ()

/-- The function `validateSpecialChar(value, regex, errorMessage)`: throws when
`regex.test(value)`. -/
def validateSpecialChar (rt : Runtime) (value : JsVal) (regex : RegExp) (errorMessage : Err) :
    Except Err Unit :=
  if regex.test (ToString rt value) then Except.error errorMessage else Except.ok ()

/-- The function `checkMaxCharLength(value, maxLength, errorMessage)`: throws when
`value && value.length > maxLength`. -/
def checkMaxCharLength (value : JsVal) (maxLength : Nat) (errorMessage : Err) : Except Err Unit :=
  if truthy value && lengthExceeds value maxLength then Except.error errorMessage
  else Except.ok ()

/-- The function `regexValidator(value, regex, errorMessage)`: throws when
`!regex.test(value)`. -/
def regexValidator (rt : Runtime) (value : JsVal) (regex : RegExp) (errorMessage : Err) :
    Except Err Unit :=
  if !regex.test (ToString rt value) then Except.error errorMessage else Except.ok ()

end ValidationFunctions

/-- The call `ErrorCodeMapper.getMessage(code)`. -/
def getMessage (code : String) : Err := Err.catalog code

/-- A setter body: when the checks throw, the container is left as it was and the error
is reported; otherwise the assignment is carried out. -/
def assign (c : Container) (checks : Except Err Unit) (k : String) (v : Value) : Result :=
  match checks with
  | Except.error e => Result.mk c (some e)
  | Except.ok _ => Result.mk (c.set k v) Option.none

/-- A setter body that stores the trimmed value: `checks` yields the trimmed string when
no check throws. -/
def assignTrimmed (c : Container) (checks : Except Err String) (k : String) : Result :=
  match checks with
  | Except.error e => Result.mk c (some e)
  | Except.ok t => Result.mk (c.set k (Value.prim (JsVal.str t))) Option.none

/-- The expression `container[k] || dflt` of a getter. -/
def getOr (c : Container) (k : String) (dflt : Value) : Value :=
  match c.get k with
  | some (Value.prim v) => if truthy v then Value.prim v else dflt
  | some v => v
  | Option.none => dflt

/-! ## The patterns of `lib/Requests/create-payment-request.js` -/

/-- The class `[a-zA-Z0-9 ]`. -/
def isPlainChar (c : Char) : Bool := c.isAlphanum || c == ' '

/-- The class `[a-zA-Z\s]`. -/
def isNameChar (c : Char) : Bool := c.isAlpha || isJsWhitespace c

/-- The class `[a-zA-Z0-9._%+-]`. -/
def isEmailLocalChar (c : Char) : Bool :=
  c.isAlphanum || c == '.' || c == '_' || c == '%' || c == '+' || c == '-'

/-- The class `[a-zA-Z0-9.-]`. -/
def isEmailDomainChar (c : Char) : Bool := c.isAlphanum || c == '.' || c == '-'

/-- The class `[a-zA-Z0-9@:%._\+~#?&/=]`. -/
def isUrlChar (c : Char) : Bool :=
  c.isAlphanum || c == '@' || c == ':' || c == '%' || c == '.' || c == '_' || c == '+'
    || c == '~' || c == '#' || c == '?' || c == '&' || c == '/' || c == '='

/-- The class `[-a-zA-Z0-9@:%._\+~#?&/=]`. -/
def isUrlTailChar (c : Char) : Bool := c == '-' || isUrlChar c

/-- The class `\w`. -/
def isWordChar (c : Char) : Bool := c.isAlphanum || c == '_'

/-- The pattern `/[^a-zA-Z0-9 ]/`. -/
def SPECIAL_CHAR_REGEX : RegExp :=
  RegExp.mk false (Re.cls (fun c => !isPlainChar c)) false

/-- The pattern `/^[a-zA-Z\s]{1,70}$/`. -/
def NAME_REGEX : RegExp := RegExp.mk true (Re.range (Re.cls isNameChar) 1 70) true

/-- The pattern `/^[a-zA-Z0-9._%+-]+@[a-zA-Z0-9.-]+\.[a-zA-Z]{2,}$/`. -/
def EMAIL_REGEX : RegExp :=
  RegExp.mk true
    (Re.seq (Re.atLeast (Re.cls isEmailLocalChar) 1)
      (Re.seq (Re.lit ['@'])
        (Re.seq (Re.atLeast (Re.cls isEmailDomainChar) 1)
          (Re.seq (Re.lit ['.']) (Re.atLeast (Re.cls Char.isAlpha) 2)))))
    true

/-- The pattern `/^\d{10,15}$/`. -/
def PHONE_REGEX : RegExp := RegExp.mk true (Re.range (Re.cls Char.isDigit) 10 15) true

/-- The pattern `\d{n}`. -/
def digits (n : Nat) : Re := Re.range (Re.cls Char.isDigit) n n

/-- The pattern `/^(\d{2})-(\d{2})-(\d{4}) (\d{2}):(\d{2}):(\d{2})$/`. -/
def DATE_REGEX : RegExp :=
  RegExp.mk true
    (Re.seq (digits 2) (Re.seq (Re.lit ['-']) (Re.seq (digits 2) (Re.seq (Re.lit ['-'])
      (Re.seq (digits 4) (Re.seq (Re.lit [' ']) (Re.seq (digits 2) (Re.seq (Re.lit [':'])
        (Re.seq (digits 2) (Re.seq (Re.lit [':']) (digits 2)))))))))))
    true

/-- The pattern
`/^(https?:\/\/)(www\.)?[a-zA-Z0-9@:%._\+~#?&/=]{2,256}\.[a-z]{2,6}\b([-a-zA-Z0-9@:%._\+~#?&/=]*)$/`.
The assertion `\b` follows a lower-case letter, so it holds exactly when the rest of the
string is empty or starts with a character outside `\w`: the tail `\b([...]*)$` is the
empty string or a non-word character of the tail class followed by tail characters. -/
def CALLBACK_API_URL_REGEX : RegExp :=
  RegExp.mk true
    (Re.seq (Re.seq (Re.lit ['h', 't', 't', 'p']) (Re.seq (Re.opt (Re.lit ['s']))
        (Re.lit [':', '/', '/'])))
      (Re.seq (Re.opt (Re.lit ['w', 'w', 'w', '.']))
        (Re.seq (Re.range (Re.cls isUrlChar) 2 256)
          (Re.seq (Re.lit ['.'])
            (Re.seq (Re.range (Re.cls Char.isLower) 2 6)
              (Re.opt (Re.seq (Re.cls (fun c => isUrlTailChar c && !isWordChar c))
                (Re.star (Re.cls isUrlTailChar)))))))))
    true

/-! ## `lib/Requests/Customer.js`, `callback-parameters.js`, `Settings.js` -/

/-- An instance of the class `Customer`, holding the four constructor arguments. -/
structure Customer where
  firstName : JsVal
  lastName : JsVal
  phone : JsVal
  email : JsVal
  deriving DecidableEq

/-- The method `Customer.toJSON()`: a plain object with the four fields trimmed. -/
def Customer.toJSON (cu : Customer) : Except Err Obj := do
  let firstName ← callTrim cu.firstName
  let lastName ← callTrim cu.lastName
  let phone ← callTrim cu.phone
  let email ← callTrim cu.email
  pure [("firstName", JsVal.str firstName), ("lastName", JsVal.str lastName),
    ("phone", JsVal.str phone), ("email", JsVal.str email)]

/-- An instance of the class `CallbackParameters`. -/
structure CallbackParameters where
  CallbackApiUrl : JsVal
  ReferenceNo : JsVal
  deriving DecidableEq

/-- The method `CallbackParameters.toJSON()`. -/
def CallbackParameters.toJSON (cb : CallbackParameters) : Except Err Obj := do
  let url ← callTrim cb.CallbackApiUrl
  let ref ← callTrim cb.ReferenceNo
  pure [("CallbackApiUrl", JsVal.str url), ("ReferenceNo", JsVal.str ref)]

/-- An instance of the class `Settings`. -/
structure Settings where
  displaySummary : JsVal
  deriving DecidableEq

/-- The method `Settings.toJSON()`. -/
def Settings.toJSON (st : Settings) : Obj := [("displaySummary", st.displaySummary)]

/-- An argument of `setCustomers`: a primitive, an instance of `Customer`, a plain object
that is not an array, or an array whose elements are objects (plain objects or
`Customer` instances, read through their properties). -/
inductive CustomerDetails where
  | prim (v : JsVal)
  | inst (cu : Customer)
  | object (o : Obj)
  | array (os : List Obj)

/-- An argument of `setCallbackParameters`. -/
inductive CallbackInput where
  | prim (v : JsVal)
  | inst (cb : CallbackParameters)
  | object (o : Obj)

/-- An argument of `setSettings`. -/
inductive SettingsInput where
  | prim (v : JsVal)
  | inst (st : Settings)
  | object (o : Obj)

/-- The test `x.length === 0` on a plain object. -/
def lengthIsZero (o : Obj) : Bool := decide (o.get "length" = JsVal.num (JsNum.fin 0))

/-! ## `lib/Requests/create-payment-request.js` -/

namespace CreatePaymentRequest

open ValidationFunctions

/-- The method `setTitle(title)`. -/
def setTitle (rt : Runtime) (title : JsVal) (c : Container) : Result :=
  assignTrimmed c (do
      emptyCheck title (getMessage "SE0003")
      validateSpecialChar rt title SPECIAL_CHAR_REGEX (getMessage "SE0020")
      checkMaxCharLength title 50 (getMessage "SE0019")
      callTrim title)
    "title"

/-- The method `getTitle()`. -/
def getTitle (c : Container) : Value := getOr c "title" (Value.prim JsVal.null)

/-- The method `setAmount(amount)`. -/
def setAmount (rt : Runtime) (amount : JsVal) (c : Container) : Result :=
  assign c (do
      emptyCheck amount (getMessage "SE0018")
      if isNaN rt amount || leZero rt amount then Except.error (getMessage "SE0002")
      else Except.ok ())
    "amount" (Value.prim amount)

/-- The method `getAmount()`. -/
def getAmount (c : Container) : Value := getOr c "amount" (Value.prim JsVal.null)

/-- The method `setShortDescription(shortDescription)`. -/
def setShortDescription (rt : Runtime) (shortDescription : JsVal) (c : Container) : Result :=
  assignTrimmed c (do
      checkMaxCharLength shortDescription 1000 (getMessage "SE0021")
      validateSpecialChar rt shortDescription SPECIAL_CHAR_REGEX (getMessage "SE0022")
      callTrim shortDescription)
    "shortDescription"

/-- The method `getShortDescription()`. -/
def getShortDescription (c : Container) : Value :=
  getOr c "shortDescription" (Value.prim JsVal.null)

/-- The method `setPaymentDescription(paymentDescription)`. -/
def setPaymentDescription (rt : Runtime) (paymentDescription : JsVal) (c : Container) :
    Result :=
  assignTrimmed c (do
      checkMaxCharLength paymentDescription 1000 (getMessage "SE0004")
      validateSpecialChar rt paymentDescription SPECIAL_CHAR_REGEX (getMessage "SE0023")
      callTrim paymentDescription)
    "paymentDescription"

/-- The method `getPaymentDescription()`. -/
def getPaymentDescription (c : Container) : Value :=
  getOr c "paymentDescription" (Value.prim JsVal.null)

/-- The method `setEnablePartialPayment(enablePartialPayment)`. -/
def setEnablePartialPayment (enablePartialPayment : JsVal) (c : Container) : Result :=
  Result.mk (c.set "enablePartialPayment" (Value.prim enablePartialPayment)) none

/-- The method `getEnablePartialPayment()`. -/
def getEnablePartialPayment (c : Container) : Value :=
  getOr c "enablePartialPayment" (Value.prim (JsVal.bool false))

/-- The method `setEnableMultiplePayment(enableMultiplePayment)`. -/
def setEnableMultiplePayment (enableMultiplePayment : JsVal) (c : Container) : Result :=
  Result.mk (c.set "enableMultiplePayment" (Value.prim enableMultiplePayment)) none

/-- The method `getEnableMultiplePayment()`. -/
def getEnableMultiplePayment (c : Container) : Value :=
  getOr c "enableMultiplePayment" (Value.prim (JsVal.bool false))

/-- The method `setDisplayReceipt(displayReceipt)`. -/
def setDisplayReceipt (displayReceipt : JsVal) (c : Container) : Result :=
  Result.mk (c.set "displayReceipt" (Value.prim displayReceipt)) none

/-- The method `getDisplayReceipt()`. -/
def getDisplayReceipt (c : Container) : Value :=
  getOr c "displayReceipt" (Value.prim (JsVal.bool false))

/-- The call `s.split(sep)` for a one-character separator. -/
def splitChars (sep : Char) : List Char → List (List Char)
  | [] => [[]]
  | c :: w =>
    if c = sep then [] :: splitChars sep w
    else
      match splitChars sep w with
      | [] => [[c]]
      | p :: ps => (c :: p) :: ps

/-- A template-literal substitution of an array element that may be `undefined`. -/
def subst (part : Option (List Char)) : List Char :=
  match part with
  | some p => p
  | none => "undefined".data

/-- The rewriting of `DD-MM-YYYY time` to `YYYY-MM-DD time` in `setExpireOn`: the value is
split at `-`, the third part is split at the space, and the pieces are put together in
the new order. A missing third part makes `yearAndTime.split` throw. -/
def reformatDate (expireOn : String) : Except Err String :=
  let parts := splitChars '-' expireOn.data
  match parts.get? 2 with
  | none => Except.error Err.typeError
  | some yearAndTime =>
    let parts2 := splitChars ' ' yearAndTime
    Except.ok (String.mk (subst (parts2.get? 0) ++ '-' :: (subst (parts.get? 1) ++ '-' ::
      (subst (parts.get? 0) ++ ' ' :: subst (parts2.get? 1)))))

/-- The comparison `inputDate < currentDate` of two dates: an invalid date has the time
value `NaN`, which is not smaller than anything. -/
def dateBefore (inputDate : Option Int) (currentDate : Int) : Bool :=
  match inputDate with
  | some t => decide (t < currentDate)
  | none => false

/-- The method `setExpireOn(expireOn)`. The method `split` exists on strings only. -/
def setExpireOn (rt : Runtime) (expireOn : JsVal) (c : Container) : Result :=
  assign c (do
      regexValidator rt expireOn DATE_REGEX (getMessage "SE0001")
      match expireOn with
      | JsVal.str s =>
        let formattedInputDateStr ← reformatDate s
        if dateBefore (rt.dateParse formattedInputDateStr) rt.now then
          Except.error (getMessage "SE0024")
        else Except.ok ()
      | _ => Except.error Err.typeError)
    "expireOn" (Value.prim expireOn)

/-- The method `getExpireOn()`. -/
def getExpireOn (c : Container) : Value := getOr c "expireOn" (Value.prim JsVal.null)

/-- The body of the `forEach` callback of `setCustomers`: the checks on one customer. -/
def validateCustomer (rt : Runtime) (customer : Obj) : Except Err Unit := do
  emptyCheck (customer.get "firstName") (getMessage "SE0010")
  regexValidator rt (customer.get "firstName") NAME_REGEX (getMessage "SE0034")
  emptyCheck (customer.get "lastName") (getMessage "SE0011")
  regexValidator rt (customer.get "lastName") NAME_REGEX (getMessage "SE0035")
  emptyCheck (customer.get "phone") (getMessage "SE0028")
  regexValidator rt (customer.get "phone") PHONE_REGEX (getMessage "SE0012")
  emptyCheck (customer.get "email") (getMessage "SE0027")
  checkMaxCharLength (customer.get "email") 320 (getMessage "SE0026")
  regexValidator rt (customer.get "email") EMAIL_REGEX (getMessage "SE0013")

/-- The loop `customerDetails.forEach(...)`: the customers are checked in order and the
first failure is thrown. -/
def validateCustomers (rt : Runtime) : List Obj → Except Err Unit
  | [] => Except.ok ()
  | customer :: rest =>
    match validateCustomer rt customer with
    | Except.error e => Except.error e
    | Except.ok _ => validateCustomers rt rest

/-- The method `setCustomers(customerDetails)`. A primitive is falsy or is not an array; a
plain object has length zero or is not an array; an instance of `Customer` is replaced
by the one-element array of its `toJSON()`. -/
def setCustomers (rt : Runtime) (customerDetails : CustomerDetails) (c : Container) : Result :=
  match customerDetails with
  | CustomerDetails.prim _ => Result.mk c (some (getMessage "SE0032"))
  | CustomerDetails.object _ => Result.mk c (some (getMessage "SE0032"))
  | CustomerDetails.inst cu =>
    match cu.toJSON with
    | Except.error e => Result.mk c (some e)
    | Except.ok o => assign c (validateCustomers rt [o]) "Customers" (Value.arr [o])
  | CustomerDetails.array os =>
    if os.length = 0 then Result.mk c (some (getMessage "SE0032"))
    else assign c (validateCustomers rt os) "Customers" (Value.arr os)

/-- The method `getCustomers()`. -/
def getCustomers (c : Container) : Value := getOr c "Customers" (Value.arr [])

/-- The checks of `setCallbackParameters` on the flattened value. -/
def checkCallbackParameters (rt : Runtime) (callbackParameters : Obj) : Except Err Unit := do
  emptyCheck (callbackParameters.get "CallbackApiUrl") (getMessage "SE0031")
  regexValidator rt (callbackParameters.get "CallbackApiUrl") CALLBACK_API_URL_REGEX
    (getMessage "SE0014")
  checkMaxCharLength (callbackParameters.get "CallbackApiUrl") 2048 (getMessage "SE0030")
  checkMaxCharLength (callbackParameters.get "referenceNumber") 50 (getMessage "SE0029")

/-- The method `setCallbackParameters(callbackParameters)`. A truthy primitive has no
property `CallbackApiUrl`, so it is checked like an object without properties. -/
def setCallbackParameters (rt : Runtime) (callbackParameters : CallbackInput) (c : Container) :
    Result :=
  match callbackParameters with
  | CallbackInput.prim v =>
    if !truthy v then Result.mk c (some (getMessage "SE0005"))
    else assign c (checkCallbackParameters rt []) "CallbackParameters" (Value.prim v)
  | CallbackInput.inst cb =>
    match cb.toJSON with
    | Except.error e => Result.mk c (some e)
    | Except.ok o => assign c (checkCallbackParameters rt o) "CallbackParameters" (Value.obj o)
  | CallbackInput.object o =>
    if lengthIsZero o then Result.mk c (some (getMessage "SE0005"))
    else assign c (checkCallbackParameters rt o) "CallbackParameters" (Value.obj o)

/-- The method `getCallbackParameters()`. -/
def getCallbackParameters (c : Container) : Value :=
  getOr c "CallbackParameters" (Value.arr [])

/-- The method `setSettings(settings)`. -/
def setSettings (settings : SettingsInput) (c : Container) : Result :=
  match settings with
  | SettingsInput.prim v =>
    if !truthy v then Result.mk c (some (getMessage "SE0005"))
    else Result.mk (c.set "Settings" (Value.prim v)) none
  | SettingsInput.inst st => Result.mk (c.set "Settings" (Value.obj st.toJSON)) none
  | SettingsInput.object o =>
    if lengthIsZero o then Result.mk c (some (getMessage "SE0005"))
    else Result.mk (c.set "Settings" (Value.obj o)) none

/-- The method `getSettings()`. -/
def getSettings (c : Container) : Value := getOr c "Settings" (Value.arr [])

/-- The method `toArray()`: the container itself. -/
def toArray (c : Container) : Container := c

end CreatePaymentRequest

/-! ## `lib/Requests/create-refund-request.js` -/

namespace CreateRefundRequest

open ValidationFunctions

/-- A property read `container.k` of a getter without default: `undefined` when absent. -/
def read (c : Container) (k : String) : Value :=
  match c.get k with
  | some v => v
  | none => Value.prim JsVal.undefined

/-- The method `getRefundAmount()`. -/
def getRefundAmount (c : Container) : Value := read c "Amount"

/-- The method `setRefundAmount(amount)`. -/
def setRefundAmount (rt : Runtime) (amount : JsVal) (c : Container) : Result :=
  assign c (do
      emptyCheck amount (getMessage "SE0018")
      if isNaN rt amount || leZero rt amount then Except.error (getMessage "SE0002")
      else Except.ok ())
    "Amount" (Value.prim amount)

/-- The method `getRefundRemarks()`. -/
def getRefundRemarks (c : Container) : Value := read c "Remarks"

/-- The method `setRefundRemarks(remark)`. -/
def setRefundRemarks (remark : JsVal) (c : Container) : Result :=
  assign c (checkMaxCharLength remark 200 (getMessage "SE0007")) "Remarks" (Value.prim remark)

/-- The method `getOrderId()`. -/
def getOrderId (c : Container) : Value := read c "OrderId"

/-- The method `setOrderId(orderId)`. -/
def setOrderId (orderId : JsVal) (c : Container) : Result :=
  assign c (emptyCheck orderId (getMessage "SE0006")) "OrderId" (Value.prim orderId)

/-- The method `toArray()`: the container itself. -/
def toArray (c : Container) : Container := c

end CreateRefundRequest

/-! ## `lib/Config/constants.js` and `auropay.js` -/

namespace Constants

def SANDBOX_URL : String := "https://cdgw048sli.execute-api.ap-south-1.amazonaws.com/dev/"
def PRODUCTION_URL : String := "https://secure-api.auropay.net/"
def UAT_URL : String := "https://api.uat.auropay.net/"
def PAYMENTLINK_API : String := "api/paymentlinks"
def REFUND_API : String := "api/refunds"
def PAYMENTQRCODE_API : String := "api/paymentqrcodes"

end Constants

namespace Auropay

/-- The static table `apiVersionsMapping`. -/
def apiVersionsMapping : List (String × String) :=
  [("paymentlink", "1.0"), ("paymentqrcodes", "1.0"), ("refunds", "1.0"),
    ("statusbyrefid", "1.0"), ("statusbytransid", "1.0")]

/-- The method `getApiVersionForService(service)`. -/
def getApiVersionForService (service : String) : String :=
  match apiVersionsMapping.lookup service with
  | some v => if v.data ≠ [] then v else "1.0"
  | none => "1.0"

/-- The arguments of a call of `connect`. -/
structure ConnectCall where
  apiVersion : String
  method : String
  endpoint : String
  data : Container
  deriving DecidableEq

/-- The method `addDefaultSettings(requestData)`. -/
def addDefaultSettings (requestData : Container) : Container :=
  (requestData.set "ResponseType" (Value.prim (JsVal.num (JsNum.fin 1)))).set
    "enableProtection" (Value.prim (JsVal.bool false))

/-- The method `createPaymentLink(data)` up to the call of `connect`; `data` is the
container of the request passed in, `none` standing for a falsy argument. The payload
is the container object itself, with the defaults written into it. -/
def createPaymentLink (data : Option Container) : Except Err ConnectCall :=
  match data with
  | none => Except.error (getMessage "SE0016")
  | some container =>
    let requestArr := CreatePaymentRequest.toArray container
    let apiVersion := getApiVersionForService "paymentlink"
    Except.ok (ConnectCall.mk apiVersion "POST" Constants.PAYMENTLINK_API
      (addDefaultSettings requestArr))

/-- The method `createPaymentQRCode(data)` up to the call of `connect`. -/
def createPaymentQRCode (data : Option Container) : Except Err ConnectCall :=
  match data with
  | none => Except.error (getMessage "SE0017")
  | some container =>
    let apiVersion := getApiVersionForService "paymentqrcodes"
    let requestArr := CreatePaymentRequest.toArray container
    Except.ok (ConnectCall.mk apiVersion "POST" Constants.PAYMENTQRCODE_API
      (addDefaultSettings requestArr))

/-- The method `createRefund(data)` up to the call of `connect`. -/
def createRefund (data : Option Container) : Except Err ConnectCall :=
  match data with
  | none => Except.error (getMessage "SE0029")
  | some container =>
    let apiVersion := getApiVersionForService "refunds"
    let requestArr := CreateRefundRequest.toArray container
    Except.ok (ConnectCall.mk apiVersion "POST" Constants.REFUND_API
      (requestArr.set "UserType" (Value.prim (JsVal.num (JsNum.fin 1)))))

end Auropay

/-! ## Sequences of setter calls -/

/-- A call of a setter of a payment request. -/
inductive PaymentCall where
  | setTitle (title : JsVal)
  | setAmount (amount : JsVal)
  | setShortDescription (shortDescription : JsVal)
  | setPaymentDescription (paymentDescription : JsVal)
  | setEnablePartialPayment (enablePartialPayment : JsVal)
  | setEnableMultiplePayment (enableMultiplePayment : JsVal)
  | setDisplayReceipt (displayReceipt : JsVal)
  | setExpireOn (expireOn : JsVal)
  | setCustomers (customerDetails : CustomerDetails)
  | setCallbackParameters (callbackParameters : CallbackInput)
  | setSettings (settings : SettingsInput)

/-- The effect of a setter call on the container. -/
def PaymentCall.run (rt : Runtime) (call : PaymentCall) (c : Container) : Result :=
  match call with
  | PaymentCall.setTitle v => CreatePaymentRequest.setTitle rt v c
  | PaymentCall.setAmount v => CreatePaymentRequest.setAmount rt v c
  | PaymentCall.setShortDescription v => CreatePaymentRequest.setShortDescription rt v c
  | PaymentCall.setPaymentDescription v => CreatePaymentRequest.setPaymentDescription rt v c
  | PaymentCall.setEnablePartialPayment v => CreatePaymentRequest.setEnablePartialPayment v c
  | PaymentCall.setEnableMultiplePayment v => CreatePaymentRequest.setEnableMultiplePayment v c
  | PaymentCall.setDisplayReceipt v => CreatePaymentRequest.setDisplayReceipt v c
  | PaymentCall.setExpireOn v => CreatePaymentRequest.setExpireOn rt v c
  | PaymentCall.setCustomers d => CreatePaymentRequest.setCustomers rt d c
  | PaymentCall.setCallbackParameters d => CreatePaymentRequest.setCallbackParameters rt d c
  | PaymentCall.setSettings d => CreatePaymentRequest.setSettings d c

/-- The container key a setter writes. -/
def PaymentCall.key : PaymentCall → String
  | PaymentCall.setTitle _ => "title"
  | PaymentCall.setAmount _ => "amount"
  | PaymentCall.setShortDescription _ => "shortDescription"
  | PaymentCall.setPaymentDescription _ => "paymentDescription"
  | PaymentCall.setEnablePartialPayment _ => "enablePartialPayment"
  | PaymentCall.setEnableMultiplePayment _ => "enableMultiplePayment"
  | PaymentCall.setDisplayReceipt _ => "displayReceipt"
  | PaymentCall.setExpireOn _ => "expireOn"
  | PaymentCall.setCustomers _ => "Customers"
  | PaymentCall.setCallbackParameters _ => "CallbackParameters"
  | PaymentCall.setSettings _ => "Settings"

/-- The container after a sequence of setter calls, each at its own runtime state; a
call that throws leaves the container as it was and the caller goes on. -/
def runPaymentCalls (c : Container) : List (Runtime × PaymentCall) → Container
  | [] => c
  | (rt, call) :: rest => runPaymentCalls (call.run rt c).container rest

/-- The container of a new payment request after a sequence of setter calls. -/
def buildPayment (calls : List (Runtime × PaymentCall)) : Container := runPaymentCalls [] calls

/-- A call of a setter of a refund request. -/
inductive RefundCall where
  | setRefundAmount (amount : JsVal)
  | setRefundRemarks (remark : JsVal)
  | setOrderId (orderId : JsVal)

/-- The effect of a setter call on the container. -/
def RefundCall.run (rt : Runtime) (call : RefundCall) (c : Container) : Result :=
  match call with
  | RefundCall.setRefundAmount v => CreateRefundRequest.setRefundAmount rt v c
  | RefundCall.setRefundRemarks v => CreateRefundRequest.setRefundRemarks v c
  | RefundCall.setOrderId v => CreateRefundRequest.setOrderId v c

/-- The container key a setter writes. -/
def RefundCall.key : RefundCall → String
  | RefundCall.setRefundAmount _ => "Amount"
  | RefundCall.setRefundRemarks _ => "Remarks"
  | RefundCall.setOrderId _ => "OrderId"

/-- The container after a sequence of setter calls. -/
def runRefundCalls (c : Container) : List (Runtime × RefundCall) → Container
  | [] => c
  | (rt, call) :: rest => runRefundCalls (call.run rt c).container rest

/-- The container of a new refund request after a sequence of setter calls. -/
def buildRefund (calls : List (Runtime × RefundCall)) : Container := runRefundCalls [] calls

/-! ## A runtime for evaluating the model -/

/-- The value of a string of decimal digits; `none` when there is another character or
no character at all. -/
def parseDigits (cs : List Char) : Option Nat :=
  if cs ≠ [] ∧ cs.all Char.isDigit = true then
    some (cs.foldl (fun n c => 10 * n + (c.toNat - 48)) 0)
  else none

/-- String to number conversion for signed decimal literals with an optional fraction
(`12`, `-3.50`, `+7.`); blank strings are 0 and every other string is `NaN`. Exponents,
`Infinity` and radix prefixes are left out, and the value is exact. -/
def refToNumber (s : String) : JsNum :=
  let t := trimChars s.data
  if t = [] then JsNum.fin 0
  else
    let signed : Int × List Char :=
      match t with
      | '-' :: r => (-1, r)
      | '+' :: r => (1, r)
      | r => (1, r)
    match CreatePaymentRequest.splitChars '.' signed.2 with
    | [ip] =>
      match parseDigits ip with
      | some n => JsNum.fin ((signed.1 * n : Int) : ℚ)
      | none => JsNum.nan
    | [ip, fp] =>
      match parseDigits (ip ++ fp) with
      | some n => if ip = [] ∧ fp = [] then JsNum.nan
        else JsNum.fin (Rat.divInt (signed.1 * n) (10 ^ fp.length))
      | none => JsNum.nan
    | _ => JsNum.nan

/-- Number to string conversion for integers; other finite values are given to six
decimal places. -/
def refNumberToString (n : JsNum) : String :=
  match n with
  | JsNum.nan => "NaN"
  | JsNum.posInf => "Infinity"
  | JsNum.negInf => "-Infinity"
  | JsNum.fin q =>
    let sign := if q < 0 then "-" else ""
    let a := |q|
    if a.den = 1 then sign ++ toString a.num.natAbs
    else sign ++ toString (a.num.natAbs / a.den) ++ "." ++
      toString ((a.num.natAbs * 1000000 / a.den) % 1000000)

/-- The number of days from 1970-01-01 to the given day of the proleptic Gregorian
calendar; a day number beyond the end of the month runs into the next month. -/
def daysFromCivil (y m d : Int) : Int :=
  let y1 := if m ≤ 2 then y - 1 else y
  let era := y1 / 400
  let yoe := y1 - era * 400
  let mp := (m + 9) % 12
  let doy := (153 * mp + 2) / 5 + d - 1
  let doe := yoe * 365 + yoe / 4 - yoe / 100 + doy
  era * 146097 + doe - 719468

/-- Date parsing for strings of the shape `YYYY-MM-DD HH:MM:SS`, read as a time in the
time zone UTC: the time value in milliseconds, or an invalid date when the string has
another shape, the month is not 1 to 12, the day is not 1 to 31 or the time is not a
time of day. -/
def refDateParse (s : String) : Option Int :=
  match s.data with
  | [y1, y2, y3, y4, '-', m1, m2, '-', d1, d2, ' ', h1, h2, ':', i1, i2, ':', s1, s2] =>
    match parseDigits [y1, y2, y3, y4], parseDigits [m1, m2], parseDigits [d1, d2],
      parseDigits [h1, h2], parseDigits [i1, i2], parseDigits [s1, s2] with
    | some y, some m, some d, some h, some i, some sec =>
      if 1 ≤ m ∧ m ≤ 12 ∧ 1 ≤ d ∧ d ≤ 31 ∧ h ≤ 23 ∧ i ≤ 59 ∧ sec ≤ 59 then
        some ((((daysFromCivil y m d * 24 + h) * 60 + i) * 60 + sec) * 1000)
      else none
    | _, _, _, _, _, _ => none
  | _ => none

/-- A runtime whose clock shows `now`. -/
def refRuntime (now : Int) : Runtime :=
  Runtime.mk refToNumber refNumberToString now refDateParse

/-! ## Customer records, as the specification describes them -/

/-- A non-blank name: a string with a non-whitespace character, made of ASCII letters
and whitespace characters only, at most 70 characters long. -/
def ValidName (v : JsVal) : Prop :=
  ∃ s, v = JsVal.str s ∧ (∃ ch ∈ s.data, isJsWhitespace ch = false) ∧
    (∀ ch ∈ s.data, ch.isAlpha = true ∨ isJsWhitespace ch = true) ∧ s.length ≤ 70

/-- A phone number: a string of 10 to 15 ASCII digits. -/
def ValidPhone (v : JsVal) : Prop :=
  ∃ s, v = JsVal.str s ∧ (∀ ch ∈ s.data, ch.isDigit = true) ∧ 10 ≤ s.length ∧ s.length ≤ 15

/-- An email address: a string of length at most 320 that matches the email pattern. -/
def ValidEmail (v : JsVal) : Prop :=
  ∃ s, v = JsVal.str s ∧ jsLength s ≤ 320 ∧ EMAIL_REGEX.test s = true

/-- A customer record all of whose four fields are valid. -/
def ValidCustomer (o : Obj) : Prop :=
  ValidName (o.get "firstName") ∧ ValidName (o.get "lastName") ∧ ValidPhone (o.get "phone") ∧
    ValidEmail (o.get "email")

/-! ## Expiry values, as the specification describes them -/

/-- A string of exactly `n` decimal digits. -/
def DigitString (n : Nat) (l : List Char) : Prop := l.length = n ∧ ∀ ch ∈ l, ch.isDigit = true

/-- The text `DD-MM-YYYY HH:MM:SS` made of the six fields. -/
def expireOnText (dd mm yyyy hh mi ss : List Char) : String :=
  String.mk (dd ++ '-' :: (mm ++ '-' :: (yyyy ++ ' ' :: (hh ++ ':' :: (mi ++ ':' :: ss)))))

/-- The text `YYYY-MM-DD HH:MM:SS` made of the six fields, which is what the date
parser of the runtime is given. -/
def sortableText (dd mm yyyy hh mi ss : List Char) : String :=
  String.mk (yyyy ++ '-' :: (mm ++ '-' :: (dd ++ ' ' :: (hh ++ ':' :: (mi ++ ':' :: ss)))))

/-! ## Sample values -/

/-- A plain customer record. -/
def customerRecord (firstName lastName phone email : String) : Obj :=
  [("firstName", JsVal.str firstName), ("lastName", JsVal.str lastName),
    ("phone", JsVal.str phone), ("email", JsVal.str email)]

/-- A container that already holds a title. -/
def titledContainer : Container := [("title", Value.prim (JsVal.str "Invoice 1"))]

/-- A callback-parameters structure in flattened form. -/
def callbackRecord (url ref : String) : Obj :=
  [("CallbackApiUrl", JsVal.str url), ("ReferenceNo", JsVal.str ref)]

/-! ## Character sets of patterns -/

/-- Every character class of the pattern lies within the set `q`. -/
def Re.AllCls (q : Char → Bool) : Re → Prop
  | Re.none => True
  | Re.eps => True
  | Re.cls p => ∀ c, p c = true → q c = true
  | Re.seq a b => Re.AllCls q a ∧ Re.AllCls q b
  | Re.alt a b => Re.AllCls q a ∧ Re.AllCls q b
  | Re.star a => Re.AllCls q a

/-- The URL `https://example.com/` followed by `n` letters `a`. -/
def longUrl (n : Nat) : String :=
  String.mk ("https://example.com/".data ++ List.replicate n 'a')

/-! ## `auropay.js`: construction and transport -/

namespace Auropay

/-- What the constructor sets up: the base URL of the HTTP client. -/
structure Client where
  apiBaseUrl : String
  deriving DecidableEq

/-- The object thrown by the constructor for an invalid environment. -/
def clientEnvError : Obj :=
  [("error_code", JsVal.str "400"),
    ("message", JsVal.str ("Invalid or missing value for Auropay.clientEnvironment. " ++
      "It should be \x27DEV\x27, \x27UAT\x27, or \x27PROD\x27."))]

/-- The call `xs.includes(v)` on an array of strings: only an equal string is included. -/
def includes (xs : List String) (v : JsVal) : Bool :=
  match v with
  | JsVal.str s => xs.contains s
  | _ => false

/-- The constructor, as a function of the static `Auropay.clientEnvironment`: it throws
the configuration error or yields the client with its base URL. -/
def new (clientEnvironment : JsVal) : Except Obj Client :=
  if !truthy clientEnvironment || !includes ["DEV", "UAT", "PROD"] clientEnvironment then
    Except.error clientEnvError
  else
    Except.ok (Client.mk
      (if clientEnvironment = JsVal.str "PROD" then Constants.PRODUCTION_URL
      else if clientEnvironment = JsVal.str "UAT" then Constants.UAT_URL
      else Constants.SANDBOX_URL))

/-- The `options` object handed to `client.request`. -/
structure RequestOptions where
  method : String
  url : String
  headers : List (String × String)
  data : Option Container
  params : Option Container
  deriving DecidableEq

/-- The error with which `client.request` fails: its `message`, its `status`, and the
value of `error.response?.data`, `none` when `error.response` is absent. -/
structure TransportError where
  message : JsVal
  status : JsVal
  response : Option Value

/-- The headers and options that `connect` builds; `data` is `none` for the default
`null`, and an empty key is not sent. -/
def requestOptions (clientAccessKey clientSecretKey : String) (apiVersion method endpoint : String)
    (data : Option Container) : RequestOptions :=
  let headers : List (String × String) :=
    [("Content-Type", "application/json"), ("x-version", apiVersion)]
      ++ (if clientAccessKey.data ≠ [] then [("x-access-key", clientAccessKey)] else [])
      ++ (if clientSecretKey.data ≠ [] then [("x-secret-key", clientSecretKey)] else [])
  RequestOptions.mk method endpoint headers
    (if method = "POST" then data else none)
    (if method = "POST" then none else if method = "GET" then data else none)

/-- The expression `error.response?.data?.message`: only an object has a `message`. -/
def responseMessage (e : TransportError) : JsVal :=
  match e.response with
  | some (Value.obj o) => o.get "message"
  | _ => JsVal.undefined

/-- The method `connect(apiVersion, method, endpoint, data)`, as the value its promise
resolves to; `request` is the HTTP client, which answers with the decoded response
body or fails with an error. -/
def connect (request : RequestOptions → Except TransportError Value)
    (clientAccessKey clientSecretKey : String) (apiVersion method endpoint : String)
    (data : Option Container) : Value :=
  match request (requestOptions clientAccessKey clientSecretKey apiVersion method endpoint data)
    with
  | Except.ok responseData => responseData
  | Except.error error =>
    Value.obj [("error_code", error.status),
      ("message", if truthy (responseMessage error) then responseMessage error
        else JsVal.str "Not Found")]

end Auropay

/-! ## Getters and stored values, as the specification describes them -/

/-- The value that the last call of a sequence that did not throw stored under the key
`k`, if there is such a call. Whether a call throws, and what it stores, does not
depend on the container, so each call is run on the empty one. -/
def lastStored {α : Type} (run : Runtime → α → Container → Result) (key : α → String)
    (k : String) : List (Runtime × α) → Option Value
  | [] => none
  | p :: rest =>
    match lastStored run key k rest with
    | some v => some v
    | none =>
      if key p.2 = k ∧ (run p.1 p.2 []).thrown = none then (run p.1 p.2 []).container.get k
      else none

/-- The value itself when it is truthy, the default when it is falsy or absent. -/
def orDefault (x : Option Value) (dflt : Value) : Value :=
  match x with
  | some (Value.prim v) => if truthy v then Value.prim v else dflt
  | some v => v
  | none => dflt

/-- The value itself, and `undefined` when it is absent. -/
def orUndefined (x : Option Value) : Value :=
  match x with
  | some v => v
  | none => Value.prim JsVal.undefined

/-- A text value without leading or trailing whitespace, or no value at all. -/
def TrimmedText (x : Option Value) : Prop :=
  match x with
  | none => True
  | some (Value.prim (JsVal.str s)) => jsTrim s = s
  | some _ => False

/-! ## The fields of a request, as the specification describes them -/

/-- A text in the form in which a text field is kept: trimmed. A value that is not a
text is left as it is. -/
def trimmedField (v : JsVal) : JsVal :=
  match v with
  | JsVal.str s => JsVal.str (jsTrim s)
  | JsVal.undefined => JsVal.undefined
  | JsVal.null => JsVal.null
  | JsVal.bool b => JsVal.bool b
  | JsVal.num n => JsVal.num n

/-- The value that a setter call of a payment request sets its field to: the title and
the two descriptions trimmed; a typed customer as the one-element list of the record of
its trimmed fields, a typed callback value as the record of its trimmed fields, a typed
settings value as its record; every other argument as it was passed. -/
def PaymentCall.field : PaymentCall → Value
  | PaymentCall.setTitle v => Value.prim (trimmedField v)
  | PaymentCall.setAmount v => Value.prim v
  | PaymentCall.setShortDescription v => Value.prim (trimmedField v)
  | PaymentCall.setPaymentDescription v => Value.prim (trimmedField v)
  | PaymentCall.setEnablePartialPayment v => Value.prim v
  | PaymentCall.setEnableMultiplePayment v => Value.prim v
  | PaymentCall.setDisplayReceipt v => Value.prim v
  | PaymentCall.setExpireOn v => Value.prim v
  | PaymentCall.setCustomers (CustomerDetails.prim v) => Value.prim v
  | PaymentCall.setCustomers (CustomerDetails.inst cu) =>
    Value.arr [[("firstName", trimmedField cu.firstName), ("lastName", trimmedField cu.lastName),
      ("phone", trimmedField cu.phone), ("email", trimmedField cu.email)]]
  | PaymentCall.setCustomers (CustomerDetails.object o) => Value.obj o
  | PaymentCall.setCustomers (CustomerDetails.array os) => Value.arr os
  | PaymentCall.setCallbackParameters (CallbackInput.prim v) => Value.prim v
  | PaymentCall.setCallbackParameters (CallbackInput.inst cb) =>
    Value.obj [("CallbackApiUrl", trimmedField cb.CallbackApiUrl),
      ("ReferenceNo", trimmedField cb.ReferenceNo)]
  | PaymentCall.setCallbackParameters (CallbackInput.object o) => Value.obj o
  | PaymentCall.setSettings (SettingsInput.prim v) => Value.prim v
  | PaymentCall.setSettings (SettingsInput.inst st) =>
    Value.obj [("displaySummary", st.displaySummary)]
  | PaymentCall.setSettings (SettingsInput.object o) => Value.obj o

/-- The fields that were set on a new payment request by a sequence of setter calls: the
field of a key is the one of the last call with that key that did not throw. -/
def fieldsSet (k : String) : List (Runtime × PaymentCall) → Option Value
  | [] => none
  | p :: rest =>
    match fieldsSet k rest with
    | some v => some v
    | none => if p.2.key = k ∧ (p.2.run p.1 []).thrown = none then some p.2.field else none

/-- A payment request built from valid fields, every setter called once, at a clock
before the expiry date. -/
def samplePaymentCalls : List (Runtime × PaymentCall) :=
  [(refRuntime 0, PaymentCall.setTitle (JsVal.str " Invoice 1 ")),
    (refRuntime 0, PaymentCall.setAmount (JsVal.str "100")),
    (refRuntime 0, PaymentCall.setShortDescription (JsVal.str "Order 12 ")),
    (refRuntime 0, PaymentCall.setPaymentDescription (JsVal.str "Two chairs")),
    (refRuntime 0, PaymentCall.setEnablePartialPayment (JsVal.bool true)),
    (refRuntime 0, PaymentCall.setEnableMultiplePayment (JsVal.bool false)),
    (refRuntime 0, PaymentCall.setDisplayReceipt (JsVal.bool true)),
    (refRuntime 0, PaymentCall.setExpireOn (JsVal.str "31-12-2030 23:59:59")),
    (refRuntime 0, PaymentCall.setCustomers (CustomerDetails.array
      [customerRecord "John" "Doe" "9876543210" "john@example.com"])),
    (refRuntime 0, PaymentCall.setCallbackParameters (CallbackInput.object
      (callbackRecord "https://example.com/callback" "order 1"))),
    (refRuntime 0, PaymentCall.setSettings (SettingsInput.inst (Settings.mk (JsVal.bool true))))]

/-- The payload expected for the sample request: its fields and the two defaults. -/
def samplePayload : Container :=
  [("title", Value.prim (JsVal.str "Invoice 1")),
    ("amount", Value.prim (JsVal.str "100")),
    ("shortDescription", Value.prim (JsVal.str "Order 12")),
    ("paymentDescription", Value.prim (JsVal.str "Two chairs")),
    ("enablePartialPayment", Value.prim (JsVal.bool true)),
    ("enableMultiplePayment", Value.prim (JsVal.bool false)),
    ("displayReceipt", Value.prim (JsVal.bool true)),
    ("expireOn", Value.prim (JsVal.str "31-12-2030 23:59:59")),
    ("Customers", Value.arr [customerRecord "John" "Doe" "9876543210" "john@example.com"]),
    ("CallbackParameters",
      Value.obj (callbackRecord "https://example.com/callback" "order 1")),
    ("Settings", Value.obj [("displaySummary", JsVal.bool true)]),
    ("ResponseType", Value.prim (JsVal.num (JsNum.fin 1))),
    ("enableProtection", Value.prim (JsVal.bool false))]

/-- The value that a setter call of a refund request sets its field to: the argument as
it was passed. -/
def RefundCall.field : RefundCall → Value
  | RefundCall.setRefundAmount v => Value.prim v
  | RefundCall.setRefundRemarks v => Value.prim v
  | RefundCall.setOrderId v => Value.prim v

/-- A list of customer records each of which has a phone and an email that are texts
without leading or trailing whitespace, or no value at all. -/
def TrimmedContacts (x : Option Value) : Prop :=
  match x with
  | none => True
  | some (Value.arr os) =>
    ∀ o ∈ os, TrimmedText (some (Value.prim (o.get "phone")))
      ∧ TrimmedText (some (Value.prim (o.get "email")))
  | some _ => False

/-- A callback record whose `CallbackApiUrl` is a text without leading or trailing
whitespace, or no value at all. -/
def TrimmedUrl (x : Option Value) : Prop :=
  match x with
  | none => True
  | some (Value.obj o) => TrimmedText (some (Value.prim (o.get "CallbackApiUrl")))
  | some _ => False

end AuropaySDK

/-! # Theorems -/

namespace AuropaySDK

/-! ## Correctness of the matcher -/

namespace Re

theorem nullable_iff (r : Re) : r.nullable = true ↔ r.Lang [] := by
  induction r with
  | none => simp [nullable, Lang]
  | eps => simp [nullable, Lang]
  | cls p => simp [nullable, Lang]
  | seq a b iha ihb =>
    simp only [nullable, Lang, Bool.and_eq_true, iha, ihb]
    constructor
    · rintro ⟨ha, hb⟩
      exact ⟨[], [], rfl, ha, hb⟩
    · rintro ⟨u, v, huv, ha, hb⟩
      have h := List.append_eq_nil.mp huv.symm
      rw [h.1] at ha
      rw [h.2] at hb
      exact ⟨ha, hb⟩
  | alt a b iha ihb => simp [nullable, Lang, iha, ihb]
  | star a _ =>
    simp only [nullable, Lang, true_iff]
    exact ⟨[], rfl, by simp⟩

theorem lang_cons (r : Re) (c : Char) (w : List Char) :
    r.Lang (c :: w) ↔ (r.deriv c).Lang w := by
  induction r generalizing w with
  | none => simp [deriv, Lang]
  | eps => simp [deriv, Lang]
  | cls p =>
    by_cases hp : p c = true
    · simp only [deriv, hp, if_true, Lang]
      constructor
      · rintro ⟨d, hd, _⟩
        simpa using (List.cons.inj hd).2
      · intro hw
        exact ⟨c, by rw [hw], hp⟩
    · simp only [deriv, hp, Lang, iff_false]
      rintro ⟨d, hd, hpd⟩
      have hcd : c = d := (List.cons.inj hd).1
      rw [hcd] at hp
      exact hp hpd
  | seq a b iha ihb =>
    have key : (seq a b).Lang (c :: w) ↔
        (a.Lang [] ∧ b.Lang (c :: w)) ∨ ∃ u v, w = u ++ v ∧ a.Lang (c :: u) ∧ b.Lang v := by
      simp only [Lang]
      constructor
      · rintro ⟨u, v, huv, ha, hb⟩
        cases u with
        | nil =>
          left
          simp only [List.nil_append] at huv
          rw [huv]
          exact ⟨ha, hb⟩
        | cons d u =>
          right
          simp only [List.cons_append, List.cons.injEq] at huv
          obtain ⟨hd, hw⟩ := huv
          subst hd
          exact ⟨u, v, hw, ha, hb⟩
      · rintro (⟨ha, hb⟩ | ⟨u, v, hw, ha, hb⟩)
        · exact ⟨[], c :: w, rfl, ha, hb⟩
        · exact ⟨c :: u, v, by rw [hw]; rfl, ha, hb⟩
    rw [key]
    by_cases hn : a.nullable = true
    · simp only [deriv, hn, if_true, Lang]
      have hnil := (nullable_iff a).mp hn
      constructor
      · rintro (⟨_, hb⟩ | ⟨u, v, hw, ha, hb⟩)
        · exact Or.inr ((ihb w).mp hb)
        · exact Or.inl ⟨u, v, hw, (iha u).mp ha, hb⟩
      · rintro (⟨u, v, hw, ha, hb⟩ | hb)
        · exact Or.inr ⟨u, v, hw, (iha u).mpr ha, hb⟩
        · exact Or.inl ⟨hnil, (ihb w).mpr hb⟩
    · have hnil : ¬ a.Lang [] := fun h => hn ((nullable_iff a).mpr h)
      simp only [deriv, hn, Lang]
      constructor
      · rintro (⟨ha, _⟩ | ⟨u, v, hw, ha, hb⟩)
        · exact absurd ha hnil
        · exact ⟨u, v, hw, (iha u).mp ha, hb⟩
      · rintro ⟨u, v, hw, ha, hb⟩
        exact Or.inr ⟨u, v, hw, (iha u).mpr ha, hb⟩
  | alt a b iha ihb => simp [deriv, Lang, iha, ihb]
  | star a iha =>
    simp only [deriv, Lang]
    constructor
    · rintro ⟨parts, hw, hparts⟩
      cases parts with
      | nil => simp at hw
      | cons p ps =>
        have hp := hparts p (List.mem_cons_self _ _)
        cases p with
        | nil => exact absurd rfl hp.1
        | cons d u =>
          simp only [List.flatten_cons, List.cons_append, List.cons.injEq] at hw
          obtain ⟨hd, hw⟩ := hw
          subst hd
          refine ⟨u, ps.flatten, hw, (iha u).mp hp.2, ps, rfl, ?_⟩
          intro q hq
          exact hparts q (List.mem_cons_of_mem _ hq)
    · rintro ⟨u, v, hw, ha, parts, hv, hparts⟩
      refine ⟨(c :: u) :: parts, ?_, ?_⟩
      · rw [hw, hv]
        rfl
      · intro q hq
        rcases List.mem_cons.mp hq with h | h
        · rw [h]
          exact ⟨by simp, (iha u).mpr ha⟩
        · exact hparts q h

theorem rmatch_iff (r : Re) (w : List Char) : r.rmatch w = true ↔ r.Lang w := by
  induction w generalizing r with
  | nil => simpa [rmatch] using nullable_iff r
  | cons c w ih =>
    rw [rmatch, ih, lang_cons]

theorem lang_seq_cls (p : Char → Bool) (r : Re) (w : List Char) :
    (seq (cls p) r).Lang w ↔ ∃ c v, w = c :: v ∧ p c = true ∧ r.Lang v := by
  simp only [Lang]
  constructor
  · rintro ⟨u, v, hw, ⟨c, hu, hp⟩, hr⟩
    exact ⟨c, v, by rw [hw, hu]; rfl, hp, hr⟩
  · rintro ⟨c, v, hw, hp, hr⟩
    exact ⟨[c], v, by rw [hw]; rfl, ⟨c, rfl, hp⟩, hr⟩

theorem lang_seq_eps_left (r : Re) (w : List Char) : (seq eps r).Lang w ↔ r.Lang w := by
  simp only [Lang]
  constructor
  · rintro ⟨u, v, hw, hu, hr⟩
    rw [hw, hu]
    exact hr
  · intro hr
    exact ⟨[], w, rfl, rfl, hr⟩

theorem lang_seq_eps_right (r : Re) (w : List Char) : (seq r eps).Lang w ↔ r.Lang w := by
  simp only [Lang]
  constructor
  · rintro ⟨u, v, hw, hr, hv⟩
    rw [hw, hv, List.append_nil]
    exact hr
  · intro hr
    exact ⟨w, [], by simp, hr, rfl⟩

theorem lang_star_cls (p : Char → Bool) (w : List Char) :
    (star (cls p)).Lang w ↔ ∀ c ∈ w, p c = true := by
  induction w with
  | nil =>
    simp only [List.not_mem_nil, false_imp_iff, implies_true, iff_true]
    exact ⟨[], rfl, by simp⟩
  | cons c w ih =>
    rw [lang_cons]
    by_cases hp : p c = true
    · simp only [deriv, hp, if_true, lang_seq_eps_left, ih, List.mem_cons, forall_eq_or_imp,
        true_and]
    · simp only [deriv, hp, List.mem_cons, forall_eq_or_imp, false_and, iff_false]
      simp [Lang]

theorem lang_range_cls (p : Char → Bool) (m n : Nat) (w : List Char) :
    (range (cls p) m n).Lang w ↔ m ≤ w.length ∧ w.length ≤ n ∧ ∀ c ∈ w, p c = true := by
  induction n generalizing m w with
  | zero =>
    cases m with
    | zero =>
      simp only [range, Lang, Nat.le_zero_eq, List.length_eq_zero, Nat.zero_le, true_and]
      constructor
      · intro h
        simp [h]
      · intro h
        exact h.1
    | succ m =>
      simp only [range, Lang, false_iff]
      omega
  | succ n ih =>
    cases m with
    | zero =>
      simp only [range, Lang.eq_5, lang_seq_cls, ih, Nat.zero_le, true_and]
      constructor
      · rintro (h | ⟨c, v, hw, hp, hlen, hall⟩)
        · have hw : w = [] := h
          simp [hw]
        · subst hw
          refine ⟨by simp only [List.length_cons]; omega, ?_⟩
          intro d hd
          rcases List.mem_cons.mp hd with h | h
          · rw [h]
            exact hp
          · exact hall d h
      · rintro ⟨hlen, hall⟩
        cases w with
        | nil => exact Or.inl rfl
        | cons c v =>
          right
          refine ⟨c, v, rfl, hall c (List.mem_cons_self _ _), ?_, ?_⟩
          · simp only [List.length_cons] at hlen
            omega
          · intro d hd
            exact hall d (List.mem_cons_of_mem _ hd)
    | succ m =>
      simp only [range, lang_seq_cls, ih]
      constructor
      · rintro ⟨c, v, hw, hp, hm, hn, hall⟩
        subst hw
        refine ⟨by simp only [List.length_cons]; omega,
          by simp only [List.length_cons]; omega, ?_⟩
        intro d hd
        rcases List.mem_cons.mp hd with h | h
        · rw [h]
          exact hp
        · exact hall d h
      · rintro ⟨hm, hn, hall⟩
        cases w with
        | nil => simp at hm
        | cons c v =>
          simp only [List.length_cons] at hm hn
          refine ⟨c, v, rfl, hall c (List.mem_cons_self _ _), by omega, by omega, ?_⟩
          intro d hd
          exact hall d (List.mem_cons_of_mem _ hd)

theorem lang_atLeast_cls (p : Char → Bool) (m : Nat) (w : List Char) :
    (atLeast (cls p) m).Lang w ↔ m ≤ w.length ∧ ∀ c ∈ w, p c = true := by
  induction m generalizing w with
  | zero => simp [atLeast, lang_star_cls]
  | succ m ih =>
    simp only [atLeast, lang_seq_cls, ih]
    constructor
    · rintro ⟨c, v, hw, hp, hm, hall⟩
      subst hw
      refine ⟨by simp only [List.length_cons]; omega, ?_⟩
      intro d hd
      rcases List.mem_cons.mp hd with h | h
      · rw [h]
        exact hp
      · exact hall d h
    · rintro ⟨hm, hall⟩
      cases w with
      | nil => simp at hm
      | cons c v =>
        simp only [List.length_cons] at hm
        refine ⟨c, v, rfl, hall c (List.mem_cons_self _ _), by omega, ?_⟩
        intro d hd
        exact hall d (List.mem_cons_of_mem _ hd)

theorem lang_lit (l w : List Char) : (lit l).Lang w ↔ w = l := by
  induction l generalizing w with
  | nil => simp [lit, Lang]
  | cons c l ih =>
    simp only [lit, lang_seq_cls, ih, beq_iff_eq]
    constructor
    · rintro ⟨d, v, hw, hd, hv⟩
      rw [hw, hd, hv]
    · intro hw
      exact ⟨c, l, hw, rfl, rfl⟩

end Re

/-- A pattern anchored at both ends matches a string exactly when its body matches all
of it. -/
theorem test_anchored (body : Re) (s : String) :
    (RegExp.mk true body true).test s = true ↔ body.Lang s.data := by
  simp only [RegExp.test, RegExp.whole, if_true, Re.rmatch_iff, Re.lang_seq_eps_left,
    Re.lang_seq_eps_right]

/-- The pattern `/[^a-zA-Z0-9 ]/` is found in a string exactly when some character is
outside the class. -/
theorem special_char_test (s : String) :
    SPECIAL_CHAR_REGEX.test s = true ↔ ∃ c ∈ s.data, isPlainChar c = false := by
  simp only [RegExp.test, RegExp.whole, SPECIAL_CHAR_REGEX, Re.rmatch_iff, Re.Lang.eq_4,
    Re.any, Re.lang_star_cls, Bool.false_eq_true, if_false]
  constructor
  · rintro ⟨u, v, hw, -, v1, v2, hv, ⟨c, hc, hp⟩, -⟩
    refine ⟨c, ?_, by simpa using hp⟩
    rw [hw, hv, hc]
    simp
  · rintro ⟨c, hc, hp⟩
    obtain ⟨u, v, hw⟩ := List.append_of_mem hc
    exact ⟨u, c :: v, hw, by simp, [c], v, rfl, ⟨c, rfl, by simp [hp]⟩, by simp⟩

/-! ## Strings -/

theorem utf16Units_pos (c : Char) : 1 ≤ utf16Units c := by
  unfold utf16Units
  split <;> omega

theorem sum_utf16_eq_zero (l : List Char) : (l.map utf16Units).sum = 0 ↔ l = [] := by
  cases l with
  | nil => simp
  | cons c l =>
    have := utf16Units_pos c
    simp only [List.map_cons, List.sum_cons, reduceCtorEq, iff_false]
    omega

theorem jsLength_eq_zero (s : String) : jsLength s = 0 ↔ s.data = [] :=
  sum_utf16_eq_zero s.data

theorem sum_utf16_of_bmp (l : List Char) (h : ∀ c ∈ l, c.toNat < 65536) :
    (l.map utf16Units).sum = l.length := by
  induction l with
  | nil => rfl
  | cons c l ih =>
    have hc := h c (List.mem_cons_self _ _)
    have hl := ih (fun d hd => h d (List.mem_cons_of_mem _ hd))
    simp only [List.map_cons, List.sum_cons, List.length_cons, hl, utf16Units, hc, if_true]
    omega

theorem dropWhile_eq_nil_iff_all (p : Char → Bool) (l : List Char) :
    l.dropWhile p = [] ↔ ∀ c ∈ l, p c = true := by
  induction l with
  | nil => simp
  | cons c l ih =>
    by_cases hp : p c = true
    · simp [List.dropWhile, hp, ih]
    · simp [List.dropWhile, hp]

theorem trimChars_eq_nil (l : List Char) :
    trimChars l = [] ↔ ∀ c ∈ l, isJsWhitespace c = true := by
  unfold trimChars
  rw [List.reverse_eq_nil_iff, dropWhile_eq_nil_iff_all]
  constructor
  · intro h
    by_contra hne
    have hd : l.dropWhile isJsWhitespace ≠ [] := by
      rw [Ne, dropWhile_eq_nil_iff_all]
      exact hne
    obtain ⟨c, w, hcw⟩ := List.exists_cons_of_ne_nil hd
    have hc : isJsWhitespace c = true := h c (by rw [List.mem_reverse, hcw]; simp)
    have hhead := List.head_dropWhile_not isJsWhitespace l hd
    simp only [hcw, List.head_cons] at hhead
    rw [hc] at hhead
    exact absurd hhead (by decide)
  · intro h c hc
    rw [List.mem_reverse] at hc
    exact h c ((List.dropWhile_sublist isJsWhitespace).subset hc)

/-! ## The validation functions on strings -/

open ValidationFunctions

theorem emptyCheck_str (s : String) (e : Err) :
    emptyCheck (JsVal.str s) e =
      if trimChars s.data = [] then Except.error e else Except.ok () := by
  unfold emptyCheck
  by_cases hs : s.data = []
  · have ht : trimChars s.data = [] := by rw [hs]; rfl
    rw [if_pos ht]
    simp [truthy, hs]
  · have hz : jsLength (jsTrim s) = 0 ↔ trimChars s.data = [] := jsLength_eq_zero (jsTrim s)
    simp only [truthy, hs, callTrim, hz, ne_eq, not_false_eq_true, decide_True, Bool.not_true,
      Bool.false_eq_true, if_false]

theorem checkMaxCharLength_str (s : String) (n : Nat) (e : Err) :
    checkMaxCharLength (JsVal.str s) n e =
      if n < jsLength s then Except.error e else Except.ok () := by
  unfold checkMaxCharLength
  by_cases hs : s.data = []
  · have h0 : jsLength s = 0 := (jsLength_eq_zero s).mpr hs
    simp [truthy, hs, lengthExceeds, h0]
  · simp [truthy, hs, lengthExceeds]

theorem validateSpecialChar_str (rt : Runtime) (s : String) (e : Err) :
    validateSpecialChar rt (JsVal.str s) SPECIAL_CHAR_REGEX e =
      if (∀ c ∈ s.data, isPlainChar c = true) then Except.ok () else Except.error e := by
  unfold validateSpecialChar
  by_cases h : SPECIAL_CHAR_REGEX.test s = true
  · have h2 := (special_char_test s).mp h
    have h3 : ¬ ∀ c ∈ s.data, isPlainChar c = true := by
      intro hall
      obtain ⟨c, hc, hp⟩ := h2
      rw [hall c hc] at hp
      exact absurd hp (by decide)
    simp only [ToString, h, if_true, h3, if_false]
  · have h3 : ∀ c ∈ s.data, isPlainChar c = true := by
      intro c hc
      by_contra hp
      exact h ((special_char_test s).mpr ⟨c, hc, by simpa using hp⟩)
    rw [if_pos h3]
    simp only [ToString, h, Bool.false_eq_true, if_false]

theorem uint32_le_toNat (a b : UInt32) (h : a ≤ b) : a.toNat ≤ b.toNat := h

theorem isAlphanum_le (c : Char) (h : c.isAlphanum = true) : c.toNat ≤ 122 := by
  simp only [Char.isAlphanum, Char.isAlpha, Char.isUpper, Char.isLower,
    Char.isDigit, Bool.or_eq_true, Bool.and_eq_true, decide_eq_true_eq] at h
  simp only [Char.toNat]
  rcases h with (⟨_, h2⟩ | ⟨_, h2⟩) | ⟨_, h2⟩
  · have h3 : c.val.toNat ≤ 90 := uint32_le_toNat _ _ h2
    omega
  · exact uint32_le_toNat _ _ h2
  · have h3 : c.val.toNat ≤ 57 := uint32_le_toNat _ _ h2
    omega

theorem isPlainChar_bmp (c : Char) (h : isPlainChar c = true) : c.toNat < 65536 := by
  simp only [isPlainChar, Bool.or_eq_true, beq_iff_eq] at h
  rcases h with h | h
  · have := isAlphanum_le c h
    omega
  · rw [h]
    decide

theorem jsLength_of_plain (s : String) (h : ∀ c ∈ s.data, isPlainChar c = true) :
    jsLength s = s.length :=
  sum_utf16_of_bmp s.data (fun c hc => isPlainChar_bmp c (h c hc))

/-! ## Amounts -/

open CreatePaymentRequest CreateRefundRequest

/-- The check chain shared by `setAmount` and `setRefundAmount`. -/
theorem amount_checks_falsy (rt : Runtime) (amount : JsVal) (h : truthy amount = false) :
    (do
      emptyCheck amount (getMessage "SE0018")
      if isNaN rt amount || leZero rt amount then Except.error (getMessage "SE0002")
      else Except.ok ()) = Except.error (Err.catalog "SE0018") := by
  simp [emptyCheck, h, getMessage, bind, Except.bind]

theorem amount_checks_str (rt : Runtime) (s : String) :
    (do
      emptyCheck (JsVal.str s) (getMessage "SE0018")
      if isNaN rt (JsVal.str s) || leZero rt (JsVal.str s) then
        Except.error (getMessage "SE0002")
      else Except.ok ()) =
      if trimChars s.data = [] then Except.error (Err.catalog "SE0018")
      else if isNaN rt (JsVal.str s) || leZero rt (JsVal.str s) then
        Except.error (Err.catalog "SE0002")
      else Except.ok () := by
  rw [emptyCheck_str]
  by_cases h : trimChars s.data = []
  · simp [h, getMessage, bind, Except.bind]
  · simp [h, getMessage, bind, Except.bind]

/-- Claim C1, as stated, fails: the number 0, the empty string and an absent amount are
rejected by `setAmount` and `setRefundAmount` with the error SE0018 of the emptiness
check, not with the amount-invalid error SE0002. -/
theorem amount_zero_raises_SE0018 :
    (setAmount (refRuntime 0) (JsVal.num (JsNum.fin 0)) []).thrown = some (Err.catalog "SE0018")
    ∧ (setAmount (refRuntime 0) (JsVal.num (JsNum.fin 0)) []).thrown
        ≠ some (Err.catalog "SE0002")
    ∧ (setAmount (refRuntime 0) (JsVal.str "") []).thrown = some (Err.catalog "SE0018")
    ∧ (setAmount (refRuntime 0) JsVal.undefined []).thrown = some (Err.catalog "SE0018")
    ∧ (setRefundAmount (refRuntime 0) (JsVal.num (JsNum.fin 0)) []).thrown
        = some (Err.catalog "SE0018")
    ∧ (setRefundAmount (refRuntime 0) (JsVal.num (JsNum.fin 0)) []).thrown
        ≠ some (Err.catalog "SE0002")
    ∧ (setRefundAmount (refRuntime 0) (JsVal.str "") []).thrown = some (Err.catalog "SE0018")
    ∧ (setRefundAmount (refRuntime 0) JsVal.undefined []).thrown
        = some (Err.catalog "SE0018") := by
  decide

/-- Claim C1, amended. For every runtime, container and amount: an amount that is falsy
(absent, the number 0, `NaN`, the empty string) or a blank string makes `setAmount` and
`setRefundAmount` throw SE0018 and leaves the container as it was; a string with a
non-blank character whose numeric value is `NaN` or at most 0 makes both throw the
amount-invalid error SE0002 and leaves the container as it was. -/
theorem amount_rejected (rt : Runtime) (c : Container) (amount : JsVal) :
    ((truthy amount = false ∨
        ∃ s, amount = JsVal.str s ∧ ∀ ch ∈ s.data, isJsWhitespace ch = true) →
      setAmount rt amount c = Result.mk c (some (Err.catalog "SE0018")) ∧
      setRefundAmount rt amount c = Result.mk c (some (Err.catalog "SE0018")))
    ∧ (∀ s, amount = JsVal.str s → (∃ ch ∈ s.data, isJsWhitespace ch = false) →
        (rt.toNumber s = JsNum.nan ∨ rt.toNumber s = JsNum.negInf ∨
          ∃ q, rt.toNumber s = JsNum.fin q ∧ q ≤ 0) →
      setAmount rt amount c = Result.mk c (some (Err.catalog "SE0002")) ∧
      setRefundAmount rt amount c = Result.mk c (some (Err.catalog "SE0002"))) := by
  constructor
  · rintro (h | ⟨s, hs, hblank⟩)
    · simp only [setAmount, setRefundAmount, amount_checks_falsy rt amount h, assign, and_self]
    · subst hs
      have ht : trimChars s.data = [] := (trimChars_eq_nil s.data).mpr hblank
      simp only [setAmount, setRefundAmount]
      rw [amount_checks_str]
      simp only [ht, if_true, assign, and_self]
  · rintro s hs ⟨ch, hch, hws⟩ hnum
    subst hs
    have ht : ¬ trimChars s.data = [] := by
      intro h
      have := (trimChars_eq_nil s.data).mp h ch hch
      rw [hws] at this
      exact absurd this (by decide)
    have hbad : (isNaN rt (JsVal.str s) || leZero rt (JsVal.str s)) = true := by
      rcases hnum with h | h | ⟨q, h, hq⟩
      · simp [isNaN, leZero, ToNumber, h]
      · simp [isNaN, leZero, ToNumber, h]
      · simp [isNaN, leZero, ToNumber, h, hq]
    simp only [setAmount, setRefundAmount]
    rw [amount_checks_str]
    simp only [ht, if_false, hbad, if_true, assign, and_self]

/-- Claim C1, amended, at concrete amounts: a blank string, and the string `-5`. -/
theorem amount_rejected_witness :
    (setAmount (refRuntime 0) (JsVal.str "  ") [] = Result.mk [] (some (Err.catalog "SE0018")) ∧
      setRefundAmount (refRuntime 0) (JsVal.str "  ") []
        = Result.mk [] (some (Err.catalog "SE0018")))
    ∧ (setAmount (refRuntime 0) (JsVal.str "-5") [] = Result.mk [] (some (Err.catalog "SE0002")) ∧
      setRefundAmount (refRuntime 0) (JsVal.str "-5") []
        = Result.mk [] (some (Err.catalog "SE0002"))) :=
  ⟨(amount_rejected (refRuntime 0) [] (JsVal.str "  ")).1
      (Or.inr ⟨"  ", rfl, by decide⟩),
    (amount_rejected (refRuntime 0) [] (JsVal.str "-5")).2 "-5" rfl
      ⟨'5', by decide, by decide⟩
      (Or.inr (Or.inr ⟨-5, by decide, by decide⟩))⟩

/-- Claim C2 fails on the code: for the number 100, and for every runtime and container,
`setAmount` and `setRefundAmount` throw a `TypeError` (the emptiness check calls
`trim` on the number) and store nothing, so `getAmount` of a new request is still
`null` and `getRefundAmount` is still `undefined`. -/
theorem setAmount_number_throws (rt : Runtime) (c : Container) :
    setAmount rt (JsVal.num (JsNum.fin 100)) c = Result.mk c (some Err.typeError)
    ∧ setRefundAmount rt (JsVal.num (JsNum.fin 100)) c = Result.mk c (some Err.typeError)
    ∧ getAmount (setAmount rt (JsVal.num (JsNum.fin 100)) []).container
        = Value.prim JsVal.null
    ∧ getRefundAmount (setRefundAmount rt (JsVal.num (JsNum.fin 100)) []).container
        = Value.prim JsVal.undefined := by
  have h : emptyCheck (JsVal.num (JsNum.fin 100)) (getMessage "SE0018")
      = Except.error Err.typeError := by
    simp [emptyCheck, truthy, callTrim]
  simp [setAmount, setRefundAmount, h, assign, bind, Except.bind, getAmount, getOr,
    getRefundAmount, CreateRefundRequest.read, Container.get]

/-! ## Text fields -/

theorem setTitle_str (rt : Runtime) (t : String) (c : Container) :
    setTitle rt (JsVal.str t) c =
      if trimChars t.data = [] then Result.mk c (some (Err.catalog "SE0003"))
      else if ∀ ch ∈ t.data, isPlainChar ch = true then
        if 50 < jsLength t then Result.mk c (some (Err.catalog "SE0019"))
        else Result.mk (c.set "title" (Value.prim (JsVal.str (jsTrim t)))) none
      else Result.mk c (some (Err.catalog "SE0020")) := by
  unfold setTitle
  rw [emptyCheck_str, validateSpecialChar_str, checkMaxCharLength_str]
  by_cases h1 : trimChars t.data = []
  · rw [if_pos h1, if_pos h1]
    rfl
  · rw [if_neg h1, if_neg h1]
    by_cases h2 : ∀ ch ∈ t.data, isPlainChar ch = true
    · rw [if_pos h2, if_pos h2]
      by_cases h3 : 50 < jsLength t
      · rw [if_pos h3, if_pos h3]
        rfl
      · rw [if_neg h3, if_neg h3]
        rfl
    · rw [if_neg h2, if_neg h2]
      rfl

/-- The two description setters share their shape: length check, character check, trim. -/
theorem description_checks_str (rt : Runtime) (d : String) (e1 e2 : Err) :
    (do
      checkMaxCharLength (JsVal.str d) 1000 e1
      validateSpecialChar rt (JsVal.str d) SPECIAL_CHAR_REGEX e2
      callTrim (JsVal.str d)) =
      if 1000 < jsLength d then Except.error e1
      else if ∀ ch ∈ d.data, isPlainChar ch = true then Except.ok (jsTrim d)
      else Except.error e2 := by
  rw [checkMaxCharLength_str, validateSpecialChar_str]
  by_cases h1 : 1000 < jsLength d
  · rw [if_pos h1, if_pos h1]
    rfl
  · rw [if_neg h1, if_neg h1]
    by_cases h2 : ∀ ch ∈ d.data, isPlainChar ch = true
    · rw [if_pos h2, if_pos h2]
      rfl
    · rw [if_neg h2, if_neg h2]
      rfl

theorem setShortDescription_str (rt : Runtime) (d : String) (c : Container) :
    setShortDescription rt (JsVal.str d) c =
      if 1000 < jsLength d then Result.mk c (some (Err.catalog "SE0021"))
      else if ∀ ch ∈ d.data, isPlainChar ch = true then
        Result.mk (c.set "shortDescription" (Value.prim (JsVal.str (jsTrim d)))) none
      else Result.mk c (some (Err.catalog "SE0022")) := by
  unfold setShortDescription
  rw [description_checks_str]
  by_cases h1 : 1000 < jsLength d
  · rw [if_pos h1, if_pos h1]
    rfl
  · rw [if_neg h1, if_neg h1]
    by_cases h2 : ∀ ch ∈ d.data, isPlainChar ch = true
    · rw [if_pos h2, if_pos h2]
      rfl
    · rw [if_neg h2, if_neg h2]
      rfl

theorem setPaymentDescription_str (rt : Runtime) (d : String) (c : Container) :
    setPaymentDescription rt (JsVal.str d) c =
      if 1000 < jsLength d then Result.mk c (some (Err.catalog "SE0004"))
      else if ∀ ch ∈ d.data, isPlainChar ch = true then
        Result.mk (c.set "paymentDescription" (Value.prim (JsVal.str (jsTrim d)))) none
      else Result.mk c (some (Err.catalog "SE0023")) := by
  unfold setPaymentDescription
  rw [description_checks_str]
  by_cases h1 : 1000 < jsLength d
  · rw [if_pos h1, if_pos h1]
    rfl
  · rw [if_neg h1, if_neg h1]
    by_cases h2 : ∀ ch ∈ d.data, isPlainChar ch = true
    · rw [if_pos h2, if_pos h2]
      rfl
    · rw [if_neg h2, if_neg h2]
      rfl

theorem setRefundRemarks_str (r : String) (c : Container) :
    setRefundRemarks (JsVal.str r) c =
      if 200 < jsLength r then Result.mk c (some (Err.catalog "SE0007"))
      else Result.mk (c.set "Remarks" (Value.prim (JsVal.str r))) none := by
  unfold setRefundRemarks
  rw [checkMaxCharLength_str]
  by_cases h1 : 200 < jsLength r
  · rw [if_pos h1, if_pos h1]
    rfl
  · rw [if_neg h1, if_neg h1]
    rfl

theorem isPlainChar_iff (ch : Char) :
    isPlainChar ch = true ↔ (ch.isAlpha = true ∨ ch.isDigit = true ∨ ch = ' ') := by
  simp [isPlainChar, Char.isAlphanum, or_assoc]

theorem jsLength_replicate (n : Nat) : jsLength (String.mk (List.replicate n 'a')) = n := by
  have h := sum_utf16_of_bmp (List.replicate n 'a') (by
    intro c hc
    rw [List.eq_of_mem_replicate hc]
    decide)
  simpa [jsLength] using h

theorem plain_replicate (n : Nat) :
    ∀ ch ∈ (String.mk (List.replicate n 'a')).data, isPlainChar ch = true := by
  intro ch hch
  rw [List.eq_of_mem_replicate hch]
  decide

/-- Claim C3. For every string title, runtime and container: `setTitle` succeeds, storing
the trimmed title under `title`, exactly when the title has a non-whitespace character,
all its characters are ASCII letters, digits or spaces, and its length is at most 50;
in every other case it throws and the container is as before. -/
theorem setTitle_succeeds_iff (rt : Runtime) (c : Container) (t : String) :
    (((∃ ch ∈ t.data, isJsWhitespace ch = false) ∧
        (∀ ch ∈ t.data, ch.isAlpha = true ∨ ch.isDigit = true ∨ ch = ' ') ∧
        jsLength t ≤ 50) ↔
      setTitle rt (JsVal.str t) c
        = Result.mk (c.set "title" (Value.prim (JsVal.str (jsTrim t)))) none)
    ∧ (¬ ((∃ ch ∈ t.data, isJsWhitespace ch = false) ∧
        (∀ ch ∈ t.data, ch.isAlpha = true ∨ ch.isDigit = true ∨ ch = ' ') ∧
        jsLength t ≤ 50) ↔
      ∃ e, setTitle rt (JsVal.str t) c = Result.mk c (some e)) := by
  have hblank : trimChars t.data = [] ↔ ¬ ∃ ch ∈ t.data, isJsWhitespace ch = false := by
    rw [trimChars_eq_nil]
    simp
  have hplain : (∀ ch ∈ t.data, isPlainChar ch = true) ↔
      ∀ ch ∈ t.data, ch.isAlpha = true ∨ ch.isDigit = true ∨ ch = ' ' := by
    simp only [isPlainChar_iff]
  rw [setTitle_str, ← hplain]
  by_cases h1 : trimChars t.data = []
  · have h1' := hblank.mp h1
    rw [if_pos h1]
    simp [h1']
  · have h1' : ∃ ch ∈ t.data, isJsWhitespace ch = false := by
      by_contra h
      exact h1 (hblank.mpr h)
    rw [if_neg h1]
    by_cases h2 : ∀ ch ∈ t.data, isPlainChar ch = true
    · rw [if_pos h2]
      by_cases h3 : 50 < jsLength t
      · have h3' : ¬ jsLength t ≤ 50 := by omega
        rw [if_pos h3]
        simp [h3']
      · have h3' : jsLength t ≤ 50 := by omega
        rw [if_neg h3]
        refine ⟨⟨fun _ => rfl, fun _ => ⟨h1', h2, h3'⟩⟩, ?_⟩
        constructor
        · intro h
          exact absurd ⟨h1', h2, h3'⟩ h
        · rintro ⟨e, he⟩
          simp at he
    · rw [if_neg h2]
      simp [h2]

/-- Claim C4. For titles of length 50 and 51, descriptions of length 1000 and 1001 (all
of ASCII letters, digits and spaces, the titles not blank) and refund remarks of length
200 and 201: the value of maximum length is stored by its setter and the value one
longer is rejected with the length error of its field (SE0019, SE0021, SE0004, SE0007),
the container staying as it was. -/
theorem max_length_boundary (rt : Runtime) (c : Container)
    (t50 t51 d1000 d1001 r200 r201 : String)
    (h50 : jsLength t50 = 50) (p50 : ∀ ch ∈ t50.data, isPlainChar ch = true)
    (n50 : ∃ ch ∈ t50.data, isJsWhitespace ch = false)
    (h51 : jsLength t51 = 51) (p51 : ∀ ch ∈ t51.data, isPlainChar ch = true)
    (n51 : ∃ ch ∈ t51.data, isJsWhitespace ch = false)
    (h1000 : jsLength d1000 = 1000) (p1000 : ∀ ch ∈ d1000.data, isPlainChar ch = true)
    (h1001 : jsLength d1001 = 1001) (_p1001 : ∀ ch ∈ d1001.data, isPlainChar ch = true)
    (h200 : jsLength r200 = 200) (h201 : jsLength r201 = 201) :
    setTitle rt (JsVal.str t50) c
        = Result.mk (c.set "title" (Value.prim (JsVal.str (jsTrim t50)))) none
    ∧ setTitle rt (JsVal.str t51) c = Result.mk c (some (Err.catalog "SE0019"))
    ∧ setShortDescription rt (JsVal.str d1000) c
        = Result.mk (c.set "shortDescription" (Value.prim (JsVal.str (jsTrim d1000)))) none
    ∧ setShortDescription rt (JsVal.str d1001) c = Result.mk c (some (Err.catalog "SE0021"))
    ∧ setPaymentDescription rt (JsVal.str d1000) c
        = Result.mk (c.set "paymentDescription" (Value.prim (JsVal.str (jsTrim d1000)))) none
    ∧ setPaymentDescription rt (JsVal.str d1001) c = Result.mk c (some (Err.catalog "SE0004"))
    ∧ setRefundRemarks (JsVal.str r200) c
        = Result.mk (c.set "Remarks" (Value.prim (JsVal.str r200))) none
    ∧ setRefundRemarks (JsVal.str r201) c = Result.mk c (some (Err.catalog "SE0007")) := by
  have nb50 : ¬ trimChars t50.data = [] := by
    rw [trimChars_eq_nil]
    obtain ⟨ch, hch, hws⟩ := n50
    intro h
    rw [h ch hch] at hws
    exact absurd hws (by decide)
  have nb51 : ¬ trimChars t51.data = [] := by
    rw [trimChars_eq_nil]
    obtain ⟨ch, hch, hws⟩ := n51
    intro h
    rw [h ch hch] at hws
    exact absurd hws (by decide)
  refine ⟨?_, ?_, ?_, ?_, ?_, ?_, ?_, ?_⟩
  · rw [setTitle_str, if_neg nb50, if_pos p50, if_neg (by omega)]
  · rw [setTitle_str, if_neg nb51, if_pos p51, if_pos (by omega)]
  · rw [setShortDescription_str, if_neg (by omega), if_pos p1000]
  · rw [setShortDescription_str, if_pos (by omega)]
  · rw [setPaymentDescription_str, if_neg (by omega), if_pos p1000]
  · rw [setPaymentDescription_str, if_pos (by omega)]
  · rw [setRefundRemarks_str, if_neg (by omega)]
  · rw [setRefundRemarks_str, if_pos (by omega)]

/-- Claim C4 at the strings of 50, 51, 1000, 1001, 200 and 201 letters `a`. -/
theorem max_length_boundary_witness :
    setTitle (refRuntime 0) (JsVal.str (String.mk (List.replicate 50 'a'))) []
        = Result.mk [("title", Value.prim (JsVal.str (jsTrim (String.mk (List.replicate 50 'a')))))]
          none
    ∧ setTitle (refRuntime 0) (JsVal.str (String.mk (List.replicate 51 'a'))) []
        = Result.mk [] (some (Err.catalog "SE0019"))
    ∧ setShortDescription (refRuntime 0) (JsVal.str (String.mk (List.replicate 1001 'a'))) []
        = Result.mk [] (some (Err.catalog "SE0021"))
    ∧ setRefundRemarks (JsVal.str (String.mk (List.replicate 201 'a'))) []
        = Result.mk [] (some (Err.catalog "SE0007")) := by
  have h := max_length_boundary (refRuntime 0) []
    (String.mk (List.replicate 50 'a')) (String.mk (List.replicate 51 'a'))
    (String.mk (List.replicate 1000 'a')) (String.mk (List.replicate 1001 'a'))
    (String.mk (List.replicate 200 'a')) (String.mk (List.replicate 201 'a'))
    (jsLength_replicate 50) (plain_replicate 50) ⟨'a', by simp, by decide⟩
    (jsLength_replicate 51) (plain_replicate 51) ⟨'a', by simp, by decide⟩
    (jsLength_replicate 1000) (plain_replicate 1000)
    (jsLength_replicate 1001) (plain_replicate 1001)
    (jsLength_replicate 200) (jsLength_replicate 201)
  exact ⟨h.1, h.2.1, h.2.2.2.1, h.2.2.2.2.2.2.2⟩

/-! ## Customers -/

theorem bind_ok_iff (a b : Except Err Unit) :
    (a >>= fun _ => b) = Except.ok () ↔ a = Except.ok () ∧ b = Except.ok () := by
  cases a with
  | error e => simp [bind, Except.bind]
  | ok u => simp [bind, Except.bind]

theorem emptyCheck_ok_iff (v : JsVal) (e : Err) :
    emptyCheck v e = Except.ok () ↔
      ∃ s, v = JsVal.str s ∧ ∃ ch ∈ s.data, isJsWhitespace ch = false := by
  cases v with
  | str s =>
    rw [emptyCheck_str]
    have hblank : trimChars s.data = [] ↔ ¬ ∃ ch ∈ s.data, isJsWhitespace ch = false := by
      rw [trimChars_eq_nil]
      simp
    by_cases h : trimChars s.data = []
    · rw [if_pos h]
      have h2 := hblank.mp h
      constructor
      · intro hc
        cases hc
      · rintro ⟨s2, hs, hex⟩
        cases hs
        exact absurd hex h2
    · rw [if_neg h]
      have h2 : ∃ ch ∈ s.data, isJsWhitespace ch = false := by
        by_contra hn
        exact h (hblank.mpr hn)
      simp only [true_iff]
      exact ⟨s, rfl, h2⟩
  | undefined => simp [emptyCheck, truthy]
  | null => simp [emptyCheck, truthy]
  | bool b => cases b <;> simp [emptyCheck, truthy, callTrim]
  | num n =>
    cases n with
    | nan => simp [emptyCheck, truthy]
    | posInf => simp [emptyCheck, truthy, callTrim]
    | negInf => simp [emptyCheck, truthy, callTrim]
    | fin q =>
      by_cases hq : q = 0
      · simp [emptyCheck, truthy, hq]
      · simp [emptyCheck, truthy, hq, callTrim]

theorem regexValidator_str (rt : Runtime) (s : String) (re : RegExp) (e : Err) :
    regexValidator rt (JsVal.str s) re e = Except.ok () ↔ re.test s = true := by
  unfold regexValidator
  by_cases h : re.test s = true
  · simp [ToString, h]
  · simp [ToString, h]

theorem checkMaxCharLength_str_ok (s : String) (n : Nat) (e : Err) :
    checkMaxCharLength (JsVal.str s) n e = Except.ok () ↔ jsLength s ≤ n := by
  rw [checkMaxCharLength_str]
  by_cases h : n < jsLength s
  · rw [if_pos h]
    constructor
    · intro hc
      cases hc
    · intro hle
      omega
  · rw [if_neg h]
    simp only [true_iff]
    omega

theorem name_test (s : String) :
    NAME_REGEX.test s = true ↔
      1 ≤ s.length ∧ s.length ≤ 70 ∧ ∀ ch ∈ s.data, isNameChar ch = true := by
  unfold NAME_REGEX
  rw [test_anchored, Re.lang_range_cls]
  rfl

theorem phone_test (s : String) :
    PHONE_REGEX.test s = true ↔
      10 ≤ s.length ∧ s.length ≤ 15 ∧ ∀ ch ∈ s.data, ch.isDigit = true := by
  unfold PHONE_REGEX
  rw [test_anchored, Re.lang_range_cls]
  rfl

theorem email_test_at (s : String) (h : EMAIL_REGEX.test s = true) : '@' ∈ s.data := by
  unfold EMAIL_REGEX at h
  rw [test_anchored] at h
  obtain ⟨u, v, hw, -, v1, v2, hv, hat, -⟩ := h
  rw [Re.lang_lit] at hat
  rw [hw, hv, hat]
  simp

/-- The checks on a name field succeed exactly on valid names. -/
theorem name_checks_ok (rt : Runtime) (v : JsVal) (e1 e2 : Err) :
    (emptyCheck v e1 = Except.ok () ∧ regexValidator rt v NAME_REGEX e2 = Except.ok ()) ↔
      ValidName v := by
  rw [emptyCheck_ok_iff]
  constructor
  · rintro ⟨⟨s, hs, hnb⟩, hre⟩
    subst hs
    rw [regexValidator_str, name_test] at hre
    refine ⟨s, rfl, hnb, ?_, hre.2.1⟩
    intro ch hch
    simpa [isNameChar] using hre.2.2 ch hch
  · rintro ⟨s, hs, hnb, hall, hlen⟩
    subst hs
    refine ⟨⟨s, rfl, hnb⟩, ?_⟩
    rw [regexValidator_str, name_test]
    refine ⟨?_, hlen, ?_⟩
    · obtain ⟨ch, hch, -⟩ := hnb
      have : 0 < s.data.length := List.length_pos_of_mem hch
      exact this
    · intro ch hch
      simpa [isNameChar] using hall ch hch

theorem isDigit_not_whitespace (ch : Char) (h : ch.isDigit = true) :
    isJsWhitespace ch = false := by
  simp only [Char.isDigit, Bool.and_eq_true, decide_eq_true_eq] at h
  have h1 : (48 : UInt32).toNat ≤ ch.val.toNat := uint32_le_toNat _ _ h.1
  have h2 : ch.val.toNat ≤ (57 : UInt32).toNat := uint32_le_toNat _ _ h.2
  have h3 : 48 ≤ ch.toNat := h1
  have h4 : ch.toNat ≤ 57 := h2
  simp only [isJsWhitespace, Bool.or_eq_false_iff, decide_eq_false_iff_not,
    Bool.and_eq_false_imp, decide_eq_true_eq]
  omega

/-- The checks on the phone field succeed exactly on valid phone numbers. -/
theorem phone_checks_ok (rt : Runtime) (v : JsVal) (e1 e2 : Err) :
    (emptyCheck v e1 = Except.ok () ∧ regexValidator rt v PHONE_REGEX e2 = Except.ok ()) ↔
      ValidPhone v := by
  rw [emptyCheck_ok_iff]
  constructor
  · rintro ⟨⟨s, hs, -⟩, hre⟩
    subst hs
    rw [regexValidator_str, phone_test] at hre
    exact ⟨s, rfl, hre.2.2, hre.1, hre.2.1⟩
  · rintro ⟨s, hs, hall, h10, h15⟩
    subst hs
    have hpos : 0 < s.data.length := by
      have : 10 ≤ s.data.length := h10
      omega
    obtain ⟨ch, hch⟩ := List.exists_mem_of_length_pos hpos
    refine ⟨⟨s, rfl, ch, hch, isDigit_not_whitespace ch (hall ch hch)⟩, ?_⟩
    rw [regexValidator_str, phone_test]
    exact ⟨h10, h15, hall⟩

/-- The checks on the email field succeed exactly on valid email addresses. -/
theorem email_checks_ok (rt : Runtime) (v : JsVal) (e1 e2 e3 : Err) :
    (emptyCheck v e1 = Except.ok () ∧ checkMaxCharLength v 320 e2 = Except.ok () ∧
      regexValidator rt v EMAIL_REGEX e3 = Except.ok ()) ↔ ValidEmail v := by
  rw [emptyCheck_ok_iff]
  constructor
  · rintro ⟨⟨s, hs, -⟩, hlen, hre⟩
    subst hs
    rw [checkMaxCharLength_str_ok] at hlen
    rw [regexValidator_str] at hre
    exact ⟨s, rfl, hlen, hre⟩
  · rintro ⟨s, hs, hlen, hre⟩
    subst hs
    refine ⟨⟨s, rfl, '@', email_test_at s hre, by decide⟩, ?_, ?_⟩
    · rw [checkMaxCharLength_str_ok]
      exact hlen
    · rw [regexValidator_str]
      exact hre

theorem validateCustomer_ok (rt : Runtime) (o : Obj) :
    validateCustomer rt o = Except.ok () ↔ ValidCustomer o := by
  unfold validateCustomer ValidCustomer
  simp only [bind_ok_iff]
  rw [← name_checks_ok rt (o.get "firstName") (getMessage "SE0010") (getMessage "SE0034"),
    ← name_checks_ok rt (o.get "lastName") (getMessage "SE0011") (getMessage "SE0035"),
    ← phone_checks_ok rt (o.get "phone") (getMessage "SE0028") (getMessage "SE0012"),
    ← email_checks_ok rt (o.get "email") (getMessage "SE0027") (getMessage "SE0026")
      (getMessage "SE0013")]
  tauto

theorem validateCustomers_ok (rt : Runtime) (os : List Obj) :
    validateCustomers rt os = Except.ok () ↔ ∀ o ∈ os, ValidCustomer o := by
  induction os with
  | nil => simp [validateCustomers]
  | cons o os ih =>
    simp only [validateCustomers, List.mem_cons, forall_eq_or_imp, ← ih,
      ← validateCustomer_ok rt o]
    cases validateCustomer rt o with
    | error e => simp
    | ok u => simp

theorem assign_ok_iff (c : Container) (checks : Except Err Unit) (k : String) (v : Value) :
    checks = Except.ok () ↔ assign c checks k v = Result.mk (c.set k v) none := by
  cases checks with
  | error e => simp [assign]
  | ok u => simp [assign]

theorem assign_error_iff (c : Container) (checks : Except Err Unit) (k : String) (v : Value) :
    ¬ checks = Except.ok () ↔ ∃ e, assign c checks k v = Result.mk c (some e) := by
  cases checks with
  | error e => simp [assign]
  | ok u => simp [assign]

/-- The outcome of `setCustomers` on an array. -/
theorem setCustomers_array (rt : Runtime) (c : Container) (os : List Obj) :
    ((os ≠ [] ∧ ∀ o ∈ os, ValidCustomer o) ↔
      setCustomers rt (CustomerDetails.array os) c
        = Result.mk (c.set "Customers" (Value.arr os)) none)
    ∧ (¬ (os ≠ [] ∧ ∀ o ∈ os, ValidCustomer o) ↔
      ∃ e, setCustomers rt (CustomerDetails.array os) c = Result.mk c (some e)) := by
  unfold setCustomers
  cases os with
  | nil => simp
  | cons o os =>
    simp only [List.length_cons, Nat.add_one_ne_zero, if_false, ne_eq, reduceCtorEq,
      not_false_eq_true, true_and]
    rw [← validateCustomers_ok rt (o :: os)]
    exact ⟨assign_ok_iff _ _ _ _, assign_error_iff _ _ _ _⟩

theorem toJSON_strings (f l p e : String) :
    (Customer.mk (JsVal.str f) (JsVal.str l) (JsVal.str p) (JsVal.str e)).toJSON
      = Except.ok (customerRecord (jsTrim f) (jsTrim l) (jsTrim p) (jsTrim e)) := rfl

/-- Claim C5, as stated, fails in two ways. A first name with a tab, which is neither a
letter nor a space, is accepted, because the name pattern admits every whitespace
character. A single `Customer` whose email is padded with spaces, and so does not match
the email pattern, is accepted, because `toJSON` trims the fields before the checks. -/
theorem setCustomers_accepts_tab_and_padding :
    (∃ ch ∈ "Mary\tAnn".data, ¬ (ch.isAlpha = true ∨ ch = ' '))
    ∧ setCustomers (refRuntime 0)
        (CustomerDetails.array [customerRecord "Mary\tAnn" "Lee" "9876543210" "mary@example.com"])
        []
      = Result.mk [("Customers",
          Value.arr [customerRecord "Mary\tAnn" "Lee" "9876543210" "mary@example.com"])] none
    ∧ EMAIL_REGEX.test " mary@example.com " = false
    ∧ setCustomers (refRuntime 0)
        (CustomerDetails.inst (Customer.mk (JsVal.str "Mary") (JsVal.str "Lee")
          (JsVal.str "9876543210") (JsVal.str " mary@example.com "))) []
      = Result.mk [("Customers",
          Value.arr [customerRecord "Mary" "Lee" "9876543210" "mary@example.com"])] none := by
  decide

/-- Claim C5, amended. For every runtime and container: on an array, `setCustomers`
succeeds, storing the array under `Customers`, exactly when the array is not empty and
every element has a first and a last name that are non-blank strings of letters and
whitespace characters of length at most 70, a phone that is a string of 10 to 15
digits, and an email that is a string of length at most 320 matching the email
pattern, and otherwise it throws and leaves the container as it was; on a single
`Customer` with string fields the same holds for the one record of its trimmed fields;
an empty array and every primitive argument (an absent one among them) fail with
SE0032. -/
theorem setCustomers_succeeds_iff (rt : Runtime) (c : Container) (os : List Obj)
    (f l p e : String) :
    ((os ≠ [] ∧ ∀ o ∈ os, ValidCustomer o) ↔
      setCustomers rt (CustomerDetails.array os) c
        = Result.mk (c.set "Customers" (Value.arr os)) none)
    ∧ (¬ (os ≠ [] ∧ ∀ o ∈ os, ValidCustomer o) ↔
      ∃ err, setCustomers rt (CustomerDetails.array os) c = Result.mk c (some err))
    ∧ (ValidCustomer (customerRecord (jsTrim f) (jsTrim l) (jsTrim p) (jsTrim e)) ↔
      setCustomers rt (CustomerDetails.inst
          (Customer.mk (JsVal.str f) (JsVal.str l) (JsVal.str p) (JsVal.str e))) c
        = Result.mk (c.set "Customers"
            (Value.arr [customerRecord (jsTrim f) (jsTrim l) (jsTrim p) (jsTrim e)])) none)
    ∧ (¬ ValidCustomer (customerRecord (jsTrim f) (jsTrim l) (jsTrim p) (jsTrim e)) ↔
      ∃ err, setCustomers rt (CustomerDetails.inst
          (Customer.mk (JsVal.str f) (JsVal.str l) (JsVal.str p) (JsVal.str e))) c
        = Result.mk c (some err))
    ∧ setCustomers rt (CustomerDetails.array []) c = Result.mk c (some (Err.catalog "SE0032"))
    ∧ (∀ v, setCustomers rt (CustomerDetails.prim v) c
        = Result.mk c (some (Err.catalog "SE0032"))) := by
  refine ⟨(setCustomers_array rt c os).1, (setCustomers_array rt c os).2, ?_, ?_, rfl,
    fun _ => rfl⟩
  · have h := (setCustomers_array rt c
      [customerRecord (jsTrim f) (jsTrim l) (jsTrim p) (jsTrim e)]).1
    simp only [ne_eq, reduceCtorEq, not_false_eq_true, List.mem_singleton, forall_eq,
      true_and] at h
    rw [h]
    simp only [setCustomers, toJSON_strings, List.length_cons, List.length_nil,
      Nat.zero_add, Nat.add_one_ne_zero, if_false]
  · have h := (setCustomers_array rt c
      [customerRecord (jsTrim f) (jsTrim l) (jsTrim p) (jsTrim e)]).2
    simp only [ne_eq, reduceCtorEq, not_false_eq_true, List.mem_singleton, forall_eq,
      true_and] at h
    rw [h]
    simp only [setCustomers, toJSON_strings, List.length_cons, List.length_nil,
      Nat.zero_add, Nat.add_one_ne_zero, if_false]

/-- Claim C6. For every runtime, container and array of customers one of which has an
invalid email (absent, not a string, longer than 320 or not matching the email
pattern), `setCustomers` throws and the container is exactly as before the call. -/
theorem setCustomers_invalid_email_rejected (rt : Runtime) (c : Container) (os : List Obj)
    (h : ∃ o ∈ os, ¬ ValidEmail (o.get "email")) :
    ∃ err, setCustomers rt (CustomerDetails.array os) c = Result.mk c (some err) := by
  apply (setCustomers_array rt c os).2.mp
  rintro ⟨-, hall⟩
  obtain ⟨o, ho, hbad⟩ := h
  exact hbad (hall o ho).2.2.2

/-- Claim C6 at a container holding a title and two customers, the second with the
email `mary.example.com`: the call throws and the container still holds the title only. -/
theorem setCustomers_invalid_email_rejected_witness :
    ∃ err, setCustomers (refRuntime 0)
        (CustomerDetails.array [customerRecord "John" "Doe" "9876543210" "john@example.com",
          customerRecord "Mary" "Lee" "9876543211" "mary.example.com"]) titledContainer
      = Result.mk titledContainer (some err) :=
  setCustomers_invalid_email_rejected (refRuntime 0) titledContainer
    [customerRecord "John" "Doe" "9876543210" "john@example.com",
      customerRecord "Mary" "Lee" "9876543211" "mary.example.com"]
    ⟨customerRecord "Mary" "Lee" "9876543211" "mary.example.com", by simp, by
      rintro ⟨s, hs, -, ht⟩
      have hs2 : s = "mary.example.com" := by
        simp only [customerRecord, Obj.get] at hs
        simpa using hs.symm
      rw [hs2] at ht
      exact absurd ht (by decide)⟩

/-! ## Expiry -/

theorem splitChars_no_sep (sep : Char) (u : List Char) (h : sep ∉ u) :
    splitChars sep u = [u] := by
  induction u with
  | nil => rfl
  | cons c u ih =>
    have hc : ¬ c = sep := fun hcs => h (by rw [hcs]; exact List.mem_cons_self _ _)
    have hu : sep ∉ u := fun hm => h (List.mem_cons_of_mem _ hm)
    simp only [splitChars, hc, if_false, ih hu]

theorem splitChars_append_sep (sep : Char) (u v : List Char) (h : sep ∉ u) :
    splitChars sep (u ++ sep :: v) = u :: splitChars sep v := by
  induction u with
  | nil => simp [splitChars]
  | cons c u ih =>
    have hc : ¬ c = sep := fun hcs => h (by rw [hcs]; exact List.mem_cons_self _ _)
    have hu : sep ∉ u := fun hm => h (List.mem_cons_of_mem _ hm)
    have hstep : splitChars sep (c :: (u ++ sep :: v)) =
        (match splitChars sep (u ++ sep :: v) with
          | [] => [[c]]
          | p :: ps => (c :: p) :: ps) := by
      simp only [splitChars, hc, if_false]
    rw [List.cons_append, hstep, ih hu]

theorem not_mem_append_cons (sep c : Char) (u v : List Char) (hu : sep ∉ u) (hc : sep ≠ c)
    (hv : sep ∉ v) : sep ∉ u ++ c :: v := by
  simp only [List.mem_append, List.mem_cons, not_or]
  exact ⟨hu, hc, hv⟩

theorem digit_ne (sep : Char) (hsep : sep.isDigit = false) (n : Nat) (l : List Char)
    (h : DigitString n l) : sep ∉ l := by
  intro hm
  have := h.2 sep hm
  rw [hsep] at this
  exact absurd this (by decide)

theorem lang_digits (n : Nat) (l : List Char) (h : DigitString n l) : (digits n).Lang l := by
  unfold digits
  rw [Re.lang_range_cls]
  exact ⟨by rw [h.1], by rw [h.1], h.2⟩

theorem lang_seq_digits (n : Nat) (l v : List Char) (r : Re) (h : DigitString n l)
    (hr : r.Lang v) : (Re.seq (digits n) r).Lang (l ++ v) :=
  ⟨l, v, rfl, lang_digits n l h, hr⟩

theorem lang_seq_lit1 (c : Char) (v : List Char) (r : Re) (hr : r.Lang v) :
    (Re.seq (Re.lit [c]) r).Lang (c :: v) :=
  ⟨[c], v, rfl, (Re.lang_lit [c] [c]).mpr rfl, hr⟩

theorem date_test (dd mm yyyy hh mi ss : List Char)
    (hdd : DigitString 2 dd) (hmm : DigitString 2 mm) (hyyyy : DigitString 4 yyyy)
    (hhh : DigitString 2 hh) (hmi : DigitString 2 mi) (hss : DigitString 2 ss) :
    DATE_REGEX.test (expireOnText dd mm yyyy hh mi ss) = true := by
  unfold DATE_REGEX
  rw [test_anchored]
  have h := lang_seq_digits 2 dd _ _ hdd (lang_seq_lit1 '-' _ _
    (lang_seq_digits 2 mm _ _ hmm (lang_seq_lit1 '-' _ _
      (lang_seq_digits 4 yyyy _ _ hyyyy (lang_seq_lit1 ' ' _ _
        (lang_seq_digits 2 hh _ _ hhh (lang_seq_lit1 ':' _ _
          (lang_seq_digits 2 mi _ _ hmi (lang_seq_lit1 ':' _ _
            (lang_digits 2 ss hss))))))))))
  exact h

theorem reformatDate_wellFormed (dd mm yyyy hh mi ss : List Char)
    (hdd : DigitString 2 dd) (hmm : DigitString 2 mm) (hyyyy : DigitString 4 yyyy)
    (hhh : DigitString 2 hh) (hmi : DigitString 2 mi) (hss : DigitString 2 ss) :
    reformatDate (expireOnText dd mm yyyy hh mi ss)
      = Except.ok (sortableText dd mm yyyy hh mi ss) := by
  have d1 := digit_ne '-' (by decide) 2 dd hdd
  have d2 := digit_ne '-' (by decide) 2 mm hmm
  have d3 : '-' ∉ yyyy ++ ' ' :: (hh ++ ':' :: (mi ++ ':' :: ss)) :=
    not_mem_append_cons '-' ' ' _ _ (digit_ne '-' (by decide) 4 yyyy hyyyy) (by decide)
      (not_mem_append_cons '-' ':' _ _ (digit_ne '-' (by decide) 2 hh hhh) (by decide)
        (not_mem_append_cons '-' ':' _ _ (digit_ne '-' (by decide) 2 mi hmi) (by decide)
          (digit_ne '-' (by decide) 2 ss hss)))
  have s1 := digit_ne ' ' (by decide) 4 yyyy hyyyy
  have s2 : ' ' ∉ hh ++ ':' :: (mi ++ ':' :: ss) :=
    not_mem_append_cons ' ' ':' _ _ (digit_ne ' ' (by decide) 2 hh hhh) (by decide)
      (not_mem_append_cons ' ' ':' _ _ (digit_ne ' ' (by decide) 2 mi hmi) (by decide)
        (digit_ne ' ' (by decide) 2 ss hss))
  have hsplit : splitChars '-' (expireOnText dd mm yyyy hh mi ss).data
      = [dd, mm, yyyy ++ ' ' :: (hh ++ ':' :: (mi ++ ':' :: ss))] := by
    simp only [expireOnText]
    rw [splitChars_append_sep '-' dd _ d1, splitChars_append_sep '-' mm _ d2,
      splitChars_no_sep '-' _ d3]
  have hsplit2 : splitChars ' ' (yyyy ++ ' ' :: (hh ++ ':' :: (mi ++ ':' :: ss)))
      = [yyyy, hh ++ ':' :: (mi ++ ':' :: ss)] := by
    rw [splitChars_append_sep ' ' yyyy _ s1, splitChars_no_sep ' ' _ s2]
  unfold reformatDate
  simp only [hsplit, List.get?, hsplit2, subst, sortableText]

/-- The outcome of `setExpireOn` on a text of the shape `DD-MM-YYYY HH:MM:SS`. -/
theorem setExpireOn_wellFormed (rt : Runtime) (c : Container) (dd mm yyyy hh mi ss : List Char)
    (hdd : DigitString 2 dd) (hmm : DigitString 2 mm) (hyyyy : DigitString 4 yyyy)
    (hhh : DigitString 2 hh) (hmi : DigitString 2 mi) (hss : DigitString 2 ss) :
    setExpireOn rt (JsVal.str (expireOnText dd mm yyyy hh mi ss)) c =
      if dateBefore (rt.dateParse (sortableText dd mm yyyy hh mi ss)) rt.now = true then
        Result.mk c (some (Err.catalog "SE0024"))
      else Result.mk (c.set "expireOn"
        (Value.prim (JsVal.str (expireOnText dd mm yyyy hh mi ss)))) none := by
  have h1 : regexValidator rt (JsVal.str (expireOnText dd mm yyyy hh mi ss)) DATE_REGEX
      (getMessage "SE0001") = Except.ok () :=
    (regexValidator_str rt _ _ _).mpr (date_test dd mm yyyy hh mi ss hdd hmm hyyyy hhh hmi hss)
  have h2 := reformatDate_wellFormed dd mm yyyy hh mi ss hdd hmm hyyyy hhh hmi hss
  unfold setExpireOn
  rw [h1]
  simp only [bind, Except.bind, h2]
  by_cases hb : dateBefore (rt.dateParse (sortableText dd mm yyyy hh mi ss)) rt.now = true
  · rw [if_pos hb, if_pos hb]
    rfl
  · rw [if_neg hb, if_neg hb]
    rfl

/-- Claim C7. For every runtime (clock included), container and text `DD-MM-YYYY HH:MM:SS`
of digits that the runtime reads as the instant `t`: when `t` is strictly before the
current instant, `setExpireOn` throws (SE0024) and the container is as before; when `t`
is one second after the current instant, `setExpireOn` succeeds and the container holds
the original text under `expireOn`. -/
theorem setExpireOn_past_and_next_second (rt : Runtime) (c : Container)
    (dd mm yyyy hh mi ss : List Char)
    (hdd : DigitString 2 dd) (hmm : DigitString 2 mm) (hyyyy : DigitString 4 yyyy)
    (hhh : DigitString 2 hh) (hmi : DigitString 2 mi) (hss : DigitString 2 ss) (t : Int)
    (hparse : rt.dateParse (sortableText dd mm yyyy hh mi ss) = some t) :
    (t < rt.now →
      setExpireOn rt (JsVal.str (expireOnText dd mm yyyy hh mi ss)) c
        = Result.mk c (some (Err.catalog "SE0024")))
    ∧ (t = rt.now + 1000 →
      setExpireOn rt (JsVal.str (expireOnText dd mm yyyy hh mi ss)) c
        = Result.mk (c.set "expireOn"
            (Value.prim (JsVal.str (expireOnText dd mm yyyy hh mi ss)))) none) := by
  rw [setExpireOn_wellFormed rt c dd mm yyyy hh mi ss hdd hmm hyyyy hhh hmi hss, hparse]
  constructor
  · intro hlt
    rw [if_pos (by simp [dateBefore, hlt])]
  · intro heq
    rw [if_neg (by simp only [dateBefore, decide_eq_true_eq]; omega)]

/-- Claim C7 at the text `01-03-2000 00:00:00`, with the clock one millisecond after
that instant and with the clock one second before it. -/
theorem setExpireOn_past_and_next_second_witness :
    setExpireOn (refRuntime 951868800001) (JsVal.str "01-03-2000 00:00:00") titledContainer
        = Result.mk titledContainer (some (Err.catalog "SE0024"))
    ∧ setExpireOn (refRuntime 951868799000) (JsVal.str "01-03-2000 00:00:00") titledContainer
        = Result.mk (titledContainer.set "expireOn"
            (Value.prim (JsVal.str "01-03-2000 00:00:00"))) none :=
  ⟨(setExpireOn_past_and_next_second (refRuntime 951868800001) titledContainer
      ['0', '1'] ['0', '3'] ['2', '0', '0', '0'] ['0', '0'] ['0', '0'] ['0', '0']
      ⟨rfl, by decide⟩ ⟨rfl, by decide⟩ ⟨rfl, by decide⟩ ⟨rfl, by decide⟩ ⟨rfl, by decide⟩
      ⟨rfl, by decide⟩ 951868800000 (by decide)).1 (by decide),
    (setExpireOn_past_and_next_second (refRuntime 951868799000) titledContainer
      ['0', '1'] ['0', '3'] ['2', '0', '0', '0'] ['0', '0'] ['0', '0'] ['0', '0']
      ⟨rfl, by decide⟩ ⟨rfl, by decide⟩ ⟨rfl, by decide⟩ ⟨rfl, by decide⟩ ⟨rfl, by decide⟩
      ⟨rfl, by decide⟩ 951868800000 (by decide)).2 (by decide)⟩

/-- Claim C8, as stated, fails: with the clock at exactly the instant that the text
`01-03-2000 00:00:00` denotes, `setExpireOn` does not throw and stores the text. -/
theorem setExpireOn_accepts_current_instant :
    refDateParse "2000-03-01 00:00:00" = some 951868800000
    ∧ (refRuntime 951868800000).now = 951868800000
    ∧ setExpireOn (refRuntime 951868800000) (JsVal.str "01-03-2000 00:00:00") []
        = Result.mk [("expireOn", Value.prim (JsVal.str "01-03-2000 00:00:00"))] none := by
  decide

/-- Claim C8, amended. For every runtime, container and text `DD-MM-YYYY HH:MM:SS` of
digits that the runtime reads as the instant `t`: when `t` is strictly earlier than the
current instant, `setExpireOn` throws the expiry error SE0024 and stores nothing; when
`t` is exactly the current instant, the text is accepted and stored. -/
theorem setExpireOn_earlier_rejected_equal_accepted (rt : Runtime) (c : Container)
    (dd mm yyyy hh mi ss : List Char)
    (hdd : DigitString 2 dd) (hmm : DigitString 2 mm) (hyyyy : DigitString 4 yyyy)
    (hhh : DigitString 2 hh) (hmi : DigitString 2 mi) (hss : DigitString 2 ss) (t : Int)
    (hparse : rt.dateParse (sortableText dd mm yyyy hh mi ss) = some t) :
    (t < rt.now →
      setExpireOn rt (JsVal.str (expireOnText dd mm yyyy hh mi ss)) c
        = Result.mk c (some (Err.catalog "SE0024")))
    ∧ (t = rt.now →
      setExpireOn rt (JsVal.str (expireOnText dd mm yyyy hh mi ss)) c
        = Result.mk (c.set "expireOn"
            (Value.prim (JsVal.str (expireOnText dd mm yyyy hh mi ss)))) none) := by
  rw [setExpireOn_wellFormed rt c dd mm yyyy hh mi ss hdd hmm hyyyy hhh hmi hss, hparse]
  constructor
  · intro hlt
    rw [if_pos (by simp [dateBefore, hlt])]
  · intro heq
    rw [if_neg (by simp only [dateBefore, decide_eq_true_eq]; omega)]

/-- Claim C8, amended, at the text `31-12-1999 23:59:59`, with the clock one second
later and with the clock at that very instant. -/
theorem setExpireOn_earlier_rejected_equal_accepted_witness :
    setExpireOn (refRuntime 946684800000) (JsVal.str "31-12-1999 23:59:59") titledContainer
        = Result.mk titledContainer (some (Err.catalog "SE0024"))
    ∧ setExpireOn (refRuntime 946684799000) (JsVal.str "31-12-1999 23:59:59") titledContainer
        = Result.mk (titledContainer.set "expireOn"
            (Value.prim (JsVal.str "31-12-1999 23:59:59"))) none :=
  ⟨(setExpireOn_earlier_rejected_equal_accepted (refRuntime 946684800000) titledContainer
      ['3', '1'] ['1', '2'] ['1', '9', '9', '9'] ['2', '3'] ['5', '9'] ['5', '9']
      ⟨rfl, by decide⟩ ⟨rfl, by decide⟩ ⟨rfl, by decide⟩ ⟨rfl, by decide⟩ ⟨rfl, by decide⟩
      ⟨rfl, by decide⟩ 946684799000 (by decide)).1 (by decide),
    (setExpireOn_earlier_rejected_equal_accepted (refRuntime 946684799000) titledContainer
      ['3', '1'] ['1', '2'] ['1', '9', '9', '9'] ['2', '3'] ['5', '9'] ['5', '9']
      ⟨rfl, by decide⟩ ⟨rfl, by decide⟩ ⟨rfl, by decide⟩ ⟨rfl, by decide⟩ ⟨rfl, by decide⟩
      ⟨rfl, by decide⟩ 946684799000 (by decide)).2 (by decide)⟩

/-- Claim C9 fails on the code: the text `99-99-2099 99:99:99` matches the date pattern,
the date made from `2099-99-99 99:99:99` is invalid, an invalid date is not before the
current date, and so, whatever the clock shows and whatever the container holds,
`setExpireOn` stores the text under `expireOn`. -/
theorem setExpireOn_stores_impossible_date (now : Int) (c : Container) :
    refDateParse "2099-99-99 99:99:99" = none
    ∧ setExpireOn (refRuntime now) (JsVal.str "99-99-2099 99:99:99") c
        = Result.mk (c.set "expireOn" (Value.prim (JsVal.str "99-99-2099 99:99:99"))) none := by
  refine ⟨by decide, ?_⟩
  have h := setExpireOn_wellFormed (refRuntime now) c
    ['9', '9'] ['9', '9'] ['2', '0', '9', '9'] ['9', '9'] ['9', '9'] ['9', '9']
    ⟨rfl, by decide⟩ ⟨rfl, by decide⟩ ⟨rfl, by decide⟩ ⟨rfl, by decide⟩ ⟨rfl, by decide⟩
    ⟨rfl, by decide⟩
  have hnone : (refRuntime now).dateParse
      (sortableText ['9', '9'] ['9', '9'] ['2', '0', '9', '9'] ['9', '9'] ['9', '9'] ['9', '9'])
      = none :=
    (by decide : refDateParse (sortableText ['9', '9'] ['9', '9'] ['2', '0', '9', '9']
      ['9', '9'] ['9', '9'] ['9', '9']) = none)
  rw [hnone] at h
  exact h

/-! ## Containers and sequences of calls -/

theorem container_get_set (c : Container) (k : String) (v : Value) (k2 : String) :
    (c.set k v).get k2 = if k = k2 then some v else c.get k2 := by
  induction c with
  | nil => simp [Container.set, Container.get]
  | cons p rest ih =>
    obtain ⟨k1, v1⟩ := p
    by_cases h1 : k1 = k
    · subst h1
      by_cases h2 : k1 = k2
      · simp [Container.set, Container.get, h2]
      · simp [Container.set, Container.get, h2]
    · by_cases h2 : k1 = k2
      · subst h2
        have h3 : ¬ k = k1 := fun h => h1 h.symm
        simp [Container.set, Container.get, h1, h3]
      · simp [Container.set, Container.get, h1, h2, ih]

theorem assign_cases (checks : Except Err Unit) (k : String) (v : Value) :
    (∃ e, ∀ c, assign c checks k v = Result.mk c (some e)) ∨
      (∃ w, ∀ c, assign c checks k v = Result.mk (c.set k w) none) := by
  cases checks with
  | error e => exact Or.inl ⟨e, fun _ => rfl⟩
  | ok u => exact Or.inr ⟨v, fun _ => rfl⟩

theorem assignTrimmed_cases (checks : Except Err String) (k : String) :
    (∃ e, ∀ c, assignTrimmed c checks k = Result.mk c (some e)) ∨
      (∃ w, ∀ c, assignTrimmed c checks k = Result.mk (c.set k w) none) := by
  cases checks with
  | error e => exact Or.inl ⟨e, fun _ => rfl⟩
  | ok t => exact Or.inr ⟨Value.prim (JsVal.str t), fun _ => rfl⟩

/-- A setter call of a payment request either throws and leaves every container as it
is, or writes one value under its own key; which of the two does not depend on the
container. -/
theorem paymentCall_run_cases (rt : Runtime) (call : PaymentCall) :
    (∃ e, ∀ c, call.run rt c = Result.mk c (some e)) ∨
      (∃ w, ∀ c, call.run rt c = Result.mk (c.set call.key w) none) := by
  cases call with
  | setTitle v => exact assignTrimmed_cases _ _
  | setAmount v => exact assign_cases _ _ _
  | setShortDescription v => exact assignTrimmed_cases _ _
  | setPaymentDescription v => exact assignTrimmed_cases _ _
  | setEnablePartialPayment v => exact Or.inr ⟨_, fun _ => rfl⟩
  | setEnableMultiplePayment v => exact Or.inr ⟨_, fun _ => rfl⟩
  | setDisplayReceipt v => exact Or.inr ⟨_, fun _ => rfl⟩
  | setExpireOn v => exact assign_cases _ _ _
  | setCustomers d =>
    cases d with
    | prim v => exact Or.inl ⟨_, fun _ => rfl⟩
    | object o => exact Or.inl ⟨_, fun _ => rfl⟩
    | inst cu =>
      simp only [PaymentCall.run, PaymentCall.key, CreatePaymentRequest.setCustomers]
      cases cu.toJSON with
      | error e => exact Or.inl ⟨e, fun _ => rfl⟩
      | ok o => exact assign_cases _ _ _
    | array os =>
      simp only [PaymentCall.run, PaymentCall.key, CreatePaymentRequest.setCustomers]
      by_cases h : os.length = 0
      · simp only [h, if_true]
        exact Or.inl ⟨_, fun _ => rfl⟩
      · simp only [h, if_false]
        exact assign_cases _ _ _
  | setCallbackParameters d =>
    cases d with
    | prim v =>
      simp only [PaymentCall.run, PaymentCall.key, CreatePaymentRequest.setCallbackParameters]
      by_cases h : truthy v = true
      · simp only [h, Bool.not_true, Bool.false_eq_true, if_false]
        exact assign_cases _ _ _
      · simp only [h, Bool.not_false, if_true]
        exact Or.inl ⟨_, fun _ => rfl⟩
    | inst cb =>
      simp only [PaymentCall.run, PaymentCall.key, CreatePaymentRequest.setCallbackParameters]
      cases cb.toJSON with
      | error e => exact Or.inl ⟨e, fun _ => rfl⟩
      | ok o => exact assign_cases _ _ _
    | object o =>
      simp only [PaymentCall.run, PaymentCall.key, CreatePaymentRequest.setCallbackParameters]
      by_cases h : lengthIsZero o = true
      · simp only [h, if_true]
        exact Or.inl ⟨_, fun _ => rfl⟩
      · simp only [h, if_false]
        exact assign_cases _ _ _
  | setSettings d =>
    cases d with
    | prim v =>
      simp only [PaymentCall.run, PaymentCall.key, CreatePaymentRequest.setSettings]
      by_cases h : truthy v = true
      · simp only [h, Bool.not_true, Bool.false_eq_true, if_false]
        exact Or.inr ⟨_, fun _ => rfl⟩
      · simp only [h, Bool.not_false, if_true]
        exact Or.inl ⟨_, fun _ => rfl⟩
    | inst st => exact Or.inr ⟨_, fun _ => rfl⟩
    | object o =>
      simp only [PaymentCall.run, PaymentCall.key, CreatePaymentRequest.setSettings]
      by_cases h : lengthIsZero o = true
      · simp only [h, if_true]
        exact Or.inl ⟨_, fun _ => rfl⟩
      · simp only [h, if_false]
        exact Or.inr ⟨_, fun _ => rfl⟩

/-- The same for the setters of a refund request. -/
theorem refundCall_run_cases (rt : Runtime) (call : RefundCall) :
    (∃ e, ∀ c, call.run rt c = Result.mk c (some e)) ∨
      (∃ w, ∀ c, call.run rt c = Result.mk (c.set call.key w) none) := by
  cases call with
  | setRefundAmount v => exact assign_cases _ _ _
  | setRefundRemarks v => exact assign_cases _ _ _
  | setOrderId v => exact assign_cases _ _ _

/-- The keys of the container after a sequence of payment setter calls: those it had
and those of the calls that did not throw. -/
theorem runPaymentCalls_get (calls : List (Runtime × PaymentCall)) (c : Container)
    (k : String) :
    (runPaymentCalls c calls).get k ≠ none ↔
      c.get k ≠ none ∨ ∃ p ∈ calls, p.2.key = k ∧ (p.2.run p.1 []).thrown = none := by
  induction calls generalizing c with
  | nil => simp [runPaymentCalls]
  | cons p rest ih =>
    obtain ⟨rt, call⟩ := p
    simp only [runPaymentCalls, List.mem_cons, exists_eq_or_imp]
    rcases paymentCall_run_cases rt call with ⟨e, he⟩ | ⟨w, hw⟩
    · rw [he c, ih c, he []]
      simp
    · rw [hw c, ih (c.set call.key w), hw [], container_get_set]
      by_cases hk : call.key = k
      · simp [hk]
      · simp [hk]

/-- The keys of the container after a sequence of refund setter calls. -/
theorem runRefundCalls_get (calls : List (Runtime × RefundCall)) (c : Container)
    (k : String) :
    (runRefundCalls c calls).get k ≠ none ↔
      c.get k ≠ none ∨ ∃ p ∈ calls, p.2.key = k ∧ (p.2.run p.1 []).thrown = none := by
  induction calls generalizing c with
  | nil => simp [runRefundCalls]
  | cons p rest ih =>
    obtain ⟨rt, call⟩ := p
    simp only [runRefundCalls, List.mem_cons, exists_eq_or_imp]
    rcases refundCall_run_cases rt call with ⟨e, he⟩ | ⟨w, hw⟩
    · rw [he c, ih c, he []]
      simp
    · rw [hw c, ih (c.set call.key w), hw [], container_get_set]
      by_cases hk : call.key = k
      · simp [hk]
      · simp [hk]

theorem addDefaultSettings_get (c : Container) (k : String) :
    (Auropay.addDefaultSettings c).get k =
      if k = "ResponseType" then some (Value.prim (JsVal.num (JsNum.fin 1)))
      else if k = "enableProtection" then some (Value.prim (JsVal.bool false))
      else c.get k := by
  unfold Auropay.addDefaultSettings
  rw [container_get_set, container_get_set]
  by_cases h1 : k = "ResponseType"
  · subst h1
    simp
  · by_cases h2 : k = "enableProtection"
    · subst h2
      simp
    · have h1' : ¬ "ResponseType" = k := fun h => h1 h.symm
      have h2' : ¬ "enableProtection" = k := fun h => h2 h.symm
      simp [h1, h2, h1', h2']

theorem buildRefund_key_absent (rcalls : List (Runtime × RefundCall)) (k : String)
    (h1 : k ≠ "Amount") (h2 : k ≠ "Remarks") (h3 : k ≠ "OrderId") :
    (buildRefund rcalls).get k = none := by
  by_contra hne
  rcases (runRefundCalls_get rcalls [] k).mp hne with h | ⟨p, -, hk, -⟩
  · exact h rfl
  · obtain ⟨rt, call⟩ := p
    cases call with
    | setRefundAmount v => exact h1 hk.symm
    | setRefundRemarks v => exact h2 hk.symm
    | setOrderId v => exact h3 hk.symm

theorem callTrim_field (v : JsVal) (t : String) (h : callTrim v = Except.ok t) :
    JsVal.str t = trimmedField v := by
  cases v with
  | str s =>
    simp only [callTrim, Except.ok.injEq] at h
    rw [← h]
    rfl
  | undefined => simp [callTrim] at h
  | null => simp [callTrim] at h
  | bool b => simp [callTrim] at h
  | num n => simp [callTrim] at h

theorem bind_ok_right (a : Except Err Unit) (f : Except Err String) (t : String)
    (h : (a >>= fun _ => f) = Except.ok t) : f = Except.ok t := by
  cases a with
  | error e => simp [bind, Except.bind] at h
  | ok u => simpa [bind, Except.bind] using h

theorem assignTrimmed_field (blk : Except Err String) (k : String) (v : JsVal)
    (h : ∀ t, blk = Except.ok t → callTrim v = Except.ok t) :
    (∃ e, ∀ c, assignTrimmed c blk k = Result.mk c (some e)) ∨
      (∀ c, assignTrimmed c blk k = Result.mk (c.set k (Value.prim (trimmedField v))) none) := by
  cases blk with
  | error e => exact Or.inl ⟨e, fun _ => rfl⟩
  | ok t =>
    right
    intro c
    have ht := callTrim_field v t (h t rfl)
    simp only [assignTrimmed, ht]

theorem assign_field (checks : Except Err Unit) (k : String) (v : Value) :
    (∃ e, ∀ c, assign c checks k v = Result.mk c (some e)) ∨
      (∀ c, assign c checks k v = Result.mk (c.set k v) none) := by
  cases checks with
  | error e => exact Or.inl ⟨e, fun _ => rfl⟩
  | ok u => exact Or.inr (fun _ => rfl)

theorem customer_toJSON_field (cu : Customer) (o : Obj) (h : cu.toJSON = Except.ok o) :
    o = [("firstName", trimmedField cu.firstName), ("lastName", trimmedField cu.lastName),
      ("phone", trimmedField cu.phone), ("email", trimmedField cu.email)] := by
  obtain ⟨f, l, p, e⟩ := cu
  cases f <;> cases l <;> cases p <;> cases e <;>
    simp only [Customer.toJSON, callTrim, bind, Except.bind, pure, Except.pure,
      Except.ok.injEq, reduceCtorEq] at h
  rw [← h]
  rfl

theorem callback_toJSON_field (cb : CallbackParameters) (o : Obj)
    (h : cb.toJSON = Except.ok o) :
    o = [("CallbackApiUrl", trimmedField cb.CallbackApiUrl),
      ("ReferenceNo", trimmedField cb.ReferenceNo)] := by
  obtain ⟨u, r⟩ := cb
  cases u <;> cases r <;>
    simp only [CallbackParameters.toJSON, callTrim, bind, Except.bind, pure, Except.pure,
      Except.ok.injEq, reduceCtorEq] at h
  rw [← h]
  rfl

/-- A setter call of a payment request either throws and leaves every container as it
is, or writes its field under its own key. -/
theorem paymentCall_run_field (rt : Runtime) (call : PaymentCall) :
    (∃ e, ∀ c, call.run rt c = Result.mk c (some e)) ∨
      (∀ c, call.run rt c = Result.mk (c.set call.key call.field) none) := by
  cases call with
  | setTitle v =>
    refine assignTrimmed_field _ _ v ?_
    intro t ht
    exact bind_ok_right _ _ t (bind_ok_right _ _ t (bind_ok_right _ _ t ht))
  | setAmount v => exact assign_field _ _ _
  | setShortDescription v =>
    refine assignTrimmed_field _ _ v ?_
    intro t ht
    exact bind_ok_right _ _ t (bind_ok_right _ _ t ht)
  | setPaymentDescription v =>
    refine assignTrimmed_field _ _ v ?_
    intro t ht
    exact bind_ok_right _ _ t (bind_ok_right _ _ t ht)
  | setEnablePartialPayment v => exact Or.inr (fun _ => rfl)
  | setEnableMultiplePayment v => exact Or.inr (fun _ => rfl)
  | setDisplayReceipt v => exact Or.inr (fun _ => rfl)
  | setExpireOn v => exact assign_field _ _ _
  | setCustomers d =>
    cases d with
    | prim v => exact Or.inl ⟨_, fun _ => rfl⟩
    | object o => exact Or.inl ⟨_, fun _ => rfl⟩
    | inst cu =>
      simp only [PaymentCall.run, PaymentCall.key, PaymentCall.field,
        CreatePaymentRequest.setCustomers]
      cases hj : cu.toJSON with
      | error e => exact Or.inl ⟨e, fun _ => rfl⟩
      | ok o =>
        rw [← customer_toJSON_field cu o hj]
        exact assign_field _ _ _
    | array os =>
      simp only [PaymentCall.run, PaymentCall.key, PaymentCall.field,
        CreatePaymentRequest.setCustomers]
      by_cases h : os.length = 0
      · simp only [h, if_true]
        exact Or.inl ⟨_, fun _ => rfl⟩
      · simp only [h, if_false]
        exact assign_field _ _ _
  | setCallbackParameters d =>
    cases d with
    | prim v =>
      simp only [PaymentCall.run, PaymentCall.key, PaymentCall.field,
        CreatePaymentRequest.setCallbackParameters]
      by_cases h : truthy v = true
      · simp only [h, Bool.not_true, Bool.false_eq_true, if_false]
        exact assign_field _ _ _
      · simp only [h, Bool.not_false, if_true]
        exact Or.inl ⟨_, fun _ => rfl⟩
    | inst cb =>
      simp only [PaymentCall.run, PaymentCall.key, PaymentCall.field,
        CreatePaymentRequest.setCallbackParameters]
      cases hj : cb.toJSON with
      | error e => exact Or.inl ⟨e, fun _ => rfl⟩
      | ok o =>
        rw [← callback_toJSON_field cb o hj]
        exact assign_field _ _ _
    | object o =>
      simp only [PaymentCall.run, PaymentCall.key, PaymentCall.field,
        CreatePaymentRequest.setCallbackParameters]
      by_cases h : lengthIsZero o = true
      · simp only [h, if_true]
        exact Or.inl ⟨_, fun _ => rfl⟩
      · simp only [h, if_false]
        exact assign_field _ _ _
  | setSettings d =>
    cases d with
    | prim v =>
      simp only [PaymentCall.run, PaymentCall.key, CreatePaymentRequest.setSettings]
      by_cases h : truthy v = true
      · simp only [h, Bool.not_true, Bool.false_eq_true, if_false]
        exact Or.inr (fun _ => rfl)
      · simp only [h, Bool.not_false, if_true]
        exact Or.inl ⟨_, fun _ => rfl⟩
    | inst st => exact Or.inr (fun _ => rfl)
    | object o =>
      simp only [PaymentCall.run, PaymentCall.key, CreatePaymentRequest.setSettings]
      by_cases h : lengthIsZero o = true
      · simp only [h, if_true]
        exact Or.inl ⟨_, fun _ => rfl⟩
      · simp only [h, if_false]
        exact Or.inr (fun _ => rfl)

/-- The container of a new payment request holds, under every key, the field that was
set for it. -/
theorem runPaymentCalls_fieldsSet (calls : List (Runtime × PaymentCall)) (c : Container)
    (k : String) :
    (runPaymentCalls c calls).get k =
      match fieldsSet k calls with
      | some v => some v
      | none => c.get k := by
  induction calls generalizing c with
  | nil => rfl
  | cons p rest ih =>
    obtain ⟨rt, call⟩ := p
    simp only [runPaymentCalls, fieldsSet]
    rw [ih]
    cases hrest : fieldsSet k rest with
    | some v => rfl
    | none =>
      rcases paymentCall_run_field rt call with ⟨e, he⟩ | hw
      · rw [he c, he []]
        simp
      · rw [hw c, hw [], container_get_set]
        by_cases hk : call.key = k
        · simp [hk]
        · simp [hk]

/-- Claim C10. For every sequence of setter calls on a new payment request, the payload
that `createPaymentLink` and `createPaymentQRCode` pass on is the container with
`ResponseType = 1` and `enableProtection = false` written into it: it holds these two
values under these two keys and, under every other key, what the container holds. The
container holds a value under a key exactly when some call of the sequence with that key
did not throw, and the value is the field set by the last such call; every call throws
and leaves the container as it is, or writes its field under its own key. The sample
request, built from valid fields with every setter, gives the payload of its eleven
fields and the two defaults. For every sequence of setter calls on a new refund request,
the payload that `createRefund` passes on has neither `ResponseType` nor
`enableProtection`. -/
theorem payload_defaults (calls : List (Runtime × PaymentCall))
    (rcalls : List (Runtime × RefundCall)) :
    Auropay.createPaymentLink (some (buildPayment calls))
        = Except.ok (Auropay.ConnectCall.mk "1.0" "POST" "api/paymentlinks"
            (Auropay.addDefaultSettings (buildPayment calls)))
    ∧ Auropay.createPaymentQRCode (some (buildPayment calls))
        = Except.ok (Auropay.ConnectCall.mk "1.0" "POST" "api/paymentqrcodes"
            (Auropay.addDefaultSettings (buildPayment calls)))
    ∧ (∀ k, (Auropay.addDefaultSettings (buildPayment calls)).get k =
        if k = "ResponseType" then some (Value.prim (JsVal.num (JsNum.fin 1)))
        else if k = "enableProtection" then some (Value.prim (JsVal.bool false))
        else (buildPayment calls).get k)
    ∧ (∀ k, (buildPayment calls).get k ≠ none ↔
        ∃ p ∈ calls, p.2.key = k ∧ (p.2.run p.1 []).thrown = none)
    ∧ Auropay.createRefund (some (buildRefund rcalls))
        = Except.ok (Auropay.ConnectCall.mk "1.0" "POST" "api/refunds"
            ((buildRefund rcalls).set "UserType" (Value.prim (JsVal.num (JsNum.fin 1)))))
    ∧ ((buildRefund rcalls).set "UserType" (Value.prim (JsVal.num (JsNum.fin 1)))).get
        "ResponseType" = none
    ∧ ((buildRefund rcalls).set "UserType" (Value.prim (JsVal.num (JsNum.fin 1)))).get
        "enableProtection" = none
    ∧ (∀ k, (buildPayment calls).get k = fieldsSet k calls)
    ∧ (∀ (rt : Runtime) (call : PaymentCall) (c : Container),
        (∃ e, call.run rt c = Result.mk c (some e))
        ∨ call.run rt c = Result.mk (c.set call.key call.field) none)
    ∧ Auropay.addDefaultSettings (buildPayment samplePaymentCalls) = samplePayload
    ∧ Auropay.createPaymentLink (some (buildPayment samplePaymentCalls))
        = Except.ok (Auropay.ConnectCall.mk "1.0" "POST" "api/paymentlinks" samplePayload)
    ∧ Auropay.createPaymentQRCode (some (buildPayment samplePaymentCalls))
        = Except.ok (Auropay.ConnectCall.mk "1.0" "POST" "api/paymentqrcodes" samplePayload) := by
  have hsample : Auropay.addDefaultSettings (buildPayment samplePaymentCalls) = samplePayload := by
    decide
  refine ⟨rfl, rfl, addDefaultSettings_get _, ?_, rfl, ?_, ?_, ?_, ?_, hsample, ?_, ?_⟩
  · intro k
    have h := runPaymentCalls_get calls [] k
    simpa [buildPayment, Container.get] using h
  · rw [container_get_set, if_neg (by decide)]
    exact buildRefund_key_absent rcalls _ (by decide) (by decide) (by decide)
  · rw [container_get_set, if_neg (by decide)]
    exact buildRefund_key_absent rcalls _ (by decide) (by decide) (by decide)
  · intro k
    unfold buildPayment
    rw [runPaymentCalls_fieldsSet]
    cases fieldsSet k calls <;> rfl
  · intro rt call c
    rcases paymentCall_run_field rt call with ⟨e, he⟩ | hw
    · exact Or.inl ⟨e, he c⟩
    · exact Or.inr (hw c)
  · show Except.ok (Auropay.ConnectCall.mk "1.0" "POST" "api/paymentlinks"
        (Auropay.addDefaultSettings (buildPayment samplePaymentCalls))) = _
    rw [hsample]
  · show Except.ok (Auropay.ConnectCall.mk "1.0" "POST" "api/paymentqrcodes"
        (Auropay.addDefaultSettings (buildPayment samplePaymentCalls))) = _
    rw [hsample]

/-! ## Callback parameters -/

theorem lang_allCls (q : Char → Bool) (r : Re) (h : Re.AllCls q r) (w : List Char)
    (hw : r.Lang w) : ∀ c ∈ w, q c = true := by
  induction r generalizing w with
  | none => exact absurd hw (by simp [Re.Lang])
  | eps =>
    have : w = [] := hw
    simp [this]
  | cls p =>
    obtain ⟨d, hd, hp⟩ := hw
    intro c hc
    rw [hd, List.mem_singleton] at hc
    rw [hc]
    exact h d hp
  | seq a b iha ihb =>
    obtain ⟨u, v, huv, hu, hv⟩ := hw
    intro c hc
    rw [huv, List.mem_append] at hc
    rcases hc with hc | hc
    · exact iha h.1 u hu c hc
    · exact ihb h.2 v hv c hc
  | alt a b iha ihb =>
    rcases hw with hw | hw
    · exact iha h.1 w hw
    · exact ihb h.2 w hw
  | star a iha =>
    obtain ⟨parts, hparts, hall⟩ := hw
    intro c hc
    rw [hparts, List.mem_flatten] at hc
    obtain ⟨u, hu, hcu⟩ := hc
    exact iha h u (hall u hu).2 c hcu

theorem allCls_range (q : Char → Bool) (a : Re) (h : Re.AllCls q a) (m n : Nat) :
    Re.AllCls q (Re.range a m n) := by
  induction n generalizing m with
  | zero => cases m <;> simp [Re.range, Re.AllCls]
  | succ n ih =>
    cases m with
    | zero => exact ⟨trivial, h, ih 0⟩
    | succ m => exact ⟨h, ih m⟩

theorem allCls_lit (q : Char → Bool) (l : List Char) (h : ∀ c ∈ l, q c = true) :
    Re.AllCls q (Re.lit l) := by
  induction l with
  | nil => trivial
  | cons d l ih =>
    refine ⟨?_, ih (fun c hc => h c (List.mem_cons_of_mem _ hc))⟩
    intro c hc
    have hcd : c = d := by simpa using hc
    rw [hcd]
    exact h d (List.mem_cons_self _ _)

theorem isUrlChar_tail (c : Char) (h : isUrlChar c = true) : isUrlTailChar c = true := by
  simp [isUrlTailChar, h]

theorem isLower_tail (c : Char) (h : c.isLower = true) : isUrlTailChar c = true := by
  simp [isUrlTailChar, isUrlChar, Char.isAlphanum, Char.isAlpha, h]

/-- Every character of a string matching the URL pattern is in the tail class. -/
theorem url_test_chars (s : String) (h : CALLBACK_API_URL_REGEX.test s = true) :
    ∀ c ∈ s.data, isUrlTailChar c = true := by
  unfold CALLBACK_API_URL_REGEX at h
  rw [test_anchored] at h
  refine lang_allCls isUrlTailChar _ ?_ s.data h
  refine ⟨⟨allCls_lit _ _ (by decide), ⟨trivial, allCls_lit _ _ (by decide)⟩,
    allCls_lit _ _ (by decide)⟩, ⟨trivial, allCls_lit _ _ (by decide)⟩,
    allCls_range isUrlTailChar (Re.cls isUrlChar) isUrlChar_tail 2 256, allCls_lit _ _ (by decide),
    allCls_range isUrlTailChar (Re.cls Char.isLower) isLower_tail 2 6, trivial, ?_, fun c hc => hc⟩
  intro c hc
  simp only [Bool.and_eq_true] at hc
  exact hc.1

theorem isAlphanum_ge (c : Char) (h : c.isAlphanum = true) : 48 ≤ c.toNat := by
  simp only [Char.isAlphanum, Char.isAlpha, Char.isUpper, Char.isLower,
    Char.isDigit, Bool.or_eq_true, Bool.and_eq_true, decide_eq_true_eq] at h
  simp only [Char.toNat]
  rcases h with (⟨h1, _⟩ | ⟨h1, _⟩) | ⟨h1, _⟩
  · have h3 : (65 : UInt32).toNat ≤ c.val.toNat := uint32_le_toNat _ _ h1
    have h4 : (65 : UInt32).toNat = 65 := rfl
    omega
  · have h3 : (97 : UInt32).toNat ≤ c.val.toNat := uint32_le_toNat _ _ h1
    have h4 : (97 : UInt32).toNat = 97 := rfl
    omega
  · exact uint32_le_toNat _ _ h1

theorem isAlphanum_not_whitespace (c : Char) (h : c.isAlphanum = true) :
    isJsWhitespace c = false := by
  have h1 := isAlphanum_ge c h
  have h2 := isAlphanum_le c h
  simp only [isJsWhitespace, Bool.or_eq_false_iff, decide_eq_false_iff_not,
    Bool.and_eq_false_imp, decide_eq_true_eq]
  omega

theorem isUrlTailChar_facts (c : Char) (h : isUrlTailChar c = true) :
    isJsWhitespace c = false ∧ c.toNat < 65536 := by
  simp only [isUrlTailChar, isUrlChar, Bool.or_eq_true, beq_iff_eq] at h
  rcases h with h | ((((((((((((h | h) | h) | h) | h) | h) | h) | h) | h) | h) | h) | h) | h)
  · rw [h]; decide
  · exact ⟨isAlphanum_not_whitespace c h, by have := isAlphanum_le c h; omega⟩
  all_goals (rw [h]; decide)

theorem trimChars_of_no_whitespace (l : List Char) (h : ∀ c ∈ l, isJsWhitespace c = false) :
    trimChars l = l := by
  have hdrop : ∀ m : List Char, (∀ c ∈ m, isJsWhitespace c = false) →
      m.dropWhile isJsWhitespace = m := by
    intro m hm
    cases m with
    | nil => rfl
    | cons a m => simp [List.dropWhile, hm a (List.mem_cons_self _ _)]
  unfold trimChars
  rw [hdrop l h, hdrop l.reverse (fun c hc => h c (List.mem_reverse.mp hc)), List.reverse_reverse]

/-- A string matching the URL pattern is not blank, equals its trimmed form, and its
length in UTF-16 code units is its number of characters. -/
theorem url_test_facts (s : String) (h : CALLBACK_API_URL_REGEX.test s = true) :
    trimChars s.data ≠ [] ∧ jsTrim s = s ∧ jsLength s = s.length := by
  have hchars := url_test_chars s h
  have hws : ∀ c ∈ s.data, isJsWhitespace c = false :=
    fun c hc => (isUrlTailChar_facts c (hchars c hc)).1
  have htrim := trimChars_of_no_whitespace s.data hws
  have hne : s.data ≠ [] := by
    intro hs
    have hfalse : Re.rmatch CALLBACK_API_URL_REGEX.whole [] = false := by decide
    have htest : Re.rmatch CALLBACK_API_URL_REGEX.whole s.data = true := h
    rw [hs, hfalse] at htest
    exact absurd htest (by decide)
  refine ⟨by rw [htrim]; exact hne, ?_, ?_⟩
  · unfold jsTrim
    rw [htrim]
  · exact sum_utf16_of_bmp s.data (fun c hc => (isUrlTailChar_facts c (hchars c hc)).2)

/-- The checks of `setCallbackParameters` when `CallbackApiUrl` is a string. -/
theorem checkCallbackParameters_str (rt : Runtime) (o : Obj) (s : String)
    (hs : o.get "CallbackApiUrl" = JsVal.str s) :
    checkCallbackParameters rt o =
      if trimChars s.data = [] then Except.error (Err.catalog "SE0031")
      else if CALLBACK_API_URL_REGEX.test s = true then
        if 2048 < jsLength s then Except.error (Err.catalog "SE0030")
        else checkMaxCharLength (o.get "referenceNumber") 50 (Err.catalog "SE0029")
      else Except.error (Err.catalog "SE0014") := by
  unfold checkCallbackParameters
  rw [hs, emptyCheck_str, checkMaxCharLength_str]
  by_cases h1 : trimChars s.data = []
  · rw [if_pos h1, if_pos h1]
    rfl
  · rw [if_neg h1, if_neg h1]
    by_cases h2 : CALLBACK_API_URL_REGEX.test s = true
    · rw [if_pos h2]
      have hre : regexValidator rt (JsVal.str s) CALLBACK_API_URL_REGEX (getMessage "SE0014")
          = Except.ok () := (regexValidator_str rt s _ _).mpr h2
      rw [hre]
      by_cases h3 : 2048 < jsLength s
      · rw [if_pos h3, if_pos h3]
        rfl
      · rw [if_neg h3, if_neg h3]
        rfl
    · rw [if_neg h2]
      have hre : regexValidator rt (JsVal.str s) CALLBACK_API_URL_REGEX (getMessage "SE0014")
          = Except.error (Err.catalog "SE0014") := by
        unfold regexValidator
        simp [ToString, h2, getMessage]
      rw [hre]
      rfl

/-- The checks fail when `CallbackApiUrl` is not a string. -/
theorem checkCallbackParameters_not_str (rt : Runtime) (o : Obj)
    (hs : ∀ s, o.get "CallbackApiUrl" ≠ JsVal.str s) :
    ∃ e, checkCallbackParameters rt o = Except.error e := by
  unfold checkCallbackParameters
  cases hchk : emptyCheck (o.get "CallbackApiUrl") (getMessage "SE0031") with
  | error e => exact ⟨e, rfl⟩
  | ok u =>
    obtain ⟨s, hstr, -⟩ := (emptyCheck_ok_iff _ _).mp hchk
    exact absurd hstr (hs s)

theorem longUrl_test (n : Nat) : CALLBACK_API_URL_REGEX.test (longUrl n) = true := by
  unfold CALLBACK_API_URL_REGEX
  rw [test_anchored]
  have hscheme : (Re.seq (Re.lit ['h', 't', 't', 'p']) (Re.seq (Re.opt (Re.lit ['s']))
      (Re.lit [':', '/', '/']))).Lang "https://".data :=
    (Re.rmatch_iff _ _).mp (by decide)
  have hhost : (Re.range (Re.cls isUrlChar) 2 256).Lang "example".data :=
    (Re.rmatch_iff _ _).mp (by decide)
  have htld : (Re.range (Re.cls Char.isLower) 2 6).Lang "com".data :=
    (Re.rmatch_iff _ _).mp (by decide)
  have htail : (Re.star (Re.cls isUrlTailChar)).Lang (List.replicate n 'a') := by
    rw [Re.lang_star_cls]
    intro c hc
    rw [List.eq_of_mem_replicate hc]
    decide
  exact ⟨"https://".data, "example.com/".data ++ List.replicate n 'a', rfl, hscheme,
    [], "example.com/".data ++ List.replicate n 'a', rfl, Or.inl rfl,
    "example".data, ".com/".data ++ List.replicate n 'a', rfl, hhost,
    ['.'], "com/".data ++ List.replicate n 'a', rfl, (Re.lang_lit _ _).mpr rfl,
    "com".data, '/' :: List.replicate n 'a', rfl, htld,
    Or.inr ⟨['/'], List.replicate n 'a', rfl, ⟨'/', rfl, by decide⟩, htail⟩⟩

theorem longUrl_length (n : Nat) : jsLength (longUrl n) = 20 + n := by
  rw [(url_test_facts (longUrl n) (longUrl_test n)).2.2]
  simp only [longUrl, String.length, List.length_append, List.length_replicate,
    List.length_cons, List.length_nil]

theorem toJSON_callback_strings (u r : String) :
    (CallbackParameters.mk (JsVal.str u) (JsVal.str r)).toJSON
      = Except.ok (callbackRecord (jsTrim u) (jsTrim r)) := rfl

/-- The outcome of `setCallbackParameters` on a flattened structure with the two keys
`CallbackApiUrl` and `ReferenceNo`. -/
theorem setCallbackParameters_record (rt : Runtime) (c : Container) (s r : String) :
    setCallbackParameters rt (CallbackInput.object (callbackRecord s r)) c =
      if trimChars s.data = [] then Result.mk c (some (Err.catalog "SE0031"))
      else if CALLBACK_API_URL_REGEX.test s = true then
        if 2048 < jsLength s then Result.mk c (some (Err.catalog "SE0030"))
        else Result.mk (c.set "CallbackParameters" (Value.obj (callbackRecord s r))) none
      else Result.mk c (some (Err.catalog "SE0014")) := by
  have hnolen : lengthIsZero (callbackRecord s r) = false := by
    simp [lengthIsZero, callbackRecord, Obj.get]
  have href : (callbackRecord s r).get "referenceNumber" = JsVal.undefined := by
    simp [callbackRecord, Obj.get]
  unfold setCallbackParameters
  simp only [hnolen, Bool.false_eq_true, if_false]
  rw [checkCallbackParameters_str rt (callbackRecord s r) s (by simp [callbackRecord, Obj.get]),
    href]
  by_cases h1 : trimChars s.data = []
  · rw [if_pos h1, if_pos h1]
    rfl
  · rw [if_neg h1, if_neg h1]
    by_cases h2 : CALLBACK_API_URL_REGEX.test s = true
    · rw [if_pos h2, if_pos h2]
      by_cases h3 : 2048 < jsLength s
      · rw [if_pos h3, if_pos h3]
        rfl
      · rw [if_neg h3, if_neg h3]
        rfl
    · rw [if_neg h2, if_neg h2]
      rfl

/-- A typed value with string fields is handled as the flattened structure of its
trimmed fields. -/
theorem setCallbackParameters_inst (rt : Runtime) (c : Container) (u r : String) :
    setCallbackParameters rt
        (CallbackInput.inst (CallbackParameters.mk (JsVal.str u) (JsVal.str r))) c
      = setCallbackParameters rt
          (CallbackInput.object (callbackRecord (jsTrim u) (jsTrim r))) c := by
  have hnolen : lengthIsZero (callbackRecord (jsTrim u) (jsTrim r)) = false := by
    simp [lengthIsZero, callbackRecord, Obj.get]
  simp only [setCallbackParameters, toJSON_callback_strings, hnolen, Bool.false_eq_true,
    if_false]

/-- Claim C11 fails on the code. For every runtime, container and reference number `r`,
however long, a typed callback-parameters value with the URL
`https://example.com/callback` and the reference number `r` is stored: the length check
reads the property `referenceNumber`, which the value made by `toJSON` (keys
`CallbackApiUrl` and `ReferenceNo`) does not have. The check does fire on a flattened
structure that has a key `referenceNumber` of 51 characters. -/
theorem setCallbackParameters_ignores_ReferenceNo_length (rt : Runtime) (c : Container)
    (r : String) :
    setCallbackParameters rt (CallbackInput.inst (CallbackParameters.mk
        (JsVal.str "https://example.com/callback") (JsVal.str r))) c
      = Result.mk (c.set "CallbackParameters"
          (Value.obj (callbackRecord "https://example.com/callback" (jsTrim r)))) none
    ∧ jsLength (jsTrim (String.mk (List.replicate 51 'a'))) = 51
    ∧ setCallbackParameters rt (CallbackInput.object
        [("CallbackApiUrl", JsVal.str "https://example.com/callback"),
          ("referenceNumber", JsVal.str (String.mk (List.replicate 51 'a')))]) c
      = Result.mk c (some (Err.catalog "SE0029")) := by
  have hu : jsTrim "https://example.com/callback" = "https://example.com/callback" := by decide
  have h1 : ¬ trimChars "https://example.com/callback".data = [] := by decide
  have h2 : CALLBACK_API_URL_REGEX.test "https://example.com/callback" = true := by decide
  have h3 : ¬ 2048 < jsLength "https://example.com/callback" := by decide
  have htrim : jsTrim (String.mk (List.replicate 51 'a')) = String.mk (List.replicate 51 'a') := by
    unfold jsTrim
    rw [trimChars_of_no_whitespace]
    intro ch hch
    rw [List.eq_of_mem_replicate hch]
    decide
  refine ⟨?_, ?_, ?_⟩
  · rw [setCallbackParameters_inst, hu, setCallbackParameters_record, if_neg h1, if_pos h2,
      if_neg h3]
  · rw [htrim, jsLength_replicate]
  · have hs : Obj.get [("CallbackApiUrl", JsVal.str "https://example.com/callback"),
        ("referenceNumber", JsVal.str (String.mk (List.replicate 51 'a')))] "CallbackApiUrl"
        = JsVal.str "https://example.com/callback" := by decide
    have hr : Obj.get [("CallbackApiUrl", JsVal.str "https://example.com/callback"),
        ("referenceNumber", JsVal.str (String.mk (List.replicate 51 'a')))] "referenceNumber"
        = JsVal.str (String.mk (List.replicate 51 'a')) := by decide
    have hlen : lengthIsZero [("CallbackApiUrl", JsVal.str "https://example.com/callback"),
        ("referenceNumber", JsVal.str (String.mk (List.replicate 51 'a')))] = false := by decide
    unfold setCallbackParameters
    simp only [hlen, Bool.false_eq_true, if_false]
    rw [checkCallbackParameters_str rt _ "https://example.com/callback" hs, if_neg h1,
      if_pos h2, if_neg h3, hr, checkMaxCharLength_str,
      if_pos (by rw [jsLength_replicate]; omega)]
    rfl

/-- Claim C12, as stated, fails: a typed value whose `CallbackApiUrl` is padded with
spaces, and so does not match the URL pattern, is accepted, because `toJSON` trims the
fields before the checks. -/
theorem setCallbackParameters_accepts_padded_url :
    CALLBACK_API_URL_REGEX.test " https://example.com/callback " = false
    ∧ setCallbackParameters (refRuntime 0) (CallbackInput.inst (CallbackParameters.mk
        (JsVal.str " https://example.com/callback ") (JsVal.str "order 1"))) []
      = Result.mk [("CallbackParameters",
          Value.obj (callbackRecord "https://example.com/callback" "order 1"))] none := by
  decide

theorem nonblank_iff (l : List Char) :
    trimChars l ≠ [] ↔ ∃ ch ∈ l, isJsWhitespace ch = false := by
  rw [Ne, trimChars_eq_nil]
  simp

/-- Claim C12, amended. For every runtime and container: on a flattened structure,
`setCallbackParameters` throws and leaves the container as it was unless
`CallbackApiUrl` is a string that is not blank, matches the URL pattern and has length
at most 2048; on a typed value with string fields the same holds for the trimmed
`CallbackApiUrl`; and for every string `s` matching the URL pattern, the structure and
the typed value with this URL are stored when the length of `s` is at most 2048, and
rejected with SE0030 when it is more. -/
theorem setCallbackParameters_url_rules (rt : Runtime) (c : Container) (o : Obj)
    (u r s : String) (hs : CALLBACK_API_URL_REGEX.test s = true) :
    ((¬ ∃ x, o.get "CallbackApiUrl" = JsVal.str x ∧ (∃ ch ∈ x.data, isJsWhitespace ch = false) ∧
        CALLBACK_API_URL_REGEX.test x = true ∧ jsLength x ≤ 2048) →
      ∃ e, setCallbackParameters rt (CallbackInput.object o) c = Result.mk c (some e))
    ∧ ((¬ ((∃ ch ∈ (jsTrim u).data, isJsWhitespace ch = false) ∧
        CALLBACK_API_URL_REGEX.test (jsTrim u) = true ∧ jsLength (jsTrim u) ≤ 2048)) →
      ∃ e, setCallbackParameters rt
        (CallbackInput.inst (CallbackParameters.mk (JsVal.str u) (JsVal.str r))) c
          = Result.mk c (some e))
    ∧ (jsLength s ≤ 2048 →
      setCallbackParameters rt (CallbackInput.object (callbackRecord s r)) c
          = Result.mk (c.set "CallbackParameters" (Value.obj (callbackRecord s r))) none
      ∧ setCallbackParameters rt
          (CallbackInput.inst (CallbackParameters.mk (JsVal.str s) (JsVal.str r))) c
          = Result.mk (c.set "CallbackParameters"
              (Value.obj (callbackRecord s (jsTrim r)))) none)
    ∧ (2048 < jsLength s →
      setCallbackParameters rt (CallbackInput.object (callbackRecord s r)) c
          = Result.mk c (some (Err.catalog "SE0030"))
      ∧ setCallbackParameters rt
          (CallbackInput.inst (CallbackParameters.mk (JsVal.str s) (JsVal.str r))) c
          = Result.mk c (some (Err.catalog "SE0030"))) := by
  have hfacts := url_test_facts s hs
  refine ⟨?_, ?_, ?_, ?_⟩
  · intro hbad
    unfold setCallbackParameters
    by_cases hlen : lengthIsZero o = true
    · simp only [hlen, if_true]
      exact ⟨_, rfl⟩
    · simp only [hlen, Bool.false_eq_true, if_false]
      have hchk : ∃ e, checkCallbackParameters rt o = Except.error e := by
        by_cases hstr : ∃ x, o.get "CallbackApiUrl" = JsVal.str x
        · obtain ⟨x, hx⟩ := hstr
          rw [checkCallbackParameters_str rt o x hx]
          by_cases h1 : trimChars x.data = []
          · rw [if_pos h1]
            exact ⟨_, rfl⟩
          · rw [if_neg h1]
            by_cases h2 : CALLBACK_API_URL_REGEX.test x = true
            · rw [if_pos h2]
              by_cases h3 : 2048 < jsLength x
              · rw [if_pos h3]
                exact ⟨_, rfl⟩
              · exact absurd ⟨x, hx, (nonblank_iff x.data).mp h1, h2, by omega⟩ hbad
            · rw [if_neg h2]
              exact ⟨_, rfl⟩
        · exact checkCallbackParameters_not_str rt o (fun x hx => hstr ⟨x, hx⟩)
      obtain ⟨e, he⟩ := hchk
      rw [he]
      exact ⟨e, rfl⟩
  · intro hbad
    rw [setCallbackParameters_inst, setCallbackParameters_record]
    by_cases h1 : trimChars (jsTrim u).data = []
    · rw [if_pos h1]
      exact ⟨_, rfl⟩
    · rw [if_neg h1]
      by_cases h2 : CALLBACK_API_URL_REGEX.test (jsTrim u) = true
      · rw [if_pos h2]
        by_cases h3 : 2048 < jsLength (jsTrim u)
        · rw [if_pos h3]
          exact ⟨_, rfl⟩
        · exact absurd ⟨(nonblank_iff _).mp h1, h2, by omega⟩ hbad
      · rw [if_neg h2]
        exact ⟨_, rfl⟩
  · intro hle
    have hrec : ∀ r2 : String,
        setCallbackParameters rt (CallbackInput.object (callbackRecord s r2)) c
          = Result.mk (c.set "CallbackParameters" (Value.obj (callbackRecord s r2))) none := by
      intro r2
      rw [setCallbackParameters_record, if_neg hfacts.1, if_pos hs, if_neg (by omega)]
    rw [setCallbackParameters_inst, hfacts.2.1]
    exact ⟨hrec r, hrec (jsTrim r)⟩
  · intro hgt
    have hrec : ∀ r2 : String,
        setCallbackParameters rt (CallbackInput.object (callbackRecord s r2)) c
          = Result.mk c (some (Err.catalog "SE0030")) := by
      intro r2
      rw [setCallbackParameters_record, if_neg hfacts.1, if_pos hs, if_pos hgt]
    rw [setCallbackParameters_inst, hfacts.2.1]
    exact ⟨hrec r, hrec (jsTrim r)⟩

/-- Claim C12, amended, at the URLs `https://example.com/aaa...` of 2048 and of 2049
characters: the first is stored, the second is rejected with SE0030. -/
theorem setCallbackParameters_url_rules_witness :
    jsLength (longUrl 2028) = 2048
    ∧ setCallbackParameters (refRuntime 0)
        (CallbackInput.object (callbackRecord (longUrl 2028) "order 1")) titledContainer
      = Result.mk (titledContainer.set "CallbackParameters"
          (Value.obj (callbackRecord (longUrl 2028) "order 1"))) none
    ∧ jsLength (longUrl 2029) = 2049
    ∧ setCallbackParameters (refRuntime 0)
        (CallbackInput.object (callbackRecord (longUrl 2029) "order 1")) titledContainer
      = Result.mk titledContainer (some (Err.catalog "SE0030")) :=
  ⟨longUrl_length 2028,
    ((setCallbackParameters_url_rules (refRuntime 0) titledContainer [] "" "order 1"
      (longUrl 2028) (longUrl_test 2028)).2.2.1 (by rw [longUrl_length])).1,
    longUrl_length 2029,
    ((setCallbackParameters_url_rules (refRuntime 0) titledContainer [] "" "order 1"
      (longUrl 2029) (longUrl_test 2029)).2.2.2 (by rw [longUrl_length]; decide)).1⟩

/-- Claim C13, as stated, fails: with a leading space in the URL, the typed value is
accepted (its fields are trimmed first) and the flattened structure with the same two
values is rejected with SE0014. -/
theorem typed_and_flat_callback_differ :
    setCallbackParameters (refRuntime 0) (CallbackInput.inst (CallbackParameters.mk
        (JsVal.str " https://example.com/callback") (JsVal.str "order 1"))) []
      = Result.mk [("CallbackParameters",
          Value.obj (callbackRecord "https://example.com/callback" "order 1"))] none
    ∧ setCallbackParameters (refRuntime 0) (CallbackInput.object
        (callbackRecord " https://example.com/callback" "order 1")) []
      = Result.mk [] (some (Err.catalog "SE0014")) := by
  decide

/-- Claim C13, amended. For all strings `u` and `r`, every runtime and container,
passing the typed value `CallbackParameters(u, r)` has the same outcome as passing the
flattened structure of the trimmed values of `u` and `r`: the same error, or the same
value stored; and for every boolean `b`, `setSettings` has the same outcome on
`Settings(b)` and on the flattened structure with `displaySummary` equal to `b`. -/
theorem typed_equals_flat_of_trimmed (rt : Runtime) (c : Container) (u r : String) (b : Bool) :
    setCallbackParameters rt
        (CallbackInput.inst (CallbackParameters.mk (JsVal.str u) (JsVal.str r))) c
      = setCallbackParameters rt
          (CallbackInput.object
            [("CallbackApiUrl", JsVal.str (jsTrim u)), ("ReferenceNo", JsVal.str (jsTrim r))]) c
    ∧ setSettings (SettingsInput.inst (Settings.mk (JsVal.bool b))) c
      = setSettings (SettingsInput.object [("displaySummary", JsVal.bool b)]) c := by
  refine ⟨setCallbackParameters_inst rt c u r, ?_⟩
  have hnolen : lengthIsZero [("displaySummary", JsVal.bool b)] = false := by
    simp [lengthIsZero, Obj.get]
  simp only [setSettings, Settings.toJSON, hnolen, Bool.false_eq_true, if_false]

/-! ## The gateway client -/

/-- Claim C14. For every value of the environment setting, constructing the client
succeeds exactly when the value is the string `DEV`, `UAT` or `PROD`, with the sandbox,
the UAT and the production URL as base URL; for every other value, an empty string and
a missing value among them, the constructor throws the configuration error and there
is no client. -/
theorem client_construction (env : JsVal) :
    Auropay.new env =
      (if env = JsVal.str "DEV" then Except.ok (Auropay.Client.mk Constants.SANDBOX_URL)
      else if env = JsVal.str "UAT" then Except.ok (Auropay.Client.mk Constants.UAT_URL)
      else if env = JsVal.str "PROD" then
        Except.ok (Auropay.Client.mk Constants.PRODUCTION_URL)
      else Except.error Auropay.clientEnvError)
    ∧ Auropay.new JsVal.undefined = Except.error Auropay.clientEnvError
    ∧ Auropay.new (JsVal.str "") = Except.error Auropay.clientEnvError
    ∧ Auropay.new (JsVal.str "dev") = Except.error Auropay.clientEnvError := by
  refine ⟨?_, rfl, rfl, rfl⟩
  cases env with
  | str s =>
    by_cases h1 : s = "DEV"
    · subst h1
      rfl
    · by_cases h2 : s = "UAT"
      · subst h2
        rfl
      · by_cases h3 : s = "PROD"
        · subst h3
          rfl
        · have e1 : (s == "DEV") = false := by simpa using h1
          have e2 : (s == "UAT") = false := by simpa using h2
          have e3 : (s == "PROD") = false := by simpa using h3
          have hinc : Auropay.includes ["DEV", "UAT", "PROD"] (JsVal.str s) = false := by
            simp [Auropay.includes, List.contains, List.elem, e1, e2, e3]
          simp [Auropay.new, hinc, h1, h2, h3]
  | undefined => simp [Auropay.new, truthy]
  | null => simp [Auropay.new, truthy]
  | bool b => simp [Auropay.new, Auropay.includes]
  | num n => simp [Auropay.new, Auropay.includes]

/-- Claim C15. For every HTTP client, credentials and request: when the client fails with
an error, `connect` returns the object with the two fields `error_code`, the status of
the error, and `message`, the message of the response body of the error when it has a
truthy (non-empty) one and `Not Found` otherwise; when the client answers, `connect`
returns the decoded body as it is. -/
theorem connect_outcomes (request : Auropay.RequestOptions → Except Auropay.TransportError Value)
    (accessKey secretKey apiVersion method endpoint : String) (data : Option Container) :
    (∀ e, request (Auropay.requestOptions accessKey secretKey apiVersion method endpoint data)
        = Except.error e →
      Auropay.connect request accessKey secretKey apiVersion method endpoint data
        = Value.obj [("error_code", e.status),
            ("message", if truthy (Auropay.responseMessage e) = true then
              Auropay.responseMessage e else JsVal.str "Not Found")])
    ∧ (∀ body, request (Auropay.requestOptions accessKey secretKey apiVersion method endpoint data)
        = Except.ok body →
      Auropay.connect request accessKey secretKey apiVersion method endpoint data = body) := by
  constructor
  · intro e he
    simp only [Auropay.connect, he]
  · intro body hb
    simp only [Auropay.connect, hb]

/-- Claim C15 at a client that fails with status 404 and the body message
`No such order`, at one that fails without a response, and at one that answers. -/
theorem connect_outcomes_witness :
    Auropay.connect
        (fun _ => Except.error (Auropay.TransportError.mk
          (JsVal.str "Request failed with status code 404") (JsVal.num (JsNum.fin 404))
          (some (Value.obj [("message", JsVal.str "No such order")]))))
        "key" "secret" "1.0" "GET" "api/payments/42" none
      = Value.obj [("error_code", JsVal.num (JsNum.fin 404)),
          ("message", JsVal.str "No such order")]
    ∧ Auropay.connect
        (fun _ => Except.error (Auropay.TransportError.mk
          (JsVal.str "Network Error") JsVal.undefined none))
        "key" "secret" "1.0" "GET" "api/payments/42" none
      = Value.obj [("error_code", JsVal.undefined), ("message", JsVal.str "Not Found")]
    ∧ Auropay.connect
        (fun _ => Except.ok (Value.obj [("transactionStatus", JsVal.num (JsNum.fin 2))]))
        "key" "secret" "1.0" "GET" "api/payments/42" none
      = Value.obj [("transactionStatus", JsVal.num (JsNum.fin 2))] :=
  ⟨(connect_outcomes _ "key" "secret" "1.0" "GET" "api/payments/42" none).1 _ rfl,
    (connect_outcomes _ "key" "secret" "1.0" "GET" "api/payments/42" none).1 _ rfl,
    (connect_outcomes _ "key" "secret" "1.0" "GET" "api/payments/42" none).2 _ rfl⟩

/-! ## Getters -/

theorem getOr_eq_orDefault (c : Container) (k : String) (d : Value) :
    getOr c k d = orDefault (c.get k) d := by
  unfold getOr orDefault
  cases c.get k with
  | none => rfl
  | some v => cases v <;> rfl

theorem read_eq_orUndefined (c : Container) (k : String) :
    CreateRefundRequest.read c k = orUndefined (c.get k) := by
  unfold CreateRefundRequest.read orUndefined
  cases c.get k <;> rfl

/-- The container after a sequence of payment setter calls holds, under every key, what
the last call with that key that did not throw stored, or what it held before. -/
theorem runPaymentCalls_lastStored (calls : List (Runtime × PaymentCall)) (c : Container)
    (k : String) :
    (runPaymentCalls c calls).get k =
      match lastStored PaymentCall.run PaymentCall.key k calls with
      | some v => some v
      | none => c.get k := by
  induction calls generalizing c with
  | nil => rfl
  | cons p rest ih =>
    obtain ⟨rt, call⟩ := p
    simp only [runPaymentCalls, lastStored]
    rw [ih]
    cases hrest : lastStored PaymentCall.run PaymentCall.key k rest with
    | some v => rfl
    | none =>
      simp only
      rcases paymentCall_run_cases rt call with ⟨e, he⟩ | ⟨w, hw⟩
      · rw [he c, he []]
        simp
      · rw [hw c, hw [], container_get_set, container_get_set]
        by_cases hk : call.key = k
        · simp [hk]
        · simp [hk, Container.get]

/-- The same for a refund request. -/
theorem runRefundCalls_lastStored (calls : List (Runtime × RefundCall)) (c : Container)
    (k : String) :
    (runRefundCalls c calls).get k =
      match lastStored RefundCall.run RefundCall.key k calls with
      | some v => some v
      | none => c.get k := by
  induction calls generalizing c with
  | nil => rfl
  | cons p rest ih =>
    obtain ⟨rt, call⟩ := p
    simp only [runRefundCalls, lastStored]
    rw [ih]
    cases hrest : lastStored RefundCall.run RefundCall.key k rest with
    | some v => rfl
    | none =>
      simp only
      rcases refundCall_run_cases rt call with ⟨e, he⟩ | ⟨w, hw⟩
      · rw [he c, he []]
        simp
      · rw [hw c, hw [], container_get_set, container_get_set]
        by_cases hk : call.key = k
        · simp [hk]
        · simp [hk, Container.get]

theorem buildPayment_get (calls : List (Runtime × PaymentCall)) (k : String) :
    (buildPayment calls).get k = lastStored PaymentCall.run PaymentCall.key k calls := by
  unfold buildPayment
  rw [runPaymentCalls_lastStored]
  cases lastStored PaymentCall.run PaymentCall.key k calls <;> rfl

theorem buildRefund_get (calls : List (Runtime × RefundCall)) (k : String) :
    (buildRefund calls).get k = lastStored RefundCall.run RefundCall.key k calls := by
  unfold buildRefund
  rw [runRefundCalls_lastStored]
  cases lastStored RefundCall.run RefundCall.key k calls <;> rfl

/-- Claim C16, as stated, fails: on a new request `getTitle`, `getShortDescription` and
`getAmount` return `null`, not the empty string, and the getters of a refund request
return `undefined`; and after `setShortDescription` of a blank text, which stores the
empty string, `getShortDescription` returns `null`, not the stored value. -/
theorem getters_default_to_null :
    getTitle (buildPayment []) = Value.prim JsVal.null
    ∧ getShortDescription (buildPayment []) = Value.prim JsVal.null
    ∧ getAmount (buildPayment []) = Value.prim JsVal.null
    ∧ Value.prim JsVal.null ≠ Value.prim (JsVal.str "")
    ∧ getRefundRemarks (buildRefund []) = Value.prim JsVal.undefined
    ∧ getOrderId (buildRefund []) = Value.prim JsVal.undefined
    ∧ (setShortDescription (refRuntime 0) (JsVal.str "   ") []).container.get "shortDescription"
        = some (Value.prim (JsVal.str ""))
    ∧ getShortDescription (setShortDescription (refRuntime 0) (JsVal.str "   ") []).container
        = Value.prim JsVal.null := by
  decide

/-- Claim C16, amended. For every sequence of setter calls on a new payment request and on
a new refund request: the container holds under each key the value stored by the last
call with that key that did not throw; each getter of the payment request returns that
value when there is one and it is truthy, and otherwise its default, which is `null`
for title, amount, the two descriptions and expireOn, `false` for the three flags and
an empty array for customers, callback parameters and settings; each getter of the
refund request returns that value when there is one and `undefined` otherwise. -/
theorem getters_return_last_stored (calls : List (Runtime × PaymentCall))
    (rcalls : List (Runtime × RefundCall)) :
    (∀ k, (buildPayment calls).get k = lastStored PaymentCall.run PaymentCall.key k calls)
    ∧ (∀ k, (buildRefund rcalls).get k = lastStored RefundCall.run RefundCall.key k rcalls)
    ∧ getTitle (buildPayment calls)
        = orDefault (lastStored PaymentCall.run PaymentCall.key "title" calls)
            (Value.prim JsVal.null)
    ∧ getAmount (buildPayment calls)
        = orDefault (lastStored PaymentCall.run PaymentCall.key "amount" calls)
            (Value.prim JsVal.null)
    ∧ getShortDescription (buildPayment calls)
        = orDefault (lastStored PaymentCall.run PaymentCall.key "shortDescription" calls)
            (Value.prim JsVal.null)
    ∧ getPaymentDescription (buildPayment calls)
        = orDefault (lastStored PaymentCall.run PaymentCall.key "paymentDescription" calls)
            (Value.prim JsVal.null)
    ∧ getExpireOn (buildPayment calls)
        = orDefault (lastStored PaymentCall.run PaymentCall.key "expireOn" calls)
            (Value.prim JsVal.null)
    ∧ getEnablePartialPayment (buildPayment calls)
        = orDefault (lastStored PaymentCall.run PaymentCall.key "enablePartialPayment" calls)
            (Value.prim (JsVal.bool false))
    ∧ getEnableMultiplePayment (buildPayment calls)
        = orDefault (lastStored PaymentCall.run PaymentCall.key "enableMultiplePayment" calls)
            (Value.prim (JsVal.bool false))
    ∧ getDisplayReceipt (buildPayment calls)
        = orDefault (lastStored PaymentCall.run PaymentCall.key "displayReceipt" calls)
            (Value.prim (JsVal.bool false))
    ∧ getCustomers (buildPayment calls)
        = orDefault (lastStored PaymentCall.run PaymentCall.key "Customers" calls)
            (Value.arr [])
    ∧ getCallbackParameters (buildPayment calls)
        = orDefault (lastStored PaymentCall.run PaymentCall.key "CallbackParameters" calls)
            (Value.arr [])
    ∧ getSettings (buildPayment calls)
        = orDefault (lastStored PaymentCall.run PaymentCall.key "Settings" calls)
            (Value.arr [])
    ∧ getRefundAmount (buildRefund rcalls)
        = orUndefined (lastStored RefundCall.run RefundCall.key "Amount" rcalls)
    ∧ getRefundRemarks (buildRefund rcalls)
        = orUndefined (lastStored RefundCall.run RefundCall.key "Remarks" rcalls)
    ∧ getOrderId (buildRefund rcalls)
        = orUndefined (lastStored RefundCall.run RefundCall.key "OrderId" rcalls) := by
  refine ⟨buildPayment_get calls, buildRefund_get rcalls, ?_, ?_, ?_, ?_, ?_, ?_, ?_, ?_, ?_,
    ?_, ?_, ?_, ?_, ?_⟩
  · rw [← buildPayment_get]; exact getOr_eq_orDefault _ _ _
  · rw [← buildPayment_get]; exact getOr_eq_orDefault _ _ _
  · rw [← buildPayment_get]; exact getOr_eq_orDefault _ _ _
  · rw [← buildPayment_get]; exact getOr_eq_orDefault _ _ _
  · rw [← buildPayment_get]; exact getOr_eq_orDefault _ _ _
  · rw [← buildPayment_get]; exact getOr_eq_orDefault _ _ _
  · rw [← buildPayment_get]; exact getOr_eq_orDefault _ _ _
  · rw [← buildPayment_get]; exact getOr_eq_orDefault _ _ _
  · rw [← buildPayment_get]; exact getOr_eq_orDefault _ _ _
  · rw [← buildPayment_get]; exact getOr_eq_orDefault _ _ _
  · rw [← buildPayment_get]; exact getOr_eq_orDefault _ _ _
  · rw [← buildRefund_get]; exact read_eq_orUndefined _ _
  · rw [← buildRefund_get]; exact read_eq_orUndefined _ _
  · rw [← buildRefund_get]; exact read_eq_orUndefined _ _

/-! ## The emptiness check and the order of the checks -/

/-- Claim C17, as stated, fails: on the number 5 and on `true`, which are neither absent
nor empty nor blank, `emptyCheck` neither returns nor throws the descriptor it was
given: the call of `trim` throws a `TypeError`. -/
theorem emptyCheck_number_throws_typeError :
    emptyCheck (JsVal.num (JsNum.fin 5)) (Err.catalog "SE0018") = Except.error Err.typeError
    ∧ emptyCheck (JsVal.bool true) (Err.catalog "SE0018") = Except.error Err.typeError
    ∧ Err.typeError ≠ Err.catalog "SE0018" := by
  refine ⟨?_, ?_, by decide⟩
  · simp [emptyCheck, truthy, callTrim]
  · simp [emptyCheck, truthy, callTrim]

/-- Claim C17, amended. For every error descriptor `e`: on an absent value (`undefined`
or `null`) `emptyCheck` throws exactly `e`; on a string it throws exactly `e` when the
string is empty or consists of whitespace only, and otherwise returns; it is a function
of its arguments and modifies nothing. -/
theorem emptyCheck_on_strings (e : Err) (s : String) :
    emptyCheck JsVal.undefined e = Except.error e
    ∧ emptyCheck JsVal.null e = Except.error e
    ∧ emptyCheck (JsVal.str "") e = Except.error e
    ∧ emptyCheck (JsVal.str s) e =
        if ∀ ch ∈ s.data, isJsWhitespace ch = true then Except.error e else Except.ok () := by
  refine ⟨rfl, rfl, rfl, ?_⟩
  rw [emptyCheck_str]
  by_cases h : ∀ ch ∈ s.data, isJsWhitespace ch = true
  · rw [if_pos h, if_pos ((trimChars_eq_nil s.data).mpr h)]
  · rw [if_neg h, if_neg (fun ht => h ((trimChars_eq_nil s.data).mp ht))]

theorem jsLength_cons_replicate (n : Nat) :
    jsLength (String.mk ('#' :: List.replicate n 'a')) = n + 1 := by
  have h := jsLength_replicate n
  simp only [jsLength, List.map_cons, List.sum_cons] at h ⊢
  rw [h]
  have h1 : utf16Units '#' = 1 := by decide
  omega

/-- Claim C19, as stated, fails: the title made of 51 tab characters contains a
disallowed character and is longer than 50, and `setTitle` throws neither SE0020 nor
SE0019 but SE0003, the error of the emptiness check, which comes first. -/
theorem setTitle_blank_first :
    SPECIAL_CHAR_REGEX.test (String.mk (List.replicate 51 '\t')) = true
    ∧ jsLength (String.mk (List.replicate 51 '\t')) = 51
    ∧ setTitle (refRuntime 0) (JsVal.str (String.mk (List.replicate 51 '\t'))) []
        = Result.mk [] (some (Err.catalog "SE0003")) := by
  decide

/-- Claim C19, amended. For every title that is not blank, contains a character other
than an ASCII letter, digit or space and is longer than 50, `setTitle` throws SE0020
and not SE0019; for every short description that is longer than 1000 and contains such
a character, `setShortDescription` throws SE0021 and not SE0022. The container is as
before in both cases. -/
theorem first_failing_rule (rt : Runtime) (c : Container) (t d : String)
    (hnb : ∃ ch ∈ t.data, isJsWhitespace ch = false)
    (hspecial : ∃ ch ∈ t.data, ¬ (ch.isAlpha = true ∨ ch.isDigit = true ∨ ch = ' '))
    (_hlong : 50 < jsLength t)
    (hdlong : 1000 < jsLength d)
    (_hdspecial : ∃ ch ∈ d.data, ¬ (ch.isAlpha = true ∨ ch.isDigit = true ∨ ch = ' ')) :
    setTitle rt (JsVal.str t) c = Result.mk c (some (Err.catalog "SE0020"))
    ∧ setShortDescription rt (JsVal.str d) c = Result.mk c (some (Err.catalog "SE0021")) := by
  have h1 : ¬ trimChars t.data = [] := (nonblank_iff t.data).mpr hnb
  have h2 : ¬ ∀ ch ∈ t.data, isPlainChar ch = true := by
    intro hall
    obtain ⟨ch, hch, hbad⟩ := hspecial
    exact hbad ((isPlainChar_iff ch).mp (hall ch hch))
  constructor
  · rw [setTitle_str, if_neg h1, if_neg h2]
  · rw [setShortDescription_str, if_pos hdlong]

/-- Claim C19, amended, at the title `#aaa...` of 51 characters and the description
`#aaa...` of 1001 characters. -/
theorem first_failing_rule_witness :
    setTitle (refRuntime 0) (JsVal.str (String.mk ('#' :: List.replicate 50 'a'))) titledContainer
        = Result.mk titledContainer (some (Err.catalog "SE0020"))
    ∧ setShortDescription (refRuntime 0)
        (JsVal.str (String.mk ('#' :: List.replicate 1000 'a'))) titledContainer
        = Result.mk titledContainer (some (Err.catalog "SE0021")) :=
  first_failing_rule (refRuntime 0) titledContainer
    (String.mk ('#' :: List.replicate 50 'a')) (String.mk ('#' :: List.replicate 1000 'a'))
    ⟨'#', List.mem_cons_self _ _, by decide⟩
    ⟨'#', List.mem_cons_self _ _, by decide⟩
    (by rw [jsLength_cons_replicate]; omega)
    (by rw [jsLength_cons_replicate]; omega)
    ⟨'#', List.mem_cons_self _ _, by decide⟩

/-! ## Trimming -/

theorem dropWhile_head_false (p : Char → Bool) (l : List Char) (a : Char) (t : List Char)
    (h : l.dropWhile p = a :: t) : p a = false := by
  induction l with
  | nil => simp at h
  | cons c l ih =>
    by_cases hp : p c = true
    · simp only [List.dropWhile, hp] at h
      exact ih h
    · simp only [List.dropWhile, hp] at h
      have hca : c = a := (List.cons.inj h).1
      rw [← hca]
      simpa using hp

theorem dropWhile_of_head (p : Char → Bool) (l : List Char)
    (h : ∀ a t, l = a :: t → p a = false) : l.dropWhile p = l := by
  cases l with
  | nil => rfl
  | cons a t => simp [List.dropWhile, h a t rfl]

theorem trimChars_sublist (l : List Char) : (trimChars l).Sublist l := by
  unfold trimChars
  have h1 : ((l.dropWhile isJsWhitespace).reverse.dropWhile isJsWhitespace).Sublist
      (l.dropWhile isJsWhitespace).reverse := List.dropWhile_sublist _
  have h2 := h1.reverse
  rw [List.reverse_reverse] at h2
  exact h2.trans (List.dropWhile_sublist _)

theorem trimChars_idem (l : List Char) : trimChars (trimChars l) = trimChars l := by
  have hb : ∀ x t, (l.dropWhile isJsWhitespace).reverse.dropWhile isJsWhitespace = x :: t →
      isJsWhitespace x = false := fun x t h => dropWhile_head_false _ _ x t h
  have hsuffix : (l.dropWhile isJsWhitespace).reverse.dropWhile isJsWhitespace
      <:+ (l.dropWhile isJsWhitespace).reverse := List.dropWhile_suffix _
  obtain ⟨pre, hpre⟩ := hsuffix
  have ha : l.dropWhile isJsWhitespace = trimChars l ++ pre.reverse := by
    have := congrArg List.reverse hpre
    rw [List.reverse_append, List.reverse_reverse] at this
    unfold trimChars
    exact this.symm
  have hm : ∀ x t, trimChars l = x :: t → isJsWhitespace x = false := by
    intro x t hxt
    rw [hxt] at ha
    exact dropWhile_head_false _ l x (t ++ pre.reverse) ha
  have h1 : (trimChars l).dropWhile isJsWhitespace = trimChars l :=
    dropWhile_of_head _ _ hm
  have hrev : (trimChars l).reverse
      = (l.dropWhile isJsWhitespace).reverse.dropWhile isJsWhitespace := by
    unfold trimChars
    rw [List.reverse_reverse]
  have h2 : (trimChars l).reverse.dropWhile isJsWhitespace = (trimChars l).reverse := by
    rw [hrev]
    exact dropWhile_of_head _ _ hb
  have hunfold : trimChars (trimChars l)
      = (((trimChars l).dropWhile isJsWhitespace).reverse.dropWhile isJsWhitespace).reverse :=
    rfl
  rw [hunfold, h1, h2, List.reverse_reverse]

theorem jsTrim_idem (s : String) : jsTrim (jsTrim s) = jsTrim s := by
  unfold jsTrim
  rw [trimChars_idem]

theorem trimChars_of_ends (l : List Char) (a z : Char) (t i : List Char)
    (h1 : l = a :: t) (h2 : l = i ++ [z]) (ha : isJsWhitespace a = false)
    (hz : isJsWhitespace z = false) : trimChars l = l := by
  have hd : l.dropWhile isJsWhitespace = l := by
    rw [h1]
    simp [List.dropWhile, ha]
  have hr : l.reverse.dropWhile isJsWhitespace = l.reverse := by
    rw [h2, List.reverse_append]
    simp [List.dropWhile, hz]
  unfold trimChars
  rw [hd, hr, List.reverse_reverse]

theorem container_set_set (c : Container) (k : String) (v : Value) :
    (c.set k v).set k v = c.set k v := by
  induction c with
  | nil => simp [Container.set]
  | cons p rest ih =>
    obtain ⟨k1, v1⟩ := p
    by_cases h1 : k1 = k
    · simp [Container.set, h1]
    · simp [Container.set, h1, ih]

/-- Claim C20. For every title on which `setTitle` succeeds, `getTitle` then returns the
trimmed title, and `setTitle` on that value, at any runtime, succeeds again and leaves
the container exactly as it is. -/
theorem setTitle_feed_back (rt rt2 : Runtime) (c : Container) (t : String)
    (h : (setTitle rt (JsVal.str t) c).thrown = none) :
    getTitle (setTitle rt (JsVal.str t) c).container = Value.prim (JsVal.str (jsTrim t))
    ∧ setTitle rt2 (JsVal.str (jsTrim t)) (setTitle rt (JsVal.str t) c).container
        = Result.mk (setTitle rt (JsVal.str t) c).container none := by
  rw [setTitle_str] at h ⊢
  by_cases h1 : trimChars t.data = []
  · rw [if_pos h1] at h
    cases h
  · rw [if_neg h1] at h ⊢
    by_cases h2 : ∀ ch ∈ t.data, isPlainChar ch = true
    · rw [if_pos h2] at h ⊢
      by_cases h3 : 50 < jsLength t
      · rw [if_pos h3] at h
        cases h
      · rw [if_neg h3]
        have hne : (jsTrim t).data ≠ [] := h1
        have hplain : ∀ ch ∈ (jsTrim t).data, isPlainChar ch = true :=
          fun ch hch => h2 ch ((trimChars_sublist t.data).subset hch)
        have hlen : ¬ 50 < jsLength (jsTrim t) := by
          rw [jsLength_of_plain _ hplain]
          rw [jsLength_of_plain _ h2] at h3
          have hle : (trimChars t.data).length ≤ t.data.length :=
            (trimChars_sublist t.data).length_le
          have e1 : (jsTrim t).length = (trimChars t.data).length := rfl
          have e2 : t.length = t.data.length := rfl
          omega
        have hnb : ¬ trimChars (jsTrim t).data = [] := by
          have e : trimChars (jsTrim t).data = trimChars t.data := trimChars_idem t.data
          rw [e]
          exact h1
        constructor
        · simp only [getTitle]
          rw [getOr_eq_orDefault, container_get_set, if_pos rfl]
          simp [orDefault, truthy, hne]
        · rw [setTitle_str, if_neg hnb, if_pos hplain, if_neg hlen, jsTrim_idem,
            container_set_set]
    · rw [if_neg h2] at h
      cases h

/-- Claim C20 at the title `  Invoice 1 ` on a new request. -/
theorem setTitle_feed_back_witness :
    getTitle (setTitle (refRuntime 0) (JsVal.str "  Invoice 1 ") []).container
        = Value.prim (JsVal.str (jsTrim "  Invoice 1 "))
    ∧ setTitle (refRuntime 1) (JsVal.str (jsTrim "  Invoice 1 "))
        (setTitle (refRuntime 0) (JsVal.str "  Invoice 1 ") []).container
      = Result.mk (setTitle (refRuntime 0) (JsVal.str "  Invoice 1 ") []).container none :=
  setTitle_feed_back (refRuntime 0) (refRuntime 1) [] "  Invoice 1 " (by decide)

/-! ## Stored text -/

theorem date_test_trimmed (s : String) (h : DATE_REGEX.test s = true) : jsTrim s = s := by
  unfold DATE_REGEX at h
  rw [test_anchored] at h
  obtain ⟨u1, v1, e1, hd1, u2, v2, e2, -, u3, v3, e3, -, u4, v4, e4, -, u5, v5, e5, -,
    u6, v6, e6, -, u7, v7, e7, -, u8, v8, e8, -, u9, v9, e9, -, u10, v10, e10, -, hss⟩ := h
  unfold digits at hd1 hss
  rw [Re.lang_range_cls] at hd1 hss
  obtain ⟨hlen1, -, hall1⟩ := hd1
  obtain ⟨hlen2, hlen3, hall2⟩ := hss
  match u1, hlen1, hall1 with
  | a :: t, _, hall1 =>
    match v10, hlen2, hlen3, hall2 with
    | [y, z], _, _, hall2 =>
      have ha : isJsWhitespace a = false :=
        isDigit_not_whitespace a (hall1 a (List.mem_cons_self _ _))
      have hz : isJsWhitespace z = false :=
        isDigit_not_whitespace z (hall2 z (by simp))
      have hdata1 : s.data = a :: (t ++ v1) := by rw [e1]; rfl
      have hdata2 : s.data
          = ((a :: t) ++ (u2 ++ (u3 ++ (u4 ++ (u5 ++ (u6 ++ (u7 ++ (u8 ++ (u9 ++ (u10 ++ [y]))))))))))
            ++ [z] := by
        rw [e1, e2, e3, e4, e5, e6, e7, e8, e9, e10]
        simp [List.append_assoc]
      have htrim := trimChars_of_ends s.data a z _ _ hdata1 hdata2 ha hz
      unfold jsTrim
      rw [htrim]

theorem callTrim_ok (v : JsVal) (t : String) (h : callTrim v = Except.ok t) :
    jsTrim t = t := by
  cases v with
  | str s =>
    simp only [callTrim, Except.ok.injEq] at h
    rw [← h]
    exact jsTrim_idem s
  | undefined => simp [callTrim] at h
  | null => simp [callTrim] at h
  | bool b => simp [callTrim] at h
  | num n => simp [callTrim] at h

theorem assignTrimmed_text (blk : Except Err String) (k : String) (P : Prop)
    (h : ∀ t, blk = Except.ok t → jsTrim t = t) :
    (∃ e, ∀ c, assignTrimmed c blk k = Result.mk c (some e)) ∨
      (∃ w, (∀ c, assignTrimmed c blk k = Result.mk (c.set k w) none) ∧
        (P → TrimmedText (some w))) := by
  cases blk with
  | error e => exact Or.inl ⟨e, fun _ => rfl⟩
  | ok t => exact Or.inr ⟨Value.prim (JsVal.str t), fun _ => rfl, fun _ => h t rfl⟩

theorem assign_text (blk : Except Err Unit) (k : String) (v : Value) (P : Prop)
    (h : blk = Except.ok () → TrimmedText (some v)) :
    (∃ e, ∀ c, assign c blk k v = Result.mk c (some e)) ∨
      (∃ w, (∀ c, assign c blk k v = Result.mk (c.set k w) none) ∧
        (P → TrimmedText (some w))) := by
  cases blk with
  | error e => exact Or.inl ⟨e, fun _ => rfl⟩
  | ok u => exact Or.inr ⟨v, fun _ => rfl, fun _ => h rfl⟩

/-- A setter call of a payment request that does not throw and writes one of the keys
`title`, `shortDescription`, `paymentDescription`, `expireOn` writes a string that
equals its trimmed form. -/
theorem paymentCall_stored_text (rt : Runtime) (call : PaymentCall) :
    (∃ e, ∀ c, call.run rt c = Result.mk c (some e)) ∨
      (∃ w, (∀ c, call.run rt c = Result.mk (c.set call.key w) none) ∧
        ((call.key = "title" ∨ call.key = "shortDescription" ∨
          call.key = "paymentDescription" ∨ call.key = "expireOn") →
          TrimmedText (some w))) := by
  have other : ∀ call2 : PaymentCall,
      ¬ (call2.key = "title" ∨ call2.key = "shortDescription" ∨
          call2.key = "paymentDescription" ∨ call2.key = "expireOn") →
      (∃ e, ∀ c, call2.run rt c = Result.mk c (some e)) ∨
      (∃ w, (∀ c, call2.run rt c = Result.mk (c.set call2.key w) none) ∧
        ((call2.key = "title" ∨ call2.key = "shortDescription" ∨
          call2.key = "paymentDescription" ∨ call2.key = "expireOn") →
          TrimmedText (some w))) := by
    intro call2 hk
    rcases paymentCall_run_cases rt call2 with h | ⟨w, hw⟩
    · exact Or.inl h
    · exact Or.inr ⟨w, hw, fun h => absurd h hk⟩
  cases call with
  | setTitle v =>
    refine assignTrimmed_text _ _ _ ?_
    intro t ht
    exact callTrim_ok v t (bind_ok_right _ _ t (bind_ok_right _ _ t (bind_ok_right _ _ t ht)))
  | setShortDescription v =>
    refine assignTrimmed_text _ _ _ ?_
    intro t ht
    exact callTrim_ok v t (bind_ok_right _ _ t (bind_ok_right _ _ t ht))
  | setPaymentDescription v =>
    refine assignTrimmed_text _ _ _ ?_
    intro t ht
    exact callTrim_ok v t (bind_ok_right _ _ t (bind_ok_right _ _ t ht))
  | setExpireOn v =>
    refine assign_text _ _ _ _ ?_
    intro hblk
    have hboth := (bind_ok_iff _ _).mp hblk
    cases v with
    | str s =>
      exact date_test_trimmed s ((regexValidator_str rt s _ _).mp hboth.1)
    | undefined => exact absurd hboth.2 (by simp)
    | null => exact absurd hboth.2 (by simp)
    | bool b => exact absurd hboth.2 (by simp)
    | num n => exact absurd hboth.2 (by simp)
  | setAmount v => exact other _ (by simp [PaymentCall.key])
  | setEnablePartialPayment v => exact other _ (by simp [PaymentCall.key])
  | setEnableMultiplePayment v => exact other _ (by simp [PaymentCall.key])
  | setDisplayReceipt v => exact other _ (by simp [PaymentCall.key])
  | setCustomers d => exact other _ (by simp [PaymentCall.key])
  | setCallbackParameters d => exact other _ (by simp [PaymentCall.key])
  | setSettings d => exact other _ (by simp [PaymentCall.key])

theorem runPaymentCalls_text (calls : List (Runtime × PaymentCall)) (c : Container)
    (k : String)
    (hk : k = "title" ∨ k = "shortDescription" ∨ k = "paymentDescription" ∨ k = "expireOn")
    (hc : TrimmedText (c.get k)) : TrimmedText ((runPaymentCalls c calls).get k) := by
  induction calls generalizing c with
  | nil => exact hc
  | cons p rest ih =>
    obtain ⟨rt, call⟩ := p
    simp only [runPaymentCalls]
    rcases paymentCall_stored_text rt call with ⟨e, he⟩ | ⟨w, hw, htext⟩
    · rw [he c]
      exact ih c hc
    · rw [hw c]
      apply ih
      rw [container_get_set]
      by_cases hkey : call.key = k
      · rw [if_pos hkey]
        exact htext (by rw [hkey]; exact hk)
      · rw [if_neg hkey]
        exact hc

/-- Claim C18, as stated, fails: `setOrderId` and `setRefundRemarks` store the value as it
was passed, with its leading and trailing spaces, and so does `setCustomers` for the
fields of the customers of an array. -/
theorem stored_text_not_trimmed :
    setOrderId (JsVal.str " 123 ") [] = Result.mk [("OrderId", Value.prim (JsVal.str " 123 "))] none
    ∧ jsTrim " 123 " ≠ " 123 "
    ∧ setRefundRemarks (JsVal.str " late ") []
        = Result.mk [("Remarks", Value.prim (JsVal.str " late "))] none
    ∧ jsTrim " late " ≠ " late "
    ∧ setCustomers (refRuntime 0)
        (CustomerDetails.array [customerRecord " John " "Doe" "9876543210" "john@example.com"]) []
      = Result.mk [("Customers",
          Value.arr [customerRecord " John " "Doe" "9876543210" "john@example.com"])] none
    ∧ jsTrim " John " ≠ " John " := by
  decide

theorem allCls_atLeast (q : Char → Bool) (a : Re) (h : Re.AllCls q a) (m : Nat) :
    Re.AllCls q (Re.atLeast a m) := by
  induction m with
  | zero => exact h
  | succ m ih => exact ⟨h, ih⟩

theorem isEmailLocalChar_tail (c : Char) (h : isEmailLocalChar c = true) :
    isUrlTailChar c = true := by
  simp only [isEmailLocalChar, Bool.or_eq_true, beq_iff_eq] at h
  rcases h with ((((h | h) | h) | h) | h) | h
  · simp [isUrlTailChar, isUrlChar, h]
  all_goals (rw [h]; decide)

theorem isEmailDomainChar_tail (c : Char) (h : isEmailDomainChar c = true) :
    isUrlTailChar c = true := by
  simp only [isEmailDomainChar, Bool.or_eq_true, beq_iff_eq] at h
  rcases h with (h | h) | h
  · simp [isUrlTailChar, isUrlChar, h]
  all_goals (rw [h]; decide)

theorem isAlpha_tail (c : Char) (h : c.isAlpha = true) : isUrlTailChar c = true := by
  simp [isUrlTailChar, isUrlChar, Char.isAlphanum, h]

/-- No character of a string matching the email pattern is a whitespace character. -/
theorem email_test_chars (s : String) (h : EMAIL_REGEX.test s = true) :
    ∀ c ∈ s.data, isJsWhitespace c = false := by
  unfold EMAIL_REGEX at h
  rw [test_anchored] at h
  have hall : ∀ c ∈ s.data, isUrlTailChar c = true := by
    refine lang_allCls isUrlTailChar _ ?_ s.data h
    exact ⟨allCls_atLeast isUrlTailChar (Re.cls isEmailLocalChar) isEmailLocalChar_tail 1,
      allCls_lit _ _ (by decide),
      allCls_atLeast isUrlTailChar (Re.cls isEmailDomainChar) isEmailDomainChar_tail 1,
      allCls_lit _ _ (by decide),
      allCls_atLeast isUrlTailChar (Re.cls Char.isAlpha) isAlpha_tail 2⟩
  exact fun c hc => (isUrlTailChar_facts c (hall c hc)).1

theorem jsTrim_of_no_whitespace (s : String) (h : ∀ c ∈ s.data, isJsWhitespace c = false) :
    jsTrim s = s := by
  unfold jsTrim
  rw [trimChars_of_no_whitespace s.data h]

/-- The phone and the email of a valid customer record have no leading or trailing
whitespace. -/
theorem validCustomer_trimmed (o : Obj) (h : ValidCustomer o) :
    TrimmedText (some (Value.prim (o.get "phone")))
      ∧ TrimmedText (some (Value.prim (o.get "email"))) := by
  obtain ⟨-, -, ⟨p, hp, hdig, -, -⟩, ⟨e, he, -, hre⟩⟩ := h
  rw [hp, he]
  exact ⟨jsTrim_of_no_whitespace p (fun c hc => isDigit_not_whitespace c (hdig c hc)),
    jsTrim_of_no_whitespace e (email_test_chars e hre)⟩

/-- A callback record that passes the checks has a URL without leading or trailing
whitespace. -/
theorem checkCallbackParameters_trimmed (rt : Runtime) (o : Obj)
    (h : checkCallbackParameters rt o = Except.ok ()) :
    TrimmedText (some (Value.prim (o.get "CallbackApiUrl"))) := by
  by_cases hstr : ∃ s, o.get "CallbackApiUrl" = JsVal.str s
  · obtain ⟨s, hs⟩ := hstr
    rw [checkCallbackParameters_str rt o s hs] at h
    rw [hs]
    by_cases h1 : trimChars s.data = []
    · rw [if_pos h1] at h
      cases h
    · rw [if_neg h1] at h
      by_cases h2 : CALLBACK_API_URL_REGEX.test s = true
      · exact (url_test_facts s h2).2.1
      · rw [if_neg h2] at h
        cases h
  · obtain ⟨e, he⟩ := checkCallbackParameters_not_str rt o
      (fun s hs => hstr ⟨s, hs⟩)
    rw [he] at h
    cases h

/-- A property of the value under a key that holds of the field of every call with that
key which does not throw holds in every state reached from a state in which it holds. -/
theorem runPaymentCalls_inv (P : Option Value → Prop) (k : String)
    (hstep : ∀ (rt : Runtime) (call : PaymentCall), call.key = k →
      (∃ e, ∀ c, call.run rt c = Result.mk c (some e)) ∨ P (some call.field))
    (calls : List (Runtime × PaymentCall)) (c : Container) (hc : P (c.get k)) :
    P ((runPaymentCalls c calls).get k) := by
  induction calls generalizing c with
  | nil => exact hc
  | cons p rest ih =>
    obtain ⟨rt, call⟩ := p
    simp only [runPaymentCalls]
    rcases paymentCall_run_field rt call with ⟨e, he⟩ | hw
    · rw [he c]
      exact ih c hc
    · rw [hw c]
      apply ih
      rw [container_get_set]
      by_cases hkey : call.key = k
      · rw [if_pos hkey]
        rcases hstep rt call hkey with ⟨e, he⟩ | hP
        · have hboth := (he c).symm.trans (hw c)
          simp at hboth
        · exact hP
      · rw [if_neg hkey]
        exact hc

theorem setCustomers_contacts (rt : Runtime) (d : CustomerDetails) :
    (∃ e, ∀ c, (PaymentCall.setCustomers d).run rt c = Result.mk c (some e))
      ∨ TrimmedContacts (some (PaymentCall.setCustomers d).field) := by
  cases d with
  | prim v => exact Or.inl ⟨_, fun _ => rfl⟩
  | object o => exact Or.inl ⟨_, fun _ => rfl⟩
  | inst cu =>
    simp only [PaymentCall.run, PaymentCall.field, CreatePaymentRequest.setCustomers]
    cases hj : cu.toJSON with
    | error e => exact Or.inl ⟨e, fun _ => rfl⟩
    | ok o =>
      rw [← customer_toJSON_field cu o hj]
      cases hv : validateCustomers rt [o] with
      | error e =>
        refine Or.inl ⟨e, fun c2 => ?_⟩
        show assign c2 (validateCustomers rt [o]) "Customers" (Value.arr [o]) = _
        rw [hv]
        rfl
      | ok u =>
        right
        intro o2 ho2
        exact validCustomer_trimmed o2 ((validateCustomers_ok rt [o]).mp hv o2 ho2)
  | array os =>
    simp only [PaymentCall.run, PaymentCall.field, CreatePaymentRequest.setCustomers]
    by_cases h : os.length = 0
    · simp only [h, if_true]
      exact Or.inl ⟨_, fun _ => rfl⟩
    · simp only [h, if_false]
      cases hv : validateCustomers rt os with
      | error e => exact Or.inl ⟨e, fun _ => rfl⟩
      | ok u =>
        right
        intro o2 ho2
        exact validCustomer_trimmed o2 ((validateCustomers_ok rt os).mp hv o2 ho2)

theorem setCallbackParameters_url (rt : Runtime) (d : CallbackInput) :
    (∃ e, ∀ c, (PaymentCall.setCallbackParameters d).run rt c = Result.mk c (some e))
      ∨ TrimmedUrl (some (PaymentCall.setCallbackParameters d).field) := by
  cases d with
  | prim v =>
    simp only [PaymentCall.run, CreatePaymentRequest.setCallbackParameters]
    by_cases h : truthy v = true
    · simp only [h, Bool.not_true, Bool.false_eq_true, if_false]
      obtain ⟨e, he⟩ := checkCallbackParameters_not_str rt []
        (fun s hs => by simp [Obj.get] at hs)
      rw [he]
      exact Or.inl ⟨e, fun _ => rfl⟩
    · simp only [h, Bool.not_false, if_true]
      exact Or.inl ⟨_, fun _ => rfl⟩
  | inst cb =>
    simp only [PaymentCall.run, PaymentCall.field, CreatePaymentRequest.setCallbackParameters]
    cases hj : cb.toJSON with
    | error e => exact Or.inl ⟨e, fun _ => rfl⟩
    | ok o =>
      rw [← callback_toJSON_field cb o hj]
      cases hv : checkCallbackParameters rt o with
      | error e =>
        refine Or.inl ⟨e, fun c2 => ?_⟩
        show assign c2 (checkCallbackParameters rt o) "CallbackParameters" (Value.obj o) = _
        rw [hv]
        rfl
      | ok u => exact Or.inr (checkCallbackParameters_trimmed rt o hv)
  | object o =>
    simp only [PaymentCall.run, PaymentCall.field, CreatePaymentRequest.setCallbackParameters]
    by_cases h : lengthIsZero o = true
    · simp only [h, if_true]
      exact Or.inl ⟨_, fun _ => rfl⟩
    · simp only [h, if_false]
      cases hv : checkCallbackParameters rt o with
      | error e => exact Or.inl ⟨e, fun _ => rfl⟩
      | ok u => exact Or.inr (checkCallbackParameters_trimmed rt o hv)

/-- In every state reached by payment setter calls, the stored customers have a trimmed
phone and email. -/
theorem runPaymentCalls_contacts (calls : List (Runtime × PaymentCall)) :
    TrimmedContacts ((buildPayment calls).get "Customers") := by
  refine runPaymentCalls_inv TrimmedContacts "Customers" ?_ calls [] trivial
  intro rt call hk
  cases call with
  | setCustomers d => exact setCustomers_contacts rt d
  | setTitle v => simp [PaymentCall.key] at hk
  | setAmount v => simp [PaymentCall.key] at hk
  | setShortDescription v => simp [PaymentCall.key] at hk
  | setPaymentDescription v => simp [PaymentCall.key] at hk
  | setEnablePartialPayment v => simp [PaymentCall.key] at hk
  | setEnableMultiplePayment v => simp [PaymentCall.key] at hk
  | setDisplayReceipt v => simp [PaymentCall.key] at hk
  | setExpireOn v => simp [PaymentCall.key] at hk
  | setCallbackParameters d => simp [PaymentCall.key] at hk
  | setSettings d => simp [PaymentCall.key] at hk

/-- In every state reached by payment setter calls, the stored callback URL is
trimmed. -/
theorem runPaymentCalls_url (calls : List (Runtime × PaymentCall)) :
    TrimmedUrl ((buildPayment calls).get "CallbackParameters") := by
  refine runPaymentCalls_inv TrimmedUrl "CallbackParameters" ?_ calls [] trivial
  intro rt call hk
  cases call with
  | setCallbackParameters d => exact setCallbackParameters_url rt d
  | setTitle v => simp [PaymentCall.key] at hk
  | setAmount v => simp [PaymentCall.key] at hk
  | setShortDescription v => simp [PaymentCall.key] at hk
  | setPaymentDescription v => simp [PaymentCall.key] at hk
  | setEnablePartialPayment v => simp [PaymentCall.key] at hk
  | setEnableMultiplePayment v => simp [PaymentCall.key] at hk
  | setDisplayReceipt v => simp [PaymentCall.key] at hk
  | setExpireOn v => simp [PaymentCall.key] at hk
  | setCustomers d => simp [PaymentCall.key] at hk
  | setSettings d => simp [PaymentCall.key] at hk

/-- A setter call of a refund request either throws and leaves every container as it is,
or writes its argument, as it was passed, under its own key. -/
theorem refundCall_run_field (rt : Runtime) (call : RefundCall) :
    (∃ e, ∀ c, call.run rt c = Result.mk c (some e)) ∨
      (∀ c, call.run rt c = Result.mk (c.set call.key call.field) none) := by
  cases call with
  | setRefundAmount v => exact assign_field _ _ _
  | setRefundRemarks v => exact assign_field _ _ _
  | setOrderId v => exact assign_field _ _ _

/-- A value held by the container after refund setter calls was there before or is the
argument of one of the calls with that key. -/
theorem runRefundCalls_passed (calls : List (Runtime × RefundCall)) (c : Container)
    (k : String) :
    (runRefundCalls c calls).get k = c.get k
      ∨ ∃ p ∈ calls, p.2.key = k ∧ (runRefundCalls c calls).get k = some p.2.field := by
  induction calls generalizing c with
  | nil => exact Or.inl rfl
  | cons p rest ih =>
    obtain ⟨rt, call⟩ := p
    simp only [runRefundCalls]
    rcases ih (call.run rt c).container with h | ⟨q, hq, hqk, hqv⟩
    · rcases refundCall_run_field rt call with ⟨e, he⟩ | hw
      · rw [he c] at h ⊢
        exact Or.inl h
      · rw [hw c] at h ⊢
        rw [container_get_set] at h
        by_cases hkey : call.key = k
        · rw [if_pos hkey] at h
          exact Or.inr ⟨(rt, call), List.mem_cons_self _ _, hkey, h⟩
        · rw [if_neg hkey] at h
          exact Or.inl h
    · exact Or.inr ⟨q, List.mem_cons_of_mem _ hq, hqk, hqv⟩

/-- Claim C18, amended. In every state reached by setter calls on a new payment request,
the values held under `title`, `shortDescription`, `paymentDescription` and `expireOn`
are strings that equal their trimmed form, every stored customer has a phone and an
email that equal their trimmed form, and the stored `CallbackApiUrl` equals its trimmed
form, whether the values were passed typed or flattened. `setCustomers` on a typed
`Customer` and `setCallbackParameters` on a typed `CallbackParameters` with string
fields either throw or store the record of the trimmed fields, and trimming a trimmed
string changes nothing. A list of flattened customers, a flattened callback structure,
the refund remarks and the order id are stored exactly as they were passed whenever the
call does not throw: every setter call of a refund request throws or writes its argument
under its key, every value held by a refund request is the argument of one of the calls
with that key, and every value held by a payment request is the field set by the last
call with that key that did not throw. -/
theorem stored_text_trimmed (calls : List (Runtime × PaymentCall))
    (rcalls : List (Runtime × RefundCall)) (rt : Runtime)
    (c : Container) (f l p e u r : String) :
    TrimmedText ((buildPayment calls).get "title")
    ∧ TrimmedText ((buildPayment calls).get "shortDescription")
    ∧ TrimmedText ((buildPayment calls).get "paymentDescription")
    ∧ TrimmedText ((buildPayment calls).get "expireOn")
    ∧ ((∃ err, setCustomers rt (CustomerDetails.inst
          (Customer.mk (JsVal.str f) (JsVal.str l) (JsVal.str p) (JsVal.str e))) c
          = Result.mk c (some err))
      ∨ setCustomers rt (CustomerDetails.inst
          (Customer.mk (JsVal.str f) (JsVal.str l) (JsVal.str p) (JsVal.str e))) c
        = Result.mk (c.set "Customers"
            (Value.arr [customerRecord (jsTrim f) (jsTrim l) (jsTrim p) (jsTrim e)])) none)
    ∧ ((∃ err, setCallbackParameters rt (CallbackInput.inst
          (CallbackParameters.mk (JsVal.str u) (JsVal.str r))) c = Result.mk c (some err))
      ∨ setCallbackParameters rt (CallbackInput.inst
          (CallbackParameters.mk (JsVal.str u) (JsVal.str r))) c
        = Result.mk (c.set "CallbackParameters"
            (Value.obj (callbackRecord (jsTrim u) (jsTrim r)))) none)
    ∧ (∀ s, jsTrim (jsTrim s) = jsTrim s)
    ∧ TrimmedContacts ((buildPayment calls).get "Customers")
    ∧ TrimmedUrl ((buildPayment calls).get "CallbackParameters")
    ∧ (∀ os : List Obj,
        (∃ err, setCustomers rt (CustomerDetails.array os) c = Result.mk c (some err))
        ∨ setCustomers rt (CustomerDetails.array os) c
          = Result.mk (c.set "Customers" (Value.arr os)) none)
    ∧ (∀ o : Obj,
        (∃ err, setCallbackParameters rt (CallbackInput.object o) c = Result.mk c (some err))
        ∨ setCallbackParameters rt (CallbackInput.object o) c
          = Result.mk (c.set "CallbackParameters" (Value.obj o)) none)
    ∧ (∀ v : JsVal,
        (∃ err, setRefundRemarks v c = Result.mk c (some err))
        ∨ setRefundRemarks v c = Result.mk (c.set "Remarks" (Value.prim v)) none)
    ∧ (∀ v : JsVal,
        (∃ err, setOrderId v c = Result.mk c (some err))
        ∨ setOrderId v c = Result.mk (c.set "OrderId" (Value.prim v)) none)
    ∧ (∀ (rcall : RefundCall),
        (∃ err, rcall.run rt c = Result.mk c (some err))
        ∨ rcall.run rt c = Result.mk (c.set rcall.key rcall.field) none)
    ∧ (∀ k, (buildRefund rcalls).get k = none
        ∨ ∃ q ∈ rcalls, q.2.key = k ∧ (buildRefund rcalls).get k = some q.2.field)
    ∧ (∀ k, (buildPayment calls).get k = fieldsSet k calls) := by
  refine ⟨runPaymentCalls_text calls [] _ (by simp) trivial,
    runPaymentCalls_text calls [] _ (by simp) trivial,
    runPaymentCalls_text calls [] _ (by simp) trivial,
    runPaymentCalls_text calls [] _ (by simp) trivial, ?_, ?_, jsTrim_idem,
    runPaymentCalls_contacts calls, runPaymentCalls_url calls, ?_, ?_, ?_, ?_, ?_, ?_, ?_⟩
  · simp only [setCustomers, toJSON_strings]
    rcases assign_cases (validateCustomers rt
        [customerRecord (jsTrim f) (jsTrim l) (jsTrim p) (jsTrim e)]) "Customers"
        (Value.arr [customerRecord (jsTrim f) (jsTrim l) (jsTrim p) (jsTrim e)])
      with ⟨err, herr⟩ | ⟨w, hw⟩
    · exact Or.inl ⟨err, herr c⟩
    · cases hv : validateCustomers rt
          [customerRecord (jsTrim f) (jsTrim l) (jsTrim p) (jsTrim e)] with
      | error err => exact Or.inl ⟨err, rfl⟩
      | ok x => exact Or.inr rfl
  · rw [setCallbackParameters_inst, setCallbackParameters_record]
    by_cases h1 : trimChars (jsTrim u).data = []
    · rw [if_pos h1]
      exact Or.inl ⟨_, rfl⟩
    · rw [if_neg h1]
      by_cases h2 : CALLBACK_API_URL_REGEX.test (jsTrim u) = true
      · rw [if_pos h2]
        by_cases h3 : 2048 < jsLength (jsTrim u)
        · rw [if_pos h3]
          exact Or.inl ⟨_, rfl⟩
        · rw [if_neg h3]
          exact Or.inr rfl
      · rw [if_neg h2]
        exact Or.inl ⟨_, rfl⟩
  · intro os
    rcases paymentCall_run_field rt (PaymentCall.setCustomers (CustomerDetails.array os))
      with ⟨e, he⟩ | hw
    · exact Or.inl ⟨e, he c⟩
    · exact Or.inr (hw c)
  · intro o
    rcases paymentCall_run_field rt
        (PaymentCall.setCallbackParameters (CallbackInput.object o)) with ⟨e, he⟩ | hw
    · exact Or.inl ⟨e, he c⟩
    · exact Or.inr (hw c)
  · intro v
    rcases refundCall_run_field rt (RefundCall.setRefundRemarks v) with ⟨e, he⟩ | hw
    · exact Or.inl ⟨e, he c⟩
    · exact Or.inr (hw c)
  · intro v
    rcases refundCall_run_field rt (RefundCall.setOrderId v) with ⟨e, he⟩ | hw
    · exact Or.inl ⟨e, he c⟩
    · exact Or.inr (hw c)
  · intro rcall
    rcases refundCall_run_field rt rcall with ⟨e, he⟩ | hw
    · exact Or.inl ⟨e, he c⟩
    · exact Or.inr (hw c)
  · intro k
    exact runRefundCalls_passed rcalls [] k
  · intro k
    unfold buildPayment
    rw [runPaymentCalls_fieldsSet]
    cases fieldsSet k calls <;> rfl

/-! ## The refund payload, hyphens in callback URLs, and the frame of the setters -/

/-- Claim C21. For every sequence of setter calls on a new refund request, `createRefund`
passes on, as a POST body, the container with `UserType = 1` written into it: the
payload holds 1 under `UserType` and, under every other key, what the container holds;
the container holds under each key what the last call with that key that did not throw
stored, and it has no other keys than `Amount`, `Remarks` and `OrderId`. -/
theorem refund_payload (rcalls : List (Runtime × RefundCall)) (accessKey secretKey : String) :
    Auropay.createRefund (some (buildRefund rcalls))
        = Except.ok (Auropay.ConnectCall.mk "1.0" "POST" "api/refunds"
            ((buildRefund rcalls).set "UserType" (Value.prim (JsVal.num (JsNum.fin 1)))))
    ∧ (Auropay.requestOptions accessKey secretKey "1.0" "POST" "api/refunds"
        (some ((buildRefund rcalls).set "UserType" (Value.prim (JsVal.num (JsNum.fin 1)))))).data
        = some ((buildRefund rcalls).set "UserType" (Value.prim (JsVal.num (JsNum.fin 1))))
    ∧ (∀ k, ((buildRefund rcalls).set "UserType" (Value.prim (JsVal.num (JsNum.fin 1)))).get k =
        if k = "UserType" then some (Value.prim (JsVal.num (JsNum.fin 1)))
        else (buildRefund rcalls).get k)
    ∧ (∀ k, (buildRefund rcalls).get k = lastStored RefundCall.run RefundCall.key k rcalls)
    ∧ (∀ k, (buildRefund rcalls).get k = none ∨ k = "Amount" ∨ k = "Remarks" ∨ k = "OrderId") := by
  refine ⟨rfl, rfl, ?_, buildRefund_get rcalls, ?_⟩
  · intro k
    rw [container_get_set]
    by_cases hk : k = "UserType"
    · rw [if_pos hk, if_pos hk.symm]
    · rw [if_neg hk, if_neg (fun h => hk h.symm)]
  · intro k
    by_cases h1 : k = "Amount"
    · exact Or.inr (Or.inl h1)
    · by_cases h2 : k = "Remarks"
      · exact Or.inr (Or.inr (Or.inl h2))
      · by_cases h3 : k = "OrderId"
        · exact Or.inr (Or.inr (Or.inr h3))
        · exact Or.inl (buildRefund_key_absent rcalls k h1 h2 h3)

/-- Claim C23. For every runtime, container and setter call of a payment request or of a
refund request: the call does not throw or the container after it is the container
before it; and every key is the key of the setter or has the same value, or the same
absence of a value, after the call as before. -/
theorem setter_frame (rt : Runtime) (c : Container) (call : PaymentCall) (rcall : RefundCall) :
    ((call.run rt c).thrown = none ∨ (call.run rt c).container = c)
    ∧ (∀ k, k = call.key ∨ (call.run rt c).container.get k = c.get k)
    ∧ ((rcall.run rt c).thrown = none ∨ (rcall.run rt c).container = c)
    ∧ (∀ k, k = rcall.key ∨ (rcall.run rt c).container.get k = c.get k)
    ∧ ((call.run rt c).container = c ∨ ∃ w, (call.run rt c).container = c.set call.key w)
    ∧ ((rcall.run rt c).container = c ∨ ∃ w, (rcall.run rt c).container = c.set rcall.key w) := by
  refine ⟨?_, ?_, ?_, ?_, ?_, ?_⟩
  · rcases paymentCall_run_cases rt call with ⟨e, he⟩ | ⟨w, hw⟩
    · rw [he c]
      exact Or.inr rfl
    · rw [hw c]
      exact Or.inl rfl
  · intro k
    rcases paymentCall_run_cases rt call with ⟨e, he⟩ | ⟨w, hw⟩
    · rw [he c]
      exact Or.inr rfl
    · rw [hw c]
      by_cases hk : call.key = k
      · exact Or.inl hk.symm
      · right
        show (c.set call.key w).get k = c.get k
        rw [container_get_set, if_neg hk]
  · rcases refundCall_run_cases rt rcall with ⟨e, he⟩ | ⟨w, hw⟩
    · rw [he c]
      exact Or.inr rfl
    · rw [hw c]
      exact Or.inl rfl
  · intro k
    rcases refundCall_run_cases rt rcall with ⟨e, he⟩ | ⟨w, hw⟩
    · rw [he c]
      exact Or.inr rfl
    · rw [hw c]
      by_cases hk : rcall.key = k
      · exact Or.inl hk.symm
      · right
        show (c.set rcall.key w).get k = c.get k
        rw [container_get_set, if_neg hk]
  · rcases paymentCall_run_cases rt call with ⟨e, he⟩ | ⟨w, hw⟩
    · rw [he c]
      exact Or.inl rfl
    · rw [hw c]
      exact Or.inr ⟨w, rfl⟩
  · rcases refundCall_run_cases rt rcall with ⟨e, he⟩ | ⟨w, hw⟩
    · rw [he c]
      exact Or.inl rfl
    · rw [hw c]
      exact Or.inr ⟨w, rfl⟩

theorem isUrlChar_lit (l : List Char) (h : l.all isUrlChar = true) :
    Re.AllCls isUrlChar (Re.lit l) :=
  allCls_lit isUrlChar l (fun c hc => List.all_eq_true.mp h c hc)

/-- The shape of a string that matches the URL pattern: a scheme, a part without hyphen,
a dot, two to six lower-case letters, and a rest that is empty or starts with a
character outside `\w`. -/
theorem url_test_shape (s : String) (hs : CALLBACK_API_URL_REGEX.test s = true) :
    ∃ scheme host suf tail : List Char,
      (scheme = "http://".data ∨ scheme = "https://".data)
      ∧ s.data = scheme ++ (host ++ '.' :: (suf ++ tail))
      ∧ '-' ∉ host
      ∧ 2 ≤ suf.length ∧ suf.length ≤ 6 ∧ (∀ ch ∈ suf, ch.isLower = true)
      ∧ (tail = [] ∨ ∃ ch t, tail = ch :: t ∧ isWordChar ch = false) := by
  unfold CALLBACK_API_URL_REGEX at hs
  rw [test_anchored] at hs
  obtain ⟨a, r1, e1, hA, b, r2, e2, hB, x, r3, e3, hC, d, r4, e4, hD, suf, tail, e5, hE, hF⟩ := hs
  obtain ⟨a1, a2, ea, ha1, a3, a4, ea2, ha3, ha4⟩ := hA
  rw [Re.lang_lit] at ha1 ha4 hD
  rw [Re.lang_range_cls] at hE
  have hscheme : a = "http://".data ∨ a = "https://".data := by
    rcases ha3 with h | h
    · left
      have h3 : a3 = [] := h
      rw [ea, ea2, ha1, ha4, h3]
      rfl
    · right
      have h3 : a3 = ['s'] := (Re.lang_lit _ _).mp h
      rw [ea, ea2, ha1, ha4, h3]
      rfl
  have hb : ∀ ch ∈ b, isUrlChar ch = true :=
    lang_allCls isUrlChar (Re.opt (Re.lit ['w', 'w', 'w', '.']))
      (show Re.AllCls isUrlChar (Re.alt Re.eps (Re.lit ['w', 'w', 'w', '.'])) from
        ⟨trivial, isUrlChar_lit _ (by decide)⟩) b hB
  have hx : ∀ ch ∈ x, isUrlChar ch = true :=
    lang_allCls isUrlChar _ (allCls_range isUrlChar (Re.cls isUrlChar) (fun _ h => h) 2 256) x hC
  have hhost : '-' ∉ b ++ x := by
    intro hmem
    have hurl : isUrlChar '-' = true := by
      rcases List.mem_append.mp hmem with h | h
      · exact hb _ h
      · exact hx _ h
    exact absurd hurl (by decide)
  refine ⟨a, b ++ x, suf, tail, hscheme, ?_, hhost, hE.1, hE.2.1, hE.2.2, ?_⟩
  · rw [e1, e2, e3, e4, e5, hD]
    simp [List.append_assoc]
  · rcases hF with h | ⟨u, v, euv, ⟨ch, hch, hnw⟩, -⟩
    · exact Or.inl h
    · right
      refine ⟨ch, v, by rw [euv, hch]; rfl, ?_⟩
      simp only [Bool.and_eq_true, Bool.not_eq_true'] at hnw
      exact hnw.2

/-- Claim C22. The URL `https://my-site.com/callback`, with a hyphen in the host name, is
rejected by `setCallbackParameters` with SE0014, as a flattened structure and as a typed
value, for every runtime, container and reference number. Every string that matches
the URL pattern is a scheme `http://` or `https://`, a part without any hyphen, a dot,
two to six lower-case letters, and a rest that is empty or starts with a character
outside `\w`: a hyphen can only occur in that rest. -/
theorem hyphen_only_after_suffix (rt : Runtime) (c : Container) (r s : String)
    (hs : CALLBACK_API_URL_REGEX.test s = true) :
    setCallbackParameters rt
        (CallbackInput.object (callbackRecord "https://my-site.com/callback" r)) c
      = Result.mk c (some (Err.catalog "SE0014"))
    ∧ setCallbackParameters rt (CallbackInput.inst (CallbackParameters.mk
        (JsVal.str "https://my-site.com/callback") (JsVal.str r))) c
      = Result.mk c (some (Err.catalog "SE0014"))
    ∧ ∃ scheme host suf tail : List Char,
      (scheme = "http://".data ∨ scheme = "https://".data)
      ∧ s.data = scheme ++ (host ++ '.' :: (suf ++ tail))
      ∧ '-' ∉ host
      ∧ 2 ≤ suf.length ∧ suf.length ≤ 6 ∧ (∀ ch ∈ suf, ch.isLower = true)
      ∧ (tail = [] ∨ ∃ ch t, tail = ch :: t ∧ isWordChar ch = false) := by
  have hu : jsTrim "https://my-site.com/callback" = "https://my-site.com/callback" := by decide
  have h1 : ¬ trimChars "https://my-site.com/callback".data = [] := by decide
  have h2 : ¬ CALLBACK_API_URL_REGEX.test "https://my-site.com/callback" = true := by decide
  have hrec : ∀ r2 : String, setCallbackParameters rt
      (CallbackInput.object (callbackRecord "https://my-site.com/callback" r2)) c
      = Result.mk c (some (Err.catalog "SE0014")) := by
    intro r2
    rw [setCallbackParameters_record, if_neg h1, if_neg h2]
  refine ⟨hrec r, ?_, url_test_shape s hs⟩
  rw [setCallbackParameters_inst, hu]
  exact hrec (jsTrim r)

/-- Claim C22 at the accepted URL `https://mysite.com/call-back`, whose hyphen comes
after the suffix `.com`. -/
theorem hyphen_only_after_suffix_witness :
    setCallbackParameters (refRuntime 0)
        (CallbackInput.object (callbackRecord "https://my-site.com/callback" "order 1"))
        titledContainer
      = Result.mk titledContainer (some (Err.catalog "SE0014"))
    ∧ ∃ scheme host suf tail : List Char,
      (scheme = "http://".data ∨ scheme = "https://".data)
      ∧ "https://mysite.com/call-back".data = scheme ++ (host ++ '.' :: (suf ++ tail))
      ∧ '-' ∉ host
      ∧ 2 ≤ suf.length ∧ suf.length ≤ 6 ∧ (∀ ch ∈ suf, ch.isLower = true)
      ∧ (tail = [] ∨ ∃ ch t, tail = ch :: t ∧ isWordChar ch = false) :=
  ⟨(hyphen_only_after_suffix (refRuntime 0) titledContainer "order 1"
      "https://mysite.com/call-back" (by decide)).1,
    (hyphen_only_after_suffix (refRuntime 0) titledContainer "order 1"
      "https://mysite.com/call-back" (by decide)).2.2⟩

end AuropaySDK
